import Mathlib

set_option synthInstance.maxHeartbeats 1000000
set_option maxHeartbeats 1000000
set_option maxRecDepth 8000

/-!
A verification development for the tree-sitter extraction subsystem of the
codegraph repository (`src/extraction/tree-sitter.ts`).  The TypeScript
source is shallowly embedded: pure helpers become Lean functions, the
stateful CST walker becomes a fuel-indexed step function over an explicit
`WalkState`, and external collaborators (the native tree-sitter parser,
`JSON.parse`, `Date.now`) become parameters of the embedded entry points.
-/

namespace CodeGraph

/-! ## SHA-256 (crypto.createHash('sha256')), over byte lists -/

/-- 32-bit truncation. -/
def w32 (n : Nat) : Nat := n % 4294967296

/-- 32-bit rotate right. -/
def rotr (x n : Nat) : Nat :=
  w32 ((x >>> n) ||| (x <<< (32 - n)))

/-- 32-bit right shift. -/
def shr (x n : Nat) : Nat := x >>> n

/-- The 64 SHA-256 round constants (fractional cube-root bits of the first
primes), written in decimal. -/
def sha256K : List Nat :=
  [1116352408, 1899447441, 3049323471, 3921009573, 961987163, 1508970993,
   2453635748, 2870763221, 3624381080, 310598401, 607225278, 1426881987,
   1925078388, 2162078206, 2614888103, 3248222580, 3835390401, 4022224774,
   264347078, 604807628, 770255983, 1249150122, 1555081692, 1996064986,
   2554220882, 2821834349, 2952996808, 3210313671, 3336571891, 3584528711,
   113926993, 338241895, 666307205, 773529912, 1294757372, 1396182291,
   1695183700, 1986661051, 2177026350, 2456956037, 2730485921, 2820302411,
   3259730800, 3345764771, 3516065817, 3600352804, 4094571909, 275423344,
   430227734, 506948616, 659060556, 883997877, 958139571, 1322822218,
   1537002063, 1747873779, 1955562222, 2024104815, 2227730452, 2361852424,
   2428436474, 2756734187, 3204031479, 3329325298]

/-- The eight initial chaining words (fractional square-root bits), decimal. -/
def sha256H0 : List Nat :=
  [1779033703, 3144134277, 1013904242, 2773480762,
   1359893119, 2600822924, 528734635, 1541459225]

/-- Pad a message (list of bytes) to a multiple of 64 bytes, SHA-256 style. -/
def sha256Pad (msg : List Nat) : List Nat :=
  let len := msg.length
  let bitLen := len * 8
  let padZeros := (119 - (len % 64)) % 64
  msg ++ [0x80] ++ List.replicate padZeros 0 ++
    [(bitLen >>> 56) % 256, (bitLen >>> 48) % 256, (bitLen >>> 40) % 256, (bitLen >>> 32) % 256,
     (bitLen >>> 24) % 256, (bitLen >>> 16) % 256, (bitLen >>> 8) % 256, bitLen % 256]

/-- Group a byte list into 32-bit big-endian words. -/
def bytesToWords : List Nat → List Nat
  | a :: b :: c :: d :: rest => (a * 16777216 + b * 65536 + c * 256 + d) :: bytesToWords rest
  | _ => []

/-- Extend 16 message words to the 64-entry message schedule. -/
def sha256Schedule (ws : List Nat) (i : Nat) : List Nat :=
  match i with
  | 0 => ws
  | k + 1 =>
    let prev := sha256Schedule ws k
    let n := prev.length
    let w15 := prev.getD (n - 15) 0
    let w2 := prev.getD (n - 2) 0
    let w16 := prev.getD (n - 16) 0
    let w7 := prev.getD (n - 7) 0
    let s0 := w32 (Nat.xor (Nat.xor (rotr w15 7) (rotr w15 18)) (shr w15 3))
    let s1 := w32 (Nat.xor (Nat.xor (rotr w2 17) (rotr w2 19)) (shr w2 10))
    prev ++ [w32 (w16 + s0 + w7 + s1)]

/-- One round of SHA-256 compression: state is `[a,b,c,d,e,f,g,h]`. -/
def sha256Round (st : List Nat) (k w : Nat) : List Nat :=
  match st with
  | [a, b, c, d, e, f, g, h] =>
    let s1 := w32 (Nat.xor (Nat.xor (rotr e 6) (rotr e 11)) (rotr e 25))
    let ch := w32 (Nat.xor (Nat.land e f) (Nat.land (4294967295 - e) g))
    let t1 := w32 (h + s1 + ch + k + w)
    let s0 := w32 (Nat.xor (Nat.xor (rotr a 2) (rotr a 13)) (rotr a 22))
    let mj := w32 (Nat.xor (Nat.xor (Nat.land a b) (Nat.land a c)) (Nat.land b c))
    let t2 := w32 (s0 + mj)
    [w32 (t1 + t2), a, b, c, w32 (d + t1), e, f, g]
  | other => other

/-- Compress one 16-word block into the running hash. -/
def sha256Block (h : List Nat) (block : List Nat) : List Nat :=
  let ws := sha256Schedule block 48
  let fin := (List.zip sha256K ws).foldl (fun st kw => sha256Round st kw.1 kw.2) h
  (List.zip h fin).map (fun p => w32 (p.1 + p.2))

/-- Split a word list into 16-word blocks (padded input is always a multiple of 16 words). -/
def chunk16 : List Nat → List (List Nat)
  | w0 :: w1 :: w2 :: w3 :: w4 :: w5 :: w6 :: w7 ::
    w8 :: w9 :: w10 :: w11 :: w12 :: w13 :: w14 :: w15 :: rest =>
      [w0, w1, w2, w3, w4, w5, w6, w7, w8, w9, w10, w11, w12, w13, w14, w15] :: chunk16 rest
  | _ => []

/-- Full SHA-256 of a byte list, as a list of 32 digest bytes. -/
def sha256Bytes (msg : List Nat) : List Nat :=
  let blocks := chunk16 (bytesToWords (sha256Pad msg))
  let h := blocks.foldl sha256Block sha256H0
  h.flatMap (fun x => [(x >>> 24) % 256, (x >>> 16) % 256, (x >>> 8) % 256, x % 256])

/-- Hex digit for a nibble. -/
def hexDigit (n : Nat) : Char :=
  if n < 10 then Char.ofNat (48 + n) else Char.ofNat (87 + n)

/-- Lowercase hex encoding of a byte list (crypto `digest('hex')`). -/
def bytesToHex (bs : List Nat) : String :=
  String.mk (bs.flatMap (fun b => [hexDigit (b / 16), hexDigit (b % 16)]))

/-- UTF-8 encoding of a string as a byte list (Node strings are hashed as UTF-8). -/
def utf8Bytes (s : String) : List Nat :=
  s.data.flatMap (fun c =>
    let n := c.toNat
    if n < 128 then [n]
    else if n < 2048 then [192 + n / 64, 128 + n % 64]
    else if n < 65536 then [224 + n / 4096, 128 + (n / 64) % 64, 128 + n % 64]
    else [240 + n / 262144, 128 + (n / 4096) % 64, 128 + (n / 64) % 64, 128 + n % 64])

/-- SHA-256 hex digest of a string. -/
def sha256Hex (s : String) : String :=
  bytesToHex (sha256Bytes (utf8Bytes s))

/-! ## Data model (src/types, as used by src/extraction/tree-sitter.ts) -/

/-- Language tags (closed set, §4.1 of the spec / src/types). -/
inductive Language where
  | typescript | tsx | javascript | jsx | python | go | rust | java
  | c | cpp | csharp | php | ruby | swift | kotlin | liquid | unknown
deriving DecidableEq

/-- The string form of a language tag. -/
def languageName : Language → String
  | .typescript => "typescript" | .tsx => "tsx" | .javascript => "javascript"
  | .jsx => "jsx" | .python => "python" | .go => "go" | .rust => "rust"
  | .java => "java" | .c => "c" | .cpp => "cpp" | .csharp => "csharp"
  | .php => "php" | .ruby => "ruby" | .swift => "swift" | .kotlin => "kotlin"
  | .liquid => "liquid" | .unknown => "unknown"

/-- Node kinds (closed set).  `class`, `variable` are Lean keywords, hence the
trailing underscore; `kindName` gives the source string. -/
inductive NodeKind where
  | file | function | method | class_ | struct | interface | trait | enum
  | enum_member | property | constant | variable_ | type_alias | component | route
deriving DecidableEq

/-- The string form of a node kind. -/
def kindName : NodeKind → String
  | .file => "file" | .function => "function" | .method => "method"
  | .class_ => "class" | .struct => "struct" | .interface => "interface"
  | .trait => "trait" | .enum => "enum" | .enum_member => "enum_member"
  | .property => "property" | .constant => "constant" | .variable_ => "variable"
  | .type_alias => "type_alias" | .component => "component" | .route => "route"

/-- Visibility values (`private`, `protected` are Lean keywords, hence the underscore). -/
inductive Visibility where
  | public | private_ | protected_ | internal
deriving DecidableEq

/-- Edge kinds. -/
inductive EdgeKind where
  | contains | calls | imports | extends_ | implements | references
deriving DecidableEq

/-- Reference kinds for unresolved references. -/
inductive RefKind where
  | calls | imports | extends_ | implements | references
deriving DecidableEq

/-- Error severity. -/
inductive Severity where
  | error | warning
deriving DecidableEq

/-- An emitted graph node (the `Node` shape of src/types). -/
structure Node where
  id : String
  kind : NodeKind
  name : String
  qualifiedName : String
  filePath : String
  language : Language
  startLine : Nat
  endLine : Nat
  startColumn : Nat
  endColumn : Nat
  updatedAt : Nat
  visibility : Option Visibility := none
  isExported : Option Bool := none
  isAsync : Option Bool := none
  isStatic : Option Bool := none
  isAbstract : Option Bool := none
  signature : Option String := none
  docstring : Option String := none
  decorators : Option (List String) := none
deriving DecidableEq

/-- An emitted edge. -/
structure Edge where
  source : String
  target : String
  kind : EdgeKind
deriving DecidableEq

/-- An unresolved by-name reference. -/
structure UnresolvedReference where
  fromNodeId : String
  referenceName : String
  referenceKind : RefKind
  line : Nat
  column : Nat
deriving DecidableEq

/-- An extraction error record. -/
structure ExtractionError where
  message : String
  severity : Severity
deriving DecidableEq

/-- The result record of one extraction. -/
structure ExtractionResult where
  nodes : List Node
  edges : List Edge
  unresolvedReferences : List UnresolvedReference
  errors : List ExtractionError
  durationMs : Nat
deriving DecidableEq

/-- `generateNodeId` (tree-sitter.ts:26): `kind:` followed by the first 32 hex
characters of the SHA-256 digest of `filePath:kind:name:line`. -/
def generateNodeId (filePath : String) (kind : NodeKind) (name : String) (line : Nat) : String :=
  let hash := String.mk ((sha256Hex (filePath ++ ":" ++ kindName kind ++ ":" ++ name ++ ":" ++ toString line)).data.take 32)
  kindName kind ++ ":" ++ hash

/-! ## The concrete syntax tree

The tree-sitter `SyntaxNode` interface, as far as the extractor consumes it:
a type string, a named flag, character start/end indices into the source,
start/end row/column positions, named field links and the ordered child list.
Fields are stored as `(fieldName, index into children)`.  Parent and sibling
pointers of the real CST are supplied by the walker as a `Ctx` value when it
descends (a purely functional tree has no back pointers). -/

structure NodeInfo where
  type : String
  named : Bool := true
  startIndex : Nat := 0
  endIndex : Nat := 0
  startRow : Nat := 0
  startCol : Nat := 0
  endRow : Nat := 0
  endCol : Nat := 0
  fields : List (String × Nat) := []
deriving DecidableEq

mutual
inductive SyntaxNode where
  | node (info : NodeInfo) (childList : SyntaxNodeList)
inductive SyntaxNodeList where
  | nil
  | cons (head : SyntaxNode) (tail : SyntaxNodeList)
end

def SyntaxNodeList.toList : SyntaxNodeList → List SyntaxNode
  | .nil => []
  | .cons h t => h :: t.toList

def SyntaxNodeList.ofList : List SyntaxNode → SyntaxNodeList
  | [] => .nil
  | h :: t => .cons h (SyntaxNodeList.ofList t)

/-- Build a CST node from an ordinary child list. -/
def SyntaxNode.mk (info : NodeInfo) (children : List SyntaxNode) : SyntaxNode :=
  .node info (SyntaxNodeList.ofList children)

def SyntaxNode.info : SyntaxNode → NodeInfo
  | .node i _ => i

def SyntaxNode.children : SyntaxNode → List SyntaxNode
  | .node _ cs => cs.toList

mutual
/-- A fuel bound large enough for the walker's recursion over a tree. -/
def treeFuel : SyntaxNode → Nat
  | .node _ cs => 1 + treeFuelList cs
def treeFuelList : SyntaxNodeList → Nat
  | .nil => 0
  | .cons h t => treeFuel h + treeFuelList t
end

def SyntaxNode.type (n : SyntaxNode) : String := n.info.type

def SyntaxNode.namedChildren (n : SyntaxNode) : List SyntaxNode :=
  n.children.filter (·.info.named)

def SyntaxNode.namedChild (n : SyntaxNode) (i : Nat) : Option SyntaxNode :=
  n.namedChildren.get? i

/-- JS `source.substring(a, b)` (the extractor always calls it with `a ≤ b`). -/
def jsSubstring (s : String) (a b : Nat) : String :=
  String.mk ((s.data.drop a).take (b - a))

/-- `getNodeText` (tree-sitter.ts:43). -/
def getNodeText (n : SyntaxNode) (source : String) : String :=
  jsSubstring source n.info.startIndex n.info.endIndex

/-- Whether `needle` occurs as a contiguous run inside `hay`. -/
def listIncludes (needle : List Char) : List Char → Bool
  | [] => needle.isEmpty
  | c :: rest => needle.isPrefixOf (c :: rest) || listIncludes needle rest

/-- JS `haystack.includes(needle)`. -/
def jsIncludes (haystack needle : String) : Bool :=
  listIncludes needle.data haystack.data

/-- JS whitespace for `\s` / `trim` (ASCII portion). -/
def isJsWs (c : Char) : Bool :=
  c = ' ' || c = Char.ofNat 9 || c = Char.ofNat 10 || c = Char.ofNat 13 ||
  c = Char.ofNat 11 || c = Char.ofNat 12

/-- JS `String.prototype.trim`. -/
def jsTrim (s : String) : String :=
  String.mk (((s.data.dropWhile isJsWs).reverse.dropWhile isJsWs).reverse)

/-- JS `s.split(c)` for a single-character separator. -/
def splitCharGo (c : Char) (acc : List Char) : List Char → List String
  | [] => [String.mk acc.reverse]
  | x :: xs =>
    if x = c then String.mk acc.reverse :: splitCharGo c [] xs
    else splitCharGo c (x :: acc) xs

def splitChar (c : Char) (s : String) : List String :=
  splitCharGo c [] s.data

/-- JS `parts.join(sep)`. -/
def joinSep (sep : String) : List String → String
  | [] => ""
  | [x] => x
  | x :: xs => x ++ sep ++ joinSep sep xs

/-- `getChildByField` (tree-sitter.ts:50): field lookup, falling back to the
first named child whose type equals the field name. -/
def getChildByField (n : SyntaxNode) (fieldName : String) : Option SyntaxNode :=
  match (n.info.fields.find? (·.1 = fieldName)).bind (fun p => n.children.get? p.2) with
  | some c => some c
  | none => n.namedChildren.find? (·.type = fieldName)

/-- Walker-supplied context for one node: the parent's type, the parent's full
child list, and this node's preceding siblings (nearest first).  These stand in
for the CST's `parent` / `previousSibling` / `previousNamedSibling` pointers. -/
structure Ctx where
  parentType : Option String := none
  parentChildren : List SyntaxNode := []
  prevSibs : List SyntaxNode := []

/-- Strip `/**`, `/*` and a trailing `*/` (the `^\/\*\*?|\*\/$` replacement). -/
def stripBlockMarkers (s : List Char) : List Char :=
  let s1 :=
    if s.take 3 = [Char.ofNat 47, Char.ofNat 42, Char.ofNat 42] then s.drop 3
    else if s.take 2 = [Char.ofNat 47, Char.ofNat 42] then s.drop 2
    else s
  if s1.reverse.take 2 = [Char.ofNat 47, Char.ofNat 42] then (s1.reverse.drop 2).reverse else s1

/-- Per line, strip a leading `//` and one following whitespace character
(the `^\/\/\s?` multiline replacement). -/
def stripSlashLine (l : List Char) : List Char :=
  if l.take 2 = [Char.ofNat 47, Char.ofNat 47] then
    match l.drop 2 with
    | c :: rest => if isJsWs c then rest else c :: rest
    | [] => []
  else l

/-- Per line, strip leading whitespace, a `*`, and one following whitespace
character (the `^\s*\*\s?` multiline replacement). -/
def stripStarLine (l : List Char) : List Char :=
  match l.dropWhile isJsWs with
  | c :: rest =>
    if c = Char.ofNat 42 then
      match rest with
      | d :: rest2 => if isJsWs d then rest2 else d :: rest2
      | [] => []
    else l
  | [] => l

/-- Clean one comment's markers (tree-sitter.ts:91-98). -/
def cleanComment (c : String) : String :=
  let s1 := String.mk (stripBlockMarkers c.data)
  let lines1 := (splitChar (Char.ofNat 10) s1).map (fun l => String.mk (stripSlashLine l.data))
  let s2 := joinSep "\n" lines1
  let lines2 := (splitChar (Char.ofNat 10) s2).map (fun l => String.mk (stripStarLine l.data))
  jsTrim (joinSep "\n" lines2)

/-- `getPrecedingDocstring` (tree-sitter.ts:70): collect the run of comment-kind
named siblings immediately before the node, restore source order, clean and join. -/
def getPrecedingDocstring (ctx : Ctx) (source : String) : Option String :=
  let comments :=
    (((ctx.prevSibs.filter (·.info.named)).takeWhile (fun sib =>
        sib.type = "comment" || sib.type = "line_comment" ||
        sib.type = "block_comment" || sib.type = "documentation_comment")).reverse).map
      (fun c => getNodeText c source)
  if comments.isEmpty then none
  else some (jsTrim (joinSep "\n" (comments.map cleanComment)))

/-! ## Language extraction policies (tree-sitter.ts:106-816)

The optional extractor callbacks of the source take a node and (through the
CST's back pointers) its parent and siblings; here they uniformly take the
node, its `Ctx` and the source text. -/

structure LanguageExtractor where
  functionTypes : List String
  classTypes : List String
  methodTypes : List String
  interfaceTypes : List String
  structTypes : List String
  enumTypes : List String
  importTypes : List String
  callTypes : List String
  nameField : String
  bodyField : String
  paramsField : String
  returnField : Option String := none
  getSignature : Option (SyntaxNode → Ctx → String → Option String) := none
  getVisibility : Option (SyntaxNode → Ctx → String → Option Visibility) := none
  isExported : Option (SyntaxNode → Ctx → String → Bool) := none
  isAsync : Option (SyntaxNode → Ctx → String → Bool) := none
  isStatic : Option (SyntaxNode → Ctx → String → Bool) := none

/-- `kotlinHasModifier` (tree-sitter.ts:150). -/
def kotlinHasModifier (n : SyntaxNode) (source modifier : String) : Bool :=
  n.children.any (fun c => c.type = "modifiers" && jsIncludes (getNodeText c source) modifier)

/-- `isKotlinInterface` (tree-sitter.ts:163). -/
def isKotlinInterface (n : SyntaxNode) : Bool :=
  n.children.any (·.type = "interface")

/-- `isKotlinEnum` (tree-sitter.ts:177). -/
def isKotlinEnum (n : SyntaxNode) : Bool :=
  n.children.any (·.type = "enum")

/-- `isKotlinAbstractClass` (tree-sitter.ts:191). -/
def isKotlinAbstractClass (n : SyntaxNode) (source : String) : Bool :=
  kotlinHasModifier n source "abstract"

/-- `swiftHasModifier` (tree-sitter.ts:202). -/
def swiftHasModifier (n : SyntaxNode) (source modifier : String) : Bool :=
  n.children.any (fun c => c.type = "modifiers" && jsIncludes (getNodeText c source) modifier)

/-- `getSwiftDeclarationKind` (tree-sitter.ts:216): the first child token among
`class`, `struct`, `actor`, `extension`, `enum`. -/
def getSwiftDeclarationKind (n : SyntaxNode) : Option String :=
  n.children.findSome? (fun c =>
    if c.type = "class" then some "class"
    else if c.type = "struct" then some "struct"
    else if c.type = "actor" then some "actor"
    else if c.type = "extension" then some "extension"
    else if c.type = "enum" then some "enum"
    else none)

/-- `getSwiftPropertyWrappers` (tree-sitter.ts:234). -/
def getSwiftPropertyWrappers (n : SyntaxNode) (source : String) : List String :=
  (n.children.filter (·.type = "attribute")).map (fun c => getNodeText c source)

/-- `getSwiftClassName` (tree-sitter.ts:250): the last `type_identifier` or
`user_type` named child wins, with a `type_constraints` suffix appended. -/
def getSwiftClassName (n : SyntaxNode) (source : String) : String :=
  let r := n.namedChildren.foldl (fun (acc : String × String) c =>
    if c.type = "type_identifier" then (getNodeText c source, acc.2)
    else if c.type = "user_type" then (getNodeText c source, acc.2)
    else if c.type = "type_constraints" then (acc.1, " " ++ getNodeText c source)
    else acc) ("<unknown>", "")
  r.1 ++ r.2

/-- `getSwiftPropertyName` (tree-sitter.ts:275): the first `simple_identifier`
inside a `pattern` named child. -/
def getSwiftPropertyName (n : SyntaxNode) (source : String) : String :=
  match n.namedChildren.findSome? (fun c =>
    if c.type = "pattern" then
      (c.namedChildren.find? (·.type = "simple_identifier")).map (fun p => getNodeText p source)
    else none) with
  | some name => name
  | none => "<unknown>"

/-- `isSwiftConstant` (tree-sitter.ts:294): a `value_binding_pattern` named
child holding a `let` token. -/
def isSwiftConstant (n : SyntaxNode) : Bool :=
  n.namedChildren.any (fun c =>
    c.type = "value_binding_pattern" && c.children.any (·.type = "let"))

/-- The `^:\s*` strip applied to TS return types. -/
def stripLeadingColonWs (s : String) : String :=
  match s.data with
  | c :: rest => if c = ':' then String.mk (rest.dropWhile isJsWs) else s
  | [] => s

def typescriptExtractor : LanguageExtractor where
  functionTypes := ["function_declaration", "arrow_function", "function_expression"]
  classTypes := ["class_declaration"]
  methodTypes := ["method_definition", "public_field_definition"]
  interfaceTypes := ["interface_declaration"]
  structTypes := []
  enumTypes := ["enum_declaration"]
  importTypes := ["import_statement"]
  callTypes := ["call_expression"]
  nameField := "name"
  bodyField := "body"
  paramsField := "parameters"
  returnField := some "return_type"
  getSignature := some (fun n _ source =>
    match getChildByField n "parameters" with
    | none => none
    | some params =>
      let sig := getNodeText params source
      match getChildByField n "return_type" with
      | some ret => some (sig ++ ": " ++ stripLeadingColonWs (getNodeText ret source))
      | none => some sig)
  getVisibility := some (fun n _ source =>
    n.children.findSome? (fun c =>
      if c.type = "accessibility_modifier" then
        let text := getNodeText c source
        if text = "public" then some Visibility.public
        else if text = "private" then some Visibility.private_
        else if text = "protected" then some Visibility.protected_
        else none
      else none))
  isExported := some (fun n ctx source =>
    if ctx.parentType = some "export_statement" then true
    else jsIncludes (jsSubstring source (n.info.startIndex - 10) n.info.startIndex) "export")
  isAsync := some (fun n _ _ => n.children.any (·.type = "async"))
  isStatic := some (fun n _ _ => n.children.any (·.type = "static"))

def javascriptExtractor : LanguageExtractor where
  functionTypes := ["function_declaration", "arrow_function", "function_expression"]
  classTypes := ["class_declaration"]
  methodTypes := ["method_definition", "field_definition"]
  interfaceTypes := []
  structTypes := []
  enumTypes := []
  importTypes := ["import_statement"]
  callTypes := ["call_expression"]
  nameField := "name"
  bodyField := "body"
  paramsField := "parameters"
  getSignature := some (fun n _ source =>
    (getChildByField n "parameters").map (fun p => getNodeText p source))
  isExported := some (fun n ctx source =>
    if ctx.parentType = some "export_statement" then true
    else jsIncludes (jsSubstring source (n.info.startIndex - 10) n.info.startIndex) "export")
  isAsync := some (fun n _ _ => n.children.any (·.type = "async"))

def pythonExtractor : LanguageExtractor where
  functionTypes := ["function_definition"]
  classTypes := ["class_definition"]
  methodTypes := ["function_definition"]
  interfaceTypes := []
  structTypes := []
  enumTypes := []
  importTypes := ["import_statement", "import_from_statement"]
  callTypes := ["call"]
  nameField := "name"
  bodyField := "body"
  paramsField := "parameters"
  returnField := some "return_type"
  getSignature := some (fun n _ source =>
    match getChildByField n "parameters" with
    | none => none
    | some params =>
      let sig := getNodeText params source
      match getChildByField n "return_type" with
      | some ret => some (sig ++ " -> " ++ getNodeText ret source)
      | none => some sig)
  isAsync := some (fun _ ctx _ =>
    match ctx.prevSibs.head? with
    | some p => p.type = "async"
    | none => false)
  isStatic := some (fun _ ctx source =>
    match ctx.prevSibs.find? (·.info.named) with
    | some p => p.type = "decorator" && jsIncludes (getNodeText p source) "staticmethod"
    | none => false)

def goExtractor : LanguageExtractor where
  functionTypes := ["function_declaration"]
  classTypes := []
  methodTypes := ["method_declaration"]
  interfaceTypes := ["interface_type"]
  structTypes := ["struct_type"]
  enumTypes := []
  importTypes := ["import_declaration"]
  callTypes := ["call_expression"]
  nameField := "name"
  bodyField := "body"
  paramsField := "parameters"
  returnField := some "result"
  getSignature := some (fun n _ source =>
    match getChildByField n "parameters" with
    | none => none
    | some params =>
      let sig := getNodeText params source
      match getChildByField n "result" with
      | some res => some (sig ++ " " ++ getNodeText res source)
      | none => some sig)

def rustExtractor : LanguageExtractor where
  functionTypes := ["function_item"]
  classTypes := []
  methodTypes := ["function_item"]
  interfaceTypes := ["trait_item"]
  structTypes := ["struct_item"]
  enumTypes := ["enum_item"]
  importTypes := ["use_declaration"]
  callTypes := ["call_expression"]
  nameField := "name"
  bodyField := "body"
  paramsField := "parameters"
  returnField := some "return_type"
  getSignature := some (fun n _ source =>
    match getChildByField n "parameters" with
    | none => none
    | some params =>
      let sig := getNodeText params source
      match getChildByField n "return_type" with
      | some ret => some (sig ++ " -> " ++ getNodeText ret source)
      | none => some sig)
  isAsync := some (fun n _ _ => n.children.any (·.type = "async"))
  getVisibility := some (fun n _ source =>
    match n.children.find? (·.type = "visibility_modifier") with
    | some c => some (if jsIncludes (getNodeText c source) "pub" then .public else .private_)
    | none => some .private_)

def javaExtractor : LanguageExtractor where
  functionTypes := []
  classTypes := ["class_declaration"]
  methodTypes := ["method_declaration", "constructor_declaration"]
  interfaceTypes := ["interface_declaration"]
  structTypes := []
  enumTypes := ["enum_declaration"]
  importTypes := ["import_declaration"]
  callTypes := ["method_invocation"]
  nameField := "name"
  bodyField := "body"
  paramsField := "parameters"
  returnField := some "type"
  getSignature := some (fun n _ source =>
    match getChildByField n "parameters" with
    | none => none
    | some params =>
      let paramsText := getNodeText params source
      match getChildByField n "type" with
      | some ret => some (getNodeText ret source ++ " " ++ paramsText)
      | none => some paramsText)
  getVisibility := some (fun n _ source =>
    n.children.findSome? (fun c =>
      if c.type = "modifiers" then
        let text := getNodeText c source
        if jsIncludes text "public" then some Visibility.public
        else if jsIncludes text "private" then some Visibility.private_
        else if jsIncludes text "protected" then some Visibility.protected_
        else none
      else none))
  isStatic := some (fun n _ source =>
    n.children.any (fun c => c.type = "modifiers" && jsIncludes (getNodeText c source) "static"))

def cExtractor : LanguageExtractor where
  functionTypes := ["function_definition"]
  classTypes := []
  methodTypes := []
  interfaceTypes := []
  structTypes := ["struct_specifier"]
  enumTypes := ["enum_specifier"]
  importTypes := ["preproc_include"]
  callTypes := ["call_expression"]
  nameField := "declarator"
  bodyField := "body"
  paramsField := "parameters"

def cppExtractor : LanguageExtractor where
  functionTypes := ["function_definition"]
  classTypes := ["class_specifier"]
  methodTypes := ["function_definition"]
  interfaceTypes := []
  structTypes := ["struct_specifier"]
  enumTypes := ["enum_specifier"]
  importTypes := ["preproc_include"]
  callTypes := ["call_expression"]
  nameField := "declarator"
  bodyField := "body"
  paramsField := "parameters"
  getVisibility := some (fun _ ctx source =>
    ctx.parentChildren.findSome? (fun c =>
      if c.type = "access_specifier" then
        let text := getNodeText c source
        if jsIncludes text "public" then some Visibility.public
        else if jsIncludes text "private" then some Visibility.private_
        else if jsIncludes text "protected" then some Visibility.protected_
        else none
      else none))

def csharpExtractor : LanguageExtractor where
  functionTypes := []
  classTypes := ["class_declaration"]
  methodTypes := ["method_declaration", "constructor_declaration"]
  interfaceTypes := ["interface_declaration"]
  structTypes := ["struct_declaration"]
  enumTypes := ["enum_declaration"]
  importTypes := ["using_directive"]
  callTypes := ["invocation_expression"]
  nameField := "name"
  bodyField := "body"
  paramsField := "parameter_list"
  getVisibility := some (fun n _ source =>
    match n.children.findSome? (fun c =>
      if c.type = "modifier" then
        let text := getNodeText c source
        if text = "public" then some Visibility.public
        else if text = "private" then some Visibility.private_
        else if text = "protected" then some Visibility.protected_
        else if text = "internal" then some Visibility.internal
        else none
      else none) with
    | some v => some v
    | none => some .private_)
  isStatic := some (fun n _ source =>
    n.children.any (fun c => c.type = "modifier" && getNodeText c source = "static"))
  isAsync := some (fun n _ source =>
    n.children.any (fun c => c.type = "modifier" && getNodeText c source = "async"))

def phpExtractor : LanguageExtractor where
  functionTypes := ["function_definition"]
  classTypes := ["class_declaration"]
  methodTypes := ["method_declaration"]
  interfaceTypes := ["interface_declaration"]
  structTypes := []
  enumTypes := ["enum_declaration"]
  importTypes := ["namespace_use_declaration"]
  callTypes := ["function_call_expression", "member_call_expression", "scoped_call_expression"]
  nameField := "name"
  bodyField := "body"
  paramsField := "parameters"
  returnField := some "return_type"
  getVisibility := some (fun n _ source =>
    match n.children.findSome? (fun c =>
      if c.type = "visibility_modifier" then
        let text := getNodeText c source
        if text = "public" then some Visibility.public
        else if text = "private" then some Visibility.private_
        else if text = "protected" then some Visibility.protected_
        else none
      else none) with
    | some v => some v
    | none => some .public)
  isStatic := some (fun n _ _ => n.children.any (·.type = "static_modifier"))

def rubyExtractor : LanguageExtractor where
  functionTypes := ["method"]
  classTypes := ["class"]
  methodTypes := ["method", "singleton_method"]
  interfaceTypes := []
  structTypes := []
  enumTypes := []
  importTypes := ["call"]
  callTypes := ["call", "method_call"]
  nameField := "name"
  bodyField := "body"
  paramsField := "parameters"
  getVisibility := some (fun _ ctx source =>
    match (ctx.prevSibs.filter (·.info.named)).findSome? (fun sib =>
      if sib.type = "call" then
        match getChildByField sib "method" with
        | some m =>
          let text := getNodeText m source
          if text = "private" then some Visibility.private_
          else if text = "protected" then some Visibility.protected_
          else if text = "public" then some Visibility.public
          else none
        | none => none
      else none) with
    | some v => some v
    | none => some .public)

def swiftExtractor : LanguageExtractor where
  functionTypes := ["function_declaration"]
  classTypes := ["class_declaration"]
  methodTypes := ["function_declaration"]
  interfaceTypes := ["protocol_declaration"]
  structTypes := ["struct_declaration"]
  enumTypes := ["enum_declaration"]
  importTypes := ["import_declaration"]
  callTypes := ["call_expression"]
  nameField := "name"
  bodyField := "body"
  paramsField := "parameter"
  returnField := some "return_type"
  getSignature := some (fun n _ source =>
    match getChildByField n "parameter" with
    | none => none
    | some params =>
      let sig := getNodeText params source
      match getChildByField n "return_type" with
      | some ret => some (sig ++ " -> " ++ getNodeText ret source)
      | none => some sig)
  getVisibility := some (fun n _ source =>
    match n.children.findSome? (fun c =>
      if c.type = "modifiers" then
        let text := getNodeText c source
        if jsIncludes text "public" then some Visibility.public
        else if jsIncludes text "private" then some Visibility.private_
        else if jsIncludes text "internal" then some Visibility.internal
        else if jsIncludes text "fileprivate" then some Visibility.private_
        else none
      else none) with
    | some v => some v
    | none => some .internal)
  isStatic := some (fun n _ source =>
    n.children.any (fun c =>
      c.type = "modifiers" &&
      (jsIncludes (getNodeText c source) "static" || jsIncludes (getNodeText c source) "class")))
  isAsync := some (fun n _ source =>
    n.children.any (fun c =>
      c.type = "async" || (c.type = "modifiers" && jsIncludes (getNodeText c source) "async")))

def kotlinExtractor : LanguageExtractor where
  functionTypes := ["function_declaration"]
  classTypes := ["class_declaration", "object_declaration"]
  methodTypes := ["function_declaration"]
  interfaceTypes := ["class_declaration"]
  structTypes := []
  enumTypes := ["class_declaration"]
  importTypes := ["import_header"]
  callTypes := ["call_expression"]
  nameField := "simple_identifier"
  bodyField := "function_body"
  paramsField := "function_value_parameters"
  returnField := some "type"
  getSignature := some (fun n _ source =>
    match getChildByField n "function_value_parameters" with
    | none => none
    | some params =>
      let sig := getNodeText params source
      match getChildByField n "type" with
      | some ret => some (sig ++ ": " ++ getNodeText ret source)
      | none => some sig)
  getVisibility := some (fun n _ source =>
    match n.children.findSome? (fun c =>
      if c.type = "modifiers" then
        let text := getNodeText c source
        if jsIncludes text "public" then some Visibility.public
        else if jsIncludes text "private" then some Visibility.private_
        else if jsIncludes text "protected" then some Visibility.protected_
        else if jsIncludes text "internal" then some Visibility.internal
        else none
      else none) with
    | some v => some v
    | none => some .public)
  isStatic := some (fun _ _ _ => false)
  isAsync := some (fun n _ source =>
    n.children.any (fun c => c.type = "modifiers" && jsIncludes (getNodeText c source) "suspend"))

/-- The `EXTRACTORS` table (tree-sitter.ts:314-816); TSX and JSX alias the
TypeScript and JavaScript policies; Liquid and unknown have no policy. -/
def EXTRACTORS : Language → Option LanguageExtractor
  | .typescript => some typescriptExtractor
  | .tsx => some typescriptExtractor
  | .javascript => some javascriptExtractor
  | .jsx => some javascriptExtractor
  | .python => some pythonExtractor
  | .go => some goExtractor
  | .rust => some rustExtractor
  | .java => some javaExtractor
  | .c => some cExtractor
  | .cpp => some cppExtractor
  | .csharp => some csharpExtractor
  | .php => some phpExtractor
  | .ruby => some rubyExtractor
  | .swift => some swiftExtractor
  | .kotlin => some kotlinExtractor
  | .liquid => none
  | .unknown => none

/-- `extractName` (tree-sitter.ts:821). -/
def extractName (n : SyntaxNode) (source : String) (ext : LanguageExtractor) : String :=
  match getChildByField n ext.nameField with
  | some nameNode =>
    if nameNode.type = "function_declarator" || nameNode.type = "declarator" then
      match getChildByField nameNode "declarator" with
      | some inner => getNodeText inner source
      | none =>
        match nameNode.namedChild 0 with
        | some inner => getNodeText inner source
        | none => getNodeText nameNode source
    else getNodeText nameNode source
  | none =>
    match n.namedChildren.find? (fun c =>
      c.type = "identifier" || c.type = "type_identifier" ||
      c.type = "simple_identifier" || c.type = "constant") with
    | some c => getNodeText c source
    | none => "<anonymous>"

/-! ## The CST walker (class TreeSitterExtractor, tree-sitter.ts:853-2268)

The mutable extractor object becomes an explicit `WalkState`; the mutually
recursive visit methods become one fuel-indexed step function `run` over a
`Task` sum enumerating them.  The scope stack keeps its top at the head. -/

structure Cfg where
  filePath : String
  language : Language
  source : String
  ext : LanguageExtractor
  now : Nat

structure WalkState where
  nodes : List Node := []
  edges : List Edge := []
  unresolvedReferences : List UnresolvedReference := []
  nodeStack : List String := []
deriving DecidableEq

/-- The optional per-node attributes passed to `createNode` by its callers. -/
structure Extra where
  visibility : Option Visibility := none
  isExported : Option Bool := none
  isAsync : Option Bool := none
  isStatic : Option Bool := none
  isAbstract : Option Bool := none
  signature : Option String := none
  docstring : Option String := none
  decorators : Option (List String) := none

/-- `buildQualifiedName` (tree-sitter.ts:1108): file path, then each scope
name outer-to-inner, then the node's own name, joined by `::`. -/
def buildQualifiedName (cfg : Cfg) (s : WalkState) (name : String) : String :=
  let parts := [cfg.filePath] ++
    (s.nodeStack.reverse.filterMap (fun nodeId =>
      (s.nodes.find? (·.id = nodeId)).map (·.name))) ++ [name]
  joinSep "::" parts

/-- `createNode` (tree-sitter.ts:1065): build the node, append it, and add a
containment edge from the scope-stack top when one exists. -/
def createNode (cfg : Cfg) (kind : NodeKind) (name : String) (n : SyntaxNode)
    (extra : Extra) (s : WalkState) : Node × WalkState :=
  let id := generateNodeId cfg.filePath kind name (n.info.startRow + 1)
  let newNode : Node :=
    { id := id, kind := kind, name := name,
      qualifiedName := buildQualifiedName cfg s name,
      filePath := cfg.filePath,
      language := cfg.language,
      startLine := n.info.startRow + 1,
      endLine := n.info.endRow + 1,
      startColumn := n.info.startCol,
      endColumn := n.info.endCol,
      updatedAt := cfg.now,
      visibility := extra.visibility, isExported := extra.isExported,
      isAsync := extra.isAsync, isStatic := extra.isStatic,
      isAbstract := extra.isAbstract, signature := extra.signature,
      docstring := extra.docstring, decorators := extra.decorators }
  let s1 := { s with nodes := s.nodes ++ [newNode] }
  let s2 :=
    match s.nodeStack with
    | parentId :: _ =>
      { s1 with edges := s1.edges ++ [⟨parentId, id, EdgeKind.contains⟩] }
    | [] => s1
  (newNode, s2)

def applyGetSignature (cfg : Cfg) (n : SyntaxNode) (ctx : Ctx) : Option String :=
  cfg.ext.getSignature.bind (fun g => g n ctx cfg.source)

def applyGetVisibility (cfg : Cfg) (n : SyntaxNode) (ctx : Ctx) : Option Visibility :=
  cfg.ext.getVisibility.bind (fun g => g n ctx cfg.source)

def applyIsExported (cfg : Cfg) (n : SyntaxNode) (ctx : Ctx) : Option Bool :=
  cfg.ext.isExported.map (fun g => g n ctx cfg.source)

def applyIsAsync (cfg : Cfg) (n : SyntaxNode) (ctx : Ctx) : Option Bool :=
  cfg.ext.isAsync.map (fun g => g n ctx cfg.source)

def applyIsStatic (cfg : Cfg) (n : SyntaxNode) (ctx : Ctx) : Option Bool :=
  cfg.ext.isStatic.map (fun g => g n ctx cfg.source)

def addRef (s : WalkState) (r : UnresolvedReference) : WalkState :=
  { s with unresolvedReferences := s.unresolvedReferences ++ [r] }

/-- `extractInterface` (tree-sitter.ts:1230): emit only; body not walked. -/
def extractInterface (cfg : Cfg) (n : SyntaxNode) (ctx : Ctx) (s : WalkState) : WalkState :=
  let name := extractName n cfg.source cfg.ext
  let kind : NodeKind := if cfg.language = .rust then .trait else .interface
  (createNode cfg kind name n
    { docstring := getPrecedingDocstring ctx cfg.source,
      isExported := applyIsExported cfg n ctx } s).2

/-- `extractEnum` (tree-sitter.ts:1279): emit only; body not walked. -/
def extractEnum (cfg : Cfg) (n : SyntaxNode) (ctx : Ctx) (s : WalkState) : WalkState :=
  let name := extractName n cfg.source cfg.ext
  (createNode cfg .enum name n
    { docstring := getPrecedingDocstring ctx cfg.source,
      visibility := applyGetVisibility cfg n ctx,
      isExported := applyIsExported cfg n ctx } s).2

/-- JS `.replace(/['"]/g, '')`. -/
def removeQuotes (s : String) : String :=
  String.mk (s.data.filter (fun c => c ≠ Char.ofNat 39 && c ≠ Char.ofNat 34))

/-- The module-name computation of `extractImport` (tree-sitter.ts:1300-1323). -/
def moduleNameOf (cfg : Cfg) (n : SyntaxNode) : String :=
  let importText := getNodeText n cfg.source
  if cfg.language = .typescript ∨ cfg.language = .javascript then
    match getChildByField n "source" with
    | some src => removeQuotes (getNodeText src cfg.source)
    | none => ""
  else if cfg.language = .python then
    match getChildByField n "module_name" with
    | some m => getNodeText m cfg.source
    | none =>
      match n.namedChild 0 with
      | some m => getNodeText m cfg.source
      | none => ""
  else if cfg.language = .go then
    match n.namedChild 0 with
    | some path => removeQuotes (getNodeText path cfg.source)
    | none => ""
  else importText

/-- `extractImport` (tree-sitter.ts:1297).  A reference is emitted only when a
module name was extracted AND the scope stack is non-empty. -/
def extractImport (cfg : Cfg) (n : SyntaxNode) (s : WalkState) : WalkState :=
  let moduleName := moduleNameOf cfg n
  match s.nodeStack with
  | parentId :: _ =>
    if moduleName ≠ "" then
      addRef s ⟨parentId, moduleName, .imports, n.info.startRow + 1, n.info.startCol⟩
    else s
  | [] => s

/-- `extractCall` (tree-sitter.ts:1342). -/
def extractCall (cfg : Cfg) (n : SyntaxNode) (s : WalkState) : WalkState :=
  match s.nodeStack with
  | [] => s
  | callerId :: _ =>
    let func :=
      match getChildByField n "function" with
      | some fn => some fn
      | none => n.namedChild 0
    let calleeName :=
      match func with
      | some fn =>
        if fn.type = "member_expression" ∨ fn.type = "attribute" then
          match getChildByField fn "property" with
          | some property => getNodeText property cfg.source
          | none =>
            match fn.namedChild 1 with
            | some property => getNodeText property cfg.source
            | none => ""
        else if fn.type = "scoped_identifier" ∨ fn.type = "scoped_call_expression" then
          getNodeText fn cfg.source
        else getNodeText fn cfg.source
      | none => ""
    if calleeName ≠ "" then
      addRef s ⟨callerId, calleeName, .calls, n.info.startRow + 1, n.info.startCol⟩
    else s

/-- `extractInheritance` (tree-sitter.ts:1404). -/
def extractInheritance (cfg : Cfg) (n : SyntaxNode) (classId : String) (s : WalkState) : WalkState :=
  n.namedChildren.foldl (fun s child =>
    let s1 :=
      if child.type = "extends_clause" ∨ child.type = "class_heritage" ∨
          child.type = "superclass" then
        match child.namedChild 0 with
        | some superclass =>
          addRef s ⟨classId, getNodeText superclass cfg.source, .extends_,
            child.info.startRow + 1, child.info.startCol⟩
        | none => s
      else s
    if child.type = "implements_clause" ∨ child.type = "class_interface_clause" then
      child.namedChildren.foldl (fun s2 iface =>
        addRef s2 ⟨classId, getNodeText iface cfg.source, .implements,
          iface.info.startRow + 1, iface.info.startCol⟩) s1
    else s1) s

/-- `extractKotlinEnumEntry` (tree-sitter.ts:1541). -/
def extractKotlinEnumEntry (cfg : Cfg) (n : SyntaxNode) (s : WalkState) : WalkState :=
  let name :=
    match n.namedChildren.find? (·.type = "simple_identifier") with
    | some c => getNodeText c cfg.source
    | none => "<unknown>"
  (createNode cfg .enum_member name n {} s).2

/-- `extractKotlinProperty` (tree-sitter.ts:1639). -/
def extractKotlinProperty (cfg : Cfg) (n : SyntaxNode) (ctx : Ctx) (s : WalkState) : WalkState :=
  let name :=
    match n.namedChildren.find? (·.type = "variable_declaration") with
    | some vd =>
      match vd.namedChildren.find? (·.type = "simple_identifier") with
      | some c => getNodeText c cfg.source
      | none => "<unknown>"
    | none => "<unknown>"
  let isConst := kotlinHasModifier n cfg.source "const"
  let kind : NodeKind := if isConst then .constant else .property
  (createNode cfg kind name n
    { docstring := getPrecedingDocstring ctx cfg.source,
      visibility := applyGetVisibility cfg n ctx } s).2

/-- `extractKotlinTypeAlias` (tree-sitter.ts:1677). -/
def extractKotlinTypeAlias (cfg : Cfg) (n : SyntaxNode) (ctx : Ctx) (s : WalkState) : WalkState :=
  let name :=
    match n.namedChildren.find? (·.type = "type_identifier") with
    | some c => getNodeText c cfg.source
    | none => "<unknown>"
  (createNode cfg .type_alias name n
    { docstring := getPrecedingDocstring ctx cfg.source,
      visibility := applyGetVisibility cfg n ctx } s).2

/-- `extractKotlinInheritance` (tree-sitter.ts:1702): delegation specifiers;
a `constructor_invocation` is `extends` for the first specifier reached and
`implements` thereafter; a plain `user_type` is always recorded with the
running first/rest flag. -/
def extractKotlinInheritance (cfg : Cfg) (n : SyntaxNode) (classId : String) (s : WalkState) : WalkState :=
  (n.namedChildren.foldl (fun (acc : WalkState × Bool) child =>
    if child.type = "delegation_specifier" then
      child.namedChildren.foldl (fun (acc2 : WalkState × Bool) specChild =>
        if specChild.type = "constructor_invocation" then
          match specChild.namedChildren.find? (·.type = "user_type") with
          | some ciChild =>
            (addRef acc2.1 ⟨classId, getNodeText ciChild cfg.source,
              (if acc2.2 then .extends_ else .implements),
              specChild.info.startRow + 1, specChild.info.startCol⟩, false)
          | none => acc2
        else if specChild.type = "user_type" then
          (addRef acc2.1 ⟨classId, getNodeText specChild cfg.source, .implements,
            specChild.info.startRow + 1, specChild.info.startCol⟩, false)
        else acc2) acc
    else acc) (s, true)).1

/-- `extractSwiftInheritance` (tree-sitter.ts:2086): every `user_type` under an
`inheritance_specifier`; the first found is `extends`, the rest `implements`. -/
def extractSwiftInheritance (cfg : Cfg) (n : SyntaxNode) (classId : String) (s : WalkState) : WalkState :=
  (n.namedChildren.foldl (fun (acc : WalkState × Bool) child =>
    if child.type = "inheritance_specifier" then
      child.namedChildren.foldl (fun (acc2 : WalkState × Bool) specChild =>
        if specChild.type = "user_type" then
          (addRef acc2.1 ⟨classId, getNodeText specChild cfg.source,
            (if acc2.2 then .extends_ else .implements),
            specChild.info.startRow + 1, specChild.info.startCol⟩, false)
        else acc2) acc
    else acc) (s, true)).1

/-- `extractSwiftEnumCase` (tree-sitter.ts:1918). -/
def extractSwiftEnumCase (cfg : Cfg) (n : SyntaxNode) (s : WalkState) : WalkState :=
  let name :=
    match n.namedChildren.find? (·.type = "simple_identifier") with
    | some c => getNodeText c cfg.source
    | none => "<unknown>"
  (createNode cfg .enum_member name n {} s).2

/-- `extractSwiftProperty` (tree-sitter.ts:1935): `constant` only for a `let`
binding at top level, else `property`. -/
def extractSwiftProperty (cfg : Cfg) (n : SyntaxNode) (ctx : Ctx) (s : WalkState) : WalkState :=
  let name := getSwiftPropertyName n cfg.source
  let isConst := isSwiftConstant n
  let wrappers := getSwiftPropertyWrappers n cfg.source
  let kind : NodeKind := if isConst && s.nodeStack.isEmpty then .constant else .property
  (createNode cfg kind name n
    { docstring := getPrecedingDocstring ctx cfg.source,
      visibility := applyGetVisibility cfg n ctx,
      isStatic := applyIsStatic cfg n ctx,
      decorators := if wrappers.length > 0 then some wrappers else none } s).2

/-- `extractSwiftSubscript` (tree-sitter.ts:1962): a method named `subscript`. -/
def extractSwiftSubscript (cfg : Cfg) (n : SyntaxNode) (ctx : Ctx) (s : WalkState) : WalkState :=
  let signature := n.namedChildren.foldl (fun (sig : String) c =>
    if c.type = "parameter" then
      (if sig ≠ "" then sig ++ ", " else sig) ++ getNodeText c cfg.source
    else if c.type = "user_type" then
      sig ++ " -> " ++ getNodeText c cfg.source
    else sig) ""
  (createNode cfg .method "subscript" n
    { docstring := getPrecedingDocstring ctx cfg.source,
      visibility := applyGetVisibility cfg n ctx,
      isStatic := applyIsStatic cfg n ctx,
      signature := if signature ≠ "" then some signature else none } s).2

/-- `extractSwiftTypealias` (tree-sitter.ts:1993). -/
def extractSwiftTypealias (cfg : Cfg) (n : SyntaxNode) (ctx : Ctx) (s : WalkState) : WalkState :=
  let name :=
    match n.namedChildren.find? (·.type = "type_identifier") with
    | some c => getNodeText c cfg.source
    | none => "<unknown>"
  (createNode cfg .type_alias name n
    { docstring := getPrecedingDocstring ctx cfg.source,
      visibility := applyGetVisibility cfg n ctx } s).2

/-- `extractSwiftAssociatedType` (tree-sitter.ts:2016). -/
def extractSwiftAssociatedType (cfg : Cfg) (n : SyntaxNode) (ctx : Ctx) (s : WalkState) : WalkState :=
  let name :=
    match n.namedChildren.find? (·.type = "type_identifier") with
    | some c => getNodeText c cfg.source
    | none => "<unknown>"
  (createNode cfg .type_alias name n
    { docstring := getPrecedingDocstring ctx cfg.source } s).2

/-- `extractSwiftProtocolProperty` (tree-sitter.ts:2167): the name comes from
the last `pattern` child holding a `simple_identifier`. -/
def extractSwiftProtocolProperty (cfg : Cfg) (n : SyntaxNode) (ctx : Ctx) (s : WalkState) : WalkState :=
  let name := n.namedChildren.foldl (fun (nm : String) c =>
    if c.type = "pattern" then
      match c.namedChildren.find? (·.type = "simple_identifier") with
      | some p => getNodeText p cfg.source
      | none => nm
    else nm) "<unknown>"
  (createNode cfg .property name n
    { docstring := getPrecedingDocstring ctx cfg.source } s).2

/-- `extractSwiftProtocolFunction` (tree-sitter.ts:2193). -/
def extractSwiftProtocolFunction (cfg : Cfg) (n : SyntaxNode) (ctx : Ctx) (s : WalkState) : WalkState :=
  let name :=
    match n.namedChildren.find? (·.type = "simple_identifier") with
    | some c => getNodeText c cfg.source
    | none => "<unknown>"
  let signature :=
    match n.namedChildren.find? (·.type = "user_type") with
    | some c => " -> " ++ getNodeText c cfg.source
    | none => ""
  (createNode cfg .method name n
    { docstring := getPrecedingDocstring ctx cfg.source,
      signature := if signature ≠ "" then some signature else none } s).2

/-- Contexts for a parent's children: each named child paired with the parent
type, the parent's full child list and its preceding siblings (nearest first). -/
def childContextsGo (parent : SyntaxNode) (prev : List SyntaxNode) :
    List SyntaxNode → List (SyntaxNode × Ctx)
  | [] => []
  | c :: rest =>
    (if c.info.named then [(c, ⟨some parent.type, parent.children, prev⟩)] else []) ++
      childContextsGo parent (c :: prev) rest

def childContexts (parent : SyntaxNode) : List (SyntaxNode × Ctx) :=
  childContextsGo parent [] parent.children

/-- The walker's mutually recursive methods, as a task sum for the fuel-indexed
step function. -/
inductive Task where
  | visit (n : SyntaxNode) (ctx : Ctx)
  | extractFunctionT (n : SyntaxNode) (ctx : Ctx)
  | extractMethodT (n : SyntaxNode) (ctx : Ctx)
  | extractClassT (n : SyntaxNode) (ctx : Ctx)
  | extractStructT (n : SyntaxNode) (ctx : Ctx)
  | visitForCallsT (n : SyntaxNode)
  | kotlinClassT (n : SyntaxNode) (ctx : Ctx)
  | kotlinEnumT (n : SyntaxNode) (ctx : Ctx)
  | kotlinObjectT (n : SyntaxNode) (ctx : Ctx)
  | kotlinCompanionT (n : SyntaxNode) (ctx : Ctx)
  | swiftClassT (n : SyntaxNode) (ctx : Ctx)
  | swiftStructT (n : SyntaxNode) (ctx : Ctx)
  | swiftActorT (n : SyntaxNode) (ctx : Ctx)
  | swiftExtensionT (n : SyntaxNode) (ctx : Ctx)
  | swiftEnumT (n : SyntaxNode) (ctx : Ctx)
  | swiftProtocolT (n : SyntaxNode) (ctx : Ctx)
  | swiftInitT (n : SyntaxNode) (ctx : Ctx)
  | swiftDeinitT (n : SyntaxNode) (ctx : Ctx)
  | swiftClassBodyT (n : SyntaxNode)
  | swiftFunctionBodyT (n : SyntaxNode)
  | swiftPropertyT (n : SyntaxNode) (ctx : Ctx)
  | swiftSubscriptT (n : SyntaxNode) (ctx : Ctx)
  | swiftTypealiasT (n : SyntaxNode) (ctx : Ctx)
  | swiftAssociatedTypeT (n : SyntaxNode) (ctx : Ctx)
  | swiftProtocolPropertyT (n : SyntaxNode) (ctx : Ctx)
  | swiftProtocolFunctionT (n : SyntaxNode) (ctx : Ctx)
  | kotlinEnumEntryT (n : SyntaxNode)
  | swiftEnumCaseT (n : SyntaxNode)

def childVisitTasks (parent : SyntaxNode) : List Task :=
  (childContexts parent).map (fun p => Task.visit p.1 p.2)

/-- Dispatch of `visitSwiftClassBody` (tree-sitter.ts:2225) per body child. -/
def swiftBodyTasks (body : SyntaxNode) : List Task :=
  (childContexts body).map (fun p =>
    if p.1.type = "property_declaration" then Task.swiftPropertyT p.1 p.2
    else if p.1.type = "subscript_declaration" then Task.swiftSubscriptT p.1 p.2
    else if p.1.type = "init_declaration" then Task.swiftInitT p.1 p.2
    else if p.1.type = "deinit_declaration" then Task.swiftDeinitT p.1 p.2
    else if p.1.type = "typealias_declaration" then Task.swiftTypealiasT p.1 p.2
    else Task.visit p.1 p.2)

/-- Dispatch of the protocol body walk (tree-sitter.ts:2141-2159). -/
def swiftProtocolBodyTasks (body : SyntaxNode) : List Task :=
  (childContexts body).map (fun p =>
    if p.1.type = "associatedtype_declaration" then Task.swiftAssociatedTypeT p.1 p.2
    else if p.1.type = "protocol_property_declaration" then Task.swiftProtocolPropertyT p.1 p.2
    else if p.1.type = "protocol_function_declaration" then Task.swiftProtocolFunctionT p.1 p.2
    else Task.visit p.1 p.2)

/-- Dispatch of the Kotlin enum body walk (tree-sitter.ts:1518-1532). -/
def kotlinEnumBodyTasks (body : SyntaxNode) : List Task :=
  (childContexts body).map (fun p =>
    if p.1.type = "enum_entry" then Task.kotlinEnumEntryT p.1 else Task.visit p.1 p.2)

/-- Dispatch of the Swift enum body walk (tree-sitter.ts:1896-1910). -/
def swiftEnumBodyTasks (body : SyntaxNode) : List Task :=
  (childContexts body).map (fun p =>
    if p.1.type = "enum_entry" then Task.swiftEnumCaseT p.1 else Task.visit p.1 p.2)

def runList (g : Task → WalkState → WalkState) (ts : List Task) (s : WalkState) : WalkState :=
  ts.foldl (fun s t => g t s) s

/-- The walker step function.  Each `Task` case is the body of the source
method of the same name; recursive method calls spend one unit of fuel. -/
def run (cfg : Cfg) : Nat → Task → WalkState → WalkState
  | 0, _, s => s
  | f + 1, task, s =>
    match task with
    | .visit n ctx =>
      let ty := n.type
      if ty ∈ cfg.ext.functionTypes then
        if s.nodeStack ≠ [] ∧ ty ∈ cfg.ext.methodTypes then
          run cfg f (.extractMethodT n ctx) s
        else run cfg f (.extractFunctionT n ctx) s
      else if ty ∈ cfg.ext.classTypes then
        if cfg.language = .swift ∧ ty = "class_declaration" then
          match getSwiftDeclarationKind n with
          | some "extension" => run cfg f (.swiftExtensionT n ctx) s
          | some "actor" => run cfg f (.swiftActorT n ctx) s
          | some "enum" => run cfg f (.swiftEnumT n ctx) s
          | some "struct" => run cfg f (.swiftStructT n ctx) s
          | _ => run cfg f (.swiftClassT n ctx) s
        else if cfg.language = .kotlin ∧ ty = "class_declaration" then
          if isKotlinInterface n then extractInterface cfg n ctx s
          else if isKotlinEnum n then run cfg f (.kotlinEnumT n ctx) s
          else run cfg f (.kotlinClassT n ctx) s
        else if cfg.language = .kotlin ∧ ty = "object_declaration" then
          run cfg f (.kotlinObjectT n ctx) s
        else run cfg f (.extractClassT n ctx) s
      else if cfg.language = .kotlin ∧ ty = "companion_object" then
        run cfg f (.kotlinCompanionT n ctx) s
      else if cfg.language = .kotlin ∧ ty = "property_declaration" then
        runList (fun t s => run cfg f t s) (childVisitTasks n) (extractKotlinProperty cfg n ctx s)
      else if cfg.language = .kotlin ∧ ty = "type_alias" then
        runList (fun t s => run cfg f t s) (childVisitTasks n) (extractKotlinTypeAlias cfg n ctx s)
      else if cfg.language = .swift ∧ ty = "property_declaration" then
        runList (fun t s => run cfg f t s) (childVisitTasks n) (extractSwiftProperty cfg n ctx s)
      else if cfg.language = .swift ∧ ty = "protocol_property_declaration" then
        runList (fun t s => run cfg f t s) (childVisitTasks n) (extractSwiftProperty cfg n ctx s)
      else if cfg.language = .swift ∧ ty = "subscript_declaration" then
        extractSwiftSubscript cfg n ctx s
      else if cfg.language = .swift ∧ ty = "typealias_declaration" then
        runList (fun t s => run cfg f t s) (childVisitTasks n) (extractSwiftTypealias cfg n ctx s)
      else if cfg.language = .swift ∧ ty = "associatedtype_declaration" then
        runList (fun t s => run cfg f t s) (childVisitTasks n) (extractSwiftAssociatedType cfg n ctx s)
      else if cfg.language = .swift ∧ ty = "init_declaration" then
        run cfg f (.swiftInitT n ctx) s
      else if cfg.language = .swift ∧ ty = "deinit_declaration" then
        run cfg f (.swiftDeinitT n ctx) s
      else if ty ∈ cfg.ext.methodTypes then
        run cfg f (.extractMethodT n ctx) s
      else if ty ∈ cfg.ext.interfaceTypes then
        if cfg.language = .swift ∧ ty = "protocol_declaration" then
          run cfg f (.swiftProtocolT n ctx) s
        else extractInterface cfg n ctx s
      else if ty ∈ cfg.ext.structTypes then
        run cfg f (.extractStructT n ctx) s
      else if ty ∈ cfg.ext.enumTypes then
        extractEnum cfg n ctx s
      else if ty ∈ cfg.ext.importTypes then
        runList (fun t s => run cfg f t s) (childVisitTasks n) (extractImport cfg n s)
      else if ty ∈ cfg.ext.callTypes then
        runList (fun t s => run cfg f t s) (childVisitTasks n) (extractCall cfg n s)
      else
        runList (fun t s => run cfg f t s) (childVisitTasks n) s
    | .extractFunctionT n ctx =>
      let name := extractName n cfg.source cfg.ext
      if name = "<anonymous>" then s
      else
        let r := createNode cfg .function name n
          { docstring := getPrecedingDocstring ctx cfg.source,
            signature := applyGetSignature cfg n ctx,
            visibility := applyGetVisibility cfg n ctx,
            isExported := applyIsExported cfg n ctx,
            isAsync := applyIsAsync cfg n ctx,
            isStatic := applyIsStatic cfg n ctx } s
        let s2 := { r.2 with nodeStack := r.1.id :: r.2.nodeStack }
        let s3 :=
          match getChildByField n cfg.ext.bodyField with
          | some body => run cfg f (.visitForCallsT body) s2
          | none => s2
        { s3 with nodeStack := s3.nodeStack.tail }
    | .extractMethodT n ctx =>
      if s.nodeStack = [] ∧ cfg.language ≠ .go then
        run cfg f (.extractFunctionT n ctx) s
      else
        let name := extractName n cfg.source cfg.ext
        let r := createNode cfg .method name n
          { docstring := getPrecedingDocstring ctx cfg.source,
            signature := applyGetSignature cfg n ctx,
            visibility := applyGetVisibility cfg n ctx,
            isAsync := applyIsAsync cfg n ctx,
            isStatic := applyIsStatic cfg n ctx } s
        let s2 := { r.2 with nodeStack := r.1.id :: r.2.nodeStack }
        let s3 :=
          match getChildByField n cfg.ext.bodyField with
          | some body => run cfg f (.visitForCallsT body) s2
          | none => s2
        { s3 with nodeStack := s3.nodeStack.tail }
    | .extractClassT n ctx =>
      let name := extractName n cfg.source cfg.ext
      let r := createNode cfg .class_ name n
        { docstring := getPrecedingDocstring ctx cfg.source,
          visibility := applyGetVisibility cfg n ctx,
          isExported := applyIsExported cfg n ctx } s
      let s2 := extractInheritance cfg n r.1.id r.2
      let s3 := { s2 with nodeStack := r.1.id :: s2.nodeStack }
      let body := (getChildByField n cfg.ext.bodyField).getD n
      let s4 := runList (fun t s => run cfg f t s) (childVisitTasks body) s3
      { s4 with nodeStack := s4.nodeStack.tail }
    | .extractStructT n ctx =>
      let name := extractName n cfg.source cfg.ext
      let r := createNode cfg .struct name n
        { docstring := getPrecedingDocstring ctx cfg.source,
          visibility := applyGetVisibility cfg n ctx,
          isExported := applyIsExported cfg n ctx } s
      let s2 := { r.2 with nodeStack := r.1.id :: r.2.nodeStack }
      let body := (getChildByField n cfg.ext.bodyField).getD n
      let s3 := runList (fun t s => run cfg f t s) (childVisitTasks body) s2
      { s3 with nodeStack := s3.nodeStack.tail }
    | .visitForCallsT n =>
      let s1 := if n.type ∈ cfg.ext.callTypes then extractCall cfg n s else s
      runList (fun t s => run cfg f t s) (n.namedChildren.map (.visitForCallsT ·)) s1
    | .kotlinClassT n ctx =>
      let name := extractName n cfg.source cfg.ext
      let r := createNode cfg .class_ name n
        { docstring := getPrecedingDocstring ctx cfg.source,
          visibility := applyGetVisibility cfg n ctx,
          isAbstract := some (isKotlinAbstractClass n cfg.source) } s
      let s2 := extractKotlinInheritance cfg n r.1.id r.2
      let s3 := { s2 with nodeStack := r.1.id :: s2.nodeStack }
      let s4 := n.namedChildren.foldl (fun s c =>
        if c.type = "class_body" ∨ c.type = "enum_class_body" then
          runList (fun t s => run cfg f t s) (childVisitTasks c) s
        else s) s3
      { s4 with nodeStack := s4.nodeStack.tail }
    | .kotlinEnumT n ctx =>
      let name := extractName n cfg.source cfg.ext
      let r := createNode cfg .enum name n
        { docstring := getPrecedingDocstring ctx cfg.source,
          visibility := applyGetVisibility cfg n ctx } s
      let s2 := extractKotlinInheritance cfg n r.1.id r.2
      let s3 := { s2 with nodeStack := r.1.id :: s2.nodeStack }
      let s4 := n.namedChildren.foldl (fun s c =>
        if c.type = "enum_class_body" then
          runList (fun t s => run cfg f t s) (kotlinEnumBodyTasks c) s
        else s) s3
      { s4 with nodeStack := s4.nodeStack.tail }
    | .kotlinObjectT n ctx =>
      let name := extractName n cfg.source cfg.ext
      let r := createNode cfg .class_ name n
        { docstring := getPrecedingDocstring ctx cfg.source,
          visibility := applyGetVisibility cfg n ctx } s
      let s2 := extractKotlinInheritance cfg n r.1.id r.2
      let s3 := { s2 with nodeStack := r.1.id :: s2.nodeStack }
      let s4 := n.namedChildren.foldl (fun s c =>
        if c.type = "class_body" then
          runList (fun t s => run cfg f t s) (childVisitTasks c) s
        else s) s3
      { s4 with nodeStack := s4.nodeStack.tail }
    | .kotlinCompanionT n ctx =>
      let name :=
        match n.namedChildren.find? (·.type = "simple_identifier") with
        | some c => getNodeText c cfg.source
        | none => "Companion"
      let r := createNode cfg .class_ name n
        { docstring := getPrecedingDocstring ctx cfg.source,
          visibility := applyGetVisibility cfg n ctx,
          isStatic := some true } s
      let s2 := { r.2 with nodeStack := r.1.id :: r.2.nodeStack }
      let s3 := n.namedChildren.foldl (fun s c =>
        if c.type = "class_body" then
          runList (fun t s => run cfg f t s) (childVisitTasks c) s
        else s) s2
      { s3 with nodeStack := s3.nodeStack.tail }
    | .swiftClassT n ctx =>
      let name := getSwiftClassName n cfg.source
      let r := createNode cfg .class_ name n
        { docstring := getPrecedingDocstring ctx cfg.source,
          visibility := applyGetVisibility cfg n ctx,
          isAbstract := some (swiftHasModifier n cfg.source "abstract") } s
      let s2 := extractSwiftInheritance cfg n r.1.id r.2
      let s3 := { s2 with nodeStack := r.1.id :: s2.nodeStack }
      let s4 := run cfg f (.swiftClassBodyT n) s3
      { s4 with nodeStack := s4.nodeStack.tail }
    | .swiftStructT n ctx =>
      let name := getSwiftClassName n cfg.source
      let r := createNode cfg .struct name n
        { docstring := getPrecedingDocstring ctx cfg.source,
          visibility := applyGetVisibility cfg n ctx } s
      let s2 := extractSwiftInheritance cfg n r.1.id r.2
      let s3 := { s2 with nodeStack := r.1.id :: s2.nodeStack }
      let s4 := run cfg f (.swiftClassBodyT n) s3
      { s4 with nodeStack := s4.nodeStack.tail }
    | .swiftActorT n ctx =>
      let name := getSwiftClassName n cfg.source
      let r := createNode cfg .class_ name n
        { docstring := getPrecedingDocstring ctx cfg.source,
          visibility := applyGetVisibility cfg n ctx } s
      let s2 := extractSwiftInheritance cfg n r.1.id r.2
      let s3 := { s2 with nodeStack := r.1.id :: s2.nodeStack }
      let s4 := run cfg f (.swiftClassBodyT n) s3
      { s4 with nodeStack := s4.nodeStack.tail }
    | .swiftExtensionT n ctx =>
      let name := getSwiftClassName n cfg.source
      let r := createNode cfg .class_ name n
        { docstring := getPrecedingDocstring ctx cfg.source,
          visibility := applyGetVisibility cfg n ctx } s
      let s2 := extractSwiftInheritance cfg n r.1.id r.2
      let s3 := { s2 with nodeStack := r.1.id :: s2.nodeStack }
      let s4 := run cfg f (.swiftClassBodyT n) s3
      { s4 with nodeStack := s4.nodeStack.tail }
    | .swiftEnumT n ctx =>
      let name := getSwiftClassName n cfg.source
      let r := createNode cfg .enum name n
        { docstring := getPrecedingDocstring ctx cfg.source,
          visibility := applyGetVisibility cfg n ctx } s
      let s2 := extractSwiftInheritance cfg n r.1.id r.2
      let s3 := { s2 with nodeStack := r.1.id :: s2.nodeStack }
      let s4 := n.namedChildren.foldl (fun s c =>
        if c.type = "enum_class_body" then
          runList (fun t s => run cfg f t s) (swiftEnumBodyTasks c) s
        else s) s3
      { s4 with nodeStack := s4.nodeStack.tail }
    | .swiftProtocolT n ctx =>
      let name :=
        match n.namedChildren.find? (·.type = "type_identifier") with
        | some c => getNodeText c cfg.source
        | none => "<unknown>"
      let r := createNode cfg .interface name n
        { docstring := getPrecedingDocstring ctx cfg.source,
          visibility := applyGetVisibility cfg n ctx } s
      let s2 := extractSwiftInheritance cfg n r.1.id r.2
      let s3 := { s2 with nodeStack := r.1.id :: s2.nodeStack }
      let s4 := n.namedChildren.foldl (fun s c =>
        if c.type = "protocol_body" then
          runList (fun t s => run cfg f t s) (swiftProtocolBodyTasks c) s
        else s) s3
      { s4 with nodeStack := s4.nodeStack.tail }
    | .swiftInitT n ctx =>
      let signature := n.namedChildren.foldl (fun (sig : String) c =>
        if c.type = "parameter" then
          (if sig ≠ "" then sig ++ ", " else sig) ++ getNodeText c cfg.source
        else sig) ""
      let r := createNode cfg .method "init" n
        { docstring := getPrecedingDocstring ctx cfg.source,
          visibility := applyGetVisibility cfg n ctx,
          isAsync := applyIsAsync cfg n ctx,
          signature := some (if signature ≠ "" then "(" ++ signature ++ ")" else "()") } s
      let s2 := { r.2 with nodeStack := r.1.id :: r.2.nodeStack }
      let s3 := run cfg f (.swiftFunctionBodyT n) s2
      { s3 with nodeStack := s3.nodeStack.tail }
    | .swiftDeinitT n ctx =>
      let r := createNode cfg .method "deinit" n
        { docstring := getPrecedingDocstring ctx cfg.source } s
      let s2 := { r.2 with nodeStack := r.1.id :: r.2.nodeStack }
      let s3 := run cfg f (.swiftFunctionBodyT n) s2
      { s3 with nodeStack := s3.nodeStack.tail }
    | .swiftClassBodyT n =>
      n.namedChildren.foldl (fun s c =>
        if c.type = "class_body" then
          runList (fun t s => run cfg f t s) (swiftBodyTasks c) s
        else s) s
    | .swiftFunctionBodyT n =>
      n.namedChildren.foldl (fun s c =>
        if c.type = "function_body" then
          runList (fun t s => run cfg f t s) (childVisitTasks c) s
        else s) s
    | .swiftPropertyT n ctx => extractSwiftProperty cfg n ctx s
    | .swiftSubscriptT n ctx => extractSwiftSubscript cfg n ctx s
    | .swiftTypealiasT n ctx => extractSwiftTypealias cfg n ctx s
    | .swiftAssociatedTypeT n ctx => extractSwiftAssociatedType cfg n ctx s
    | .swiftProtocolPropertyT n ctx => extractSwiftProtocolProperty cfg n ctx s
    | .swiftProtocolFunctionT n ctx => extractSwiftProtocolFunction cfg n ctx s
    | .kotlinEnumEntryT n => extractKotlinEnumEntry cfg n s
    | .swiftEnumCaseT n => extractSwiftEnumCase cfg n s

/-! ## Entry points

The native tree-sitter parser, `Date.now()` and the elapsed-time computation
are external; the parse outcome and the two clock readings are parameters. -/

/-- Modelled from the spec: `detectLanguage` lives in src/extraction/grammars.ts,
which is not among the given sources; §4.1 fixes detection by the suffix after
the final dot, case-sensitively. -/
def detectLanguage (path : String) : Language :=
  let rev := path.data.reverse
  if rev.contains '.' then
    match String.mk ((rev.takeWhile (· ≠ '.')).reverse) with
    | "ts" => .typescript
    | "tsx" => .tsx
    | "js" => .javascript | "mjs" => .javascript | "cjs" => .javascript
    | "jsx" => .jsx
    | "py" => .python
    | "go" => .go
    | "rs" => .rust
    | "java" => .java
    | "c" => .c | "h" => .c
    | "cpp" => .cpp | "cc" => .cpp | "cxx" => .cpp | "hpp" => .cpp
    | "cs" => .csharp
    | "php" => .php
    | "rb" => .ruby
    | "swift" => .swift
    | "kt" => .kotlin | "kts" => .kotlin
    | "liquid" => .liquid
    | _ => .unknown
  else .unknown

/-- Modelled from the spec: `isLanguageSupported` lives in the missing
grammars.ts; §4.1 says a language is supported iff it has a parser and a
policy or is the pattern-based Liquid, which covers every tag but `unknown`. -/
def isLanguageSupported (l : Language) : Bool :=
  l ≠ Language.unknown

/-- Modelled from the spec: `getParser` lives in the missing grammars.ts; §4.2
keeps one tree-sitter parser per language, and Liquid has none (it is handled
by the pattern extractor). -/
def hasParser (l : Language) : Bool :=
  l ≠ Language.unknown && l ≠ Language.liquid

/-- `TreeSitterExtractor.extract` (tree-sitter.ts:875).  `parseResult` stands
for the native `parser.parse` call (`.error` = the parser threw), `now` for
`Date.now()` at node creation and `dur` for the computed `durationMs`. -/
def treeSitterExtract (filePath source : String) (language : Language)
    (parseResult : Except String SyntaxNode) (now dur : Nat) : ExtractionResult :=
  if ¬ isLanguageSupported language then
    { nodes := [], edges := [], unresolvedReferences := [],
      errors := [⟨"Unsupported language: " ++ languageName language, .error⟩],
      durationMs := dur }
  else if ¬ hasParser language then
    { nodes := [], edges := [], unresolvedReferences := [],
      errors := [⟨"Failed to get parser for language: " ++ languageName language, .error⟩],
      durationMs := dur }
  else
    match parseResult with
    | .error msg =>
      { nodes := [], edges := [], unresolvedReferences := [],
        errors := [⟨"Parse error: " ++ msg, .error⟩], durationMs := dur }
    | .ok root =>
      match EXTRACTORS language with
      | none =>
        { nodes := [], edges := [], unresolvedReferences := [], errors := [], durationMs := dur }
      | some ext =>
        let s := run ⟨filePath, language, source, ext, now⟩ (4 * treeFuel root + 4) (.visit root {}) {}
        { nodes := s.nodes, edges := s.edges,
          unresolvedReferences := s.unresolvedReferences, errors := [], durationMs := dur }

/-! ## LiquidExtractor (tree-sitter.ts:2279-2564)

Regex scanning over raw text.  The JS regexes are deterministic on their
alternatives, so they embed as direct character matchers; `exec` with the `g`
flag becomes a leftmost, non-overlapping scan.  `JSON.parse` is an external
library call: `jsonName` abstracts "the body parses and has a truthy top-level
`name` string". -/

/-- `{%` with an optional `-`. -/
def matchTagOpen (s : List Char) : Option (List Char) :=
  match s with
  | c1 :: c2 :: rest =>
    if c1 = Char.ofNat 123 && c2 = Char.ofNat 37 then
      match rest with
      | d :: rest2 => if d = Char.ofNat 45 then some rest2 else some rest
      | [] => some rest
    else none
  | _ => none

/-- JS `\w`. -/
def isWordChar (c : Char) : Bool :=
  (Char.ofNat 97 ≤ c && c ≤ Char.ofNat 122) || (Char.ofNat 65 ≤ c && c ≤ Char.ofNat 90) ||
  (Char.ofNat 48 ≤ c && c ≤ Char.ofNat 57) || c = Char.ofNat 95

def isQuoteChar (c : Char) : Bool :=
  c = Char.ofNat 39 || c = Char.ofNat 34

/-- A quoted `['"]([^'"]+)['"]` capture. -/
def matchQuoted (s : List Char) : Option (String × List Char) :=
  match s with
  | q :: r =>
    if isQuoteChar q then
      let nm := r.takeWhile (fun c => ¬ isQuoteChar c)
      if nm.length = 0 then none
      else
        match r.drop nm.length with
        | q2 :: rest => if isQuoteChar q2 then some (String.mk nm, rest) else none
        | [] => none
    else none
  | [] => none

/-- One match of `/\{%[-]?\s*(render|include)\s+['"]([^'"]+)['"]/` at the head. -/
def renderMatchAt (s : List Char) : Option (Nat × (String × String)) :=
  (matchTagOpen s).bind fun r1 =>
    let r2 := r1.dropWhile isJsWs
    (if "render".data.isPrefixOf r2 then some ("render", r2.drop 6)
     else if "include".data.isPrefixOf r2 then some ("include", r2.drop 7)
     else none).bind fun tr =>
      let ws := tr.2.takeWhile isJsWs
      if ws.length = 0 then none
      else
        (matchQuoted (tr.2.drop ws.length)).map fun nr =>
          (s.length - nr.2.length, (tr.1, nr.1))

/-- One match of `/\{%[-]?\s*section\s+['"]([^'"]+)['"]/` at the head. -/
def sectionMatchAt (s : List Char) : Option (Nat × String) :=
  (matchTagOpen s).bind fun r1 =>
    let r2 := r1.dropWhile isJsWs
    (if "section".data.isPrefixOf r2 then some (r2.drop 7) else none).bind fun r3 =>
      let ws := r3.takeWhile isJsWs
      if ws.length = 0 then none
      else
        (matchQuoted (r3.drop ws.length)).map fun nr =>
          (s.length - nr.2.length, nr.1)

/-- One match of `/\{%[-]?\s*assign\s+(\w+)\s*=/` at the head. -/
def assignMatchAt (s : List Char) : Option (Nat × String) :=
  (matchTagOpen s).bind fun r1 =>
    let r2 := r1.dropWhile isJsWs
    (if "assign".data.isPrefixOf r2 then some (r2.drop 6) else none).bind fun r3 =>
      let ws := r3.takeWhile isJsWs
      if ws.length = 0 then none
      else
        let r4 := r3.drop ws.length
        let nm := r4.takeWhile isWordChar
        if nm.length = 0 then none
        else
          match (r4.drop nm.length).dropWhile isJsWs with
          | c :: rest =>
            if c = Char.ofNat 61 then some (s.length - rest.length, String.mk nm) else none
          | [] => none

/-- `\{%[-]?\s*schema\s*[-]?%\}` / the `endschema` variant at the head. -/
def matchSchemaTag (word : String) (s : List Char) : Option (List Char) :=
  (matchTagOpen s).bind fun r1 =>
    let r2 := r1.dropWhile isJsWs
    (if word.data.isPrefixOf r2 then some (r2.drop word.length) else none).bind fun r3 =>
      let r4 := r3.dropWhile isJsWs
      let r5 := match r4 with
        | d :: rest => if d = Char.ofNat 45 then rest else r4
        | [] => r4
      match r5 with
      | a :: b :: rest =>
        if a = Char.ofNat 37 && b = Char.ofNat 125 then some rest else none
      | _ => none

/-- Earliest `endschema` tag in the remainder: `(bodyLength, rest after it)`. -/
def findSchemaClose : Nat → List Char → Option (Nat × List Char)
  | 0, _ => none
  | fuel + 1, s =>
    match matchSchemaTag "endschema" s with
    | some rest => some (0, rest)
    | none =>
      match s with
      | [] => none
      | _ :: t => (findSchemaClose fuel t).map (fun p => (p.1 + 1, p.2))

/-- One match of the schema regex at the head, with its lazy body capture. -/
def schemaMatchAt (s : List Char) : Option (Nat × String) :=
  (matchSchemaTag "schema" s).bind fun r1 =>
    (findSchemaClose (r1.length + 1) r1).map fun p =>
      (s.length - p.2.length, String.mk (r1.take p.1))

/-- `regex.exec` looping with the `g` flag: leftmost matches, resuming after
each match's end. -/
def scanAll {α : Type} (re : List Char → Option (Nat × α)) :
    Nat → Nat → List Char → List (Nat × Nat × α)
  | 0, _, _ => []
  | fuel + 1, pos, s =>
    match re s with
    | some (len, caps) => (pos, len, caps) :: scanAll re fuel (pos + len) (s.drop len)
    | none =>
      match s with
      | [] => []
      | _ :: t => scanAll re fuel (pos + 1) t

/-- `getLineNumber` (tree-sitter.ts:2548): newlines before the index, plus one. -/
def getLineNumber (source : String) (index : Nat) : Nat :=
  ((source.data.take index).count (Char.ofNat 10)) + 1

/-- `getLineStart` (tree-sitter.ts:2556). -/
def getLineStart (source : String) (lineNumber : Nat) : Nat :=
  (((splitChar (Char.ofNat 10) source).take (lineNumber - 1)).map
    (fun l => l.data.length + 1)).sum

/-- `LiquidExtractor.createFileNode` (tree-sitter.ts:2332). -/
def liquidFileNode (fp src : String) (now : Nat) : Node :=
  let lines := splitChar (Char.ofNat 10) src
  { id := generateNodeId fp .file fp 1,
    kind := .file,
    name :=
      (match (splitChar (Char.ofNat 47) fp).getLast? with
       | some seg => if seg = "" then fp else seg
       | none => fp),
    qualifiedName := fp, filePath := fp, language := .liquid,
    startLine := 1, endLine := lines.length,
    startColumn := 0,
    endColumn := (lines.getLast?.map (·.data.length)).getD 0,
    updatedAt := now }

/-- One render/include component node (tree-sitter.ts:2357-2400). -/
def liquidSnippetNode (fp src : String) (now : Nat) (m : Nat × Nat × (String × String)) : Node :=
  let line := getLineNumber src m.1
  let col := m.1 - getLineStart src line
  { id := generateNodeId fp .component (m.2.2.1 ++ ":" ++ m.2.2.2) line,
    kind := .component, name := m.2.2.2,
    qualifiedName := fp ++ "::" ++ m.2.2.1 ++ ":" ++ m.2.2.2,
    filePath := fp, language := .liquid,
    startLine := line, endLine := line,
    startColumn := col, endColumn := col + m.2.1,
    updatedAt := now }

/-- One section component node (tree-sitter.ts:2406-2449). -/
def liquidSectionNode (fp src : String) (now : Nat) (m : Nat × Nat × String) : Node :=
  let line := getLineNumber src m.1
  let col := m.1 - getLineStart src line
  { id := generateNodeId fp .component ("section:" ++ m.2.2) line,
    kind := .component, name := m.2.2,
    qualifiedName := fp ++ "::" ++ "section:" ++ m.2.2,
    filePath := fp, language := .liquid,
    startLine := line, endLine := line,
    startColumn := col, endColumn := col + m.2.1,
    updatedAt := now }

/-- One schema constant node (tree-sitter.ts:2455-2502). -/
def liquidSchemaNode (fp src : String) (jsonName : String → Option String) (now : Nat)
    (m : Nat × Nat × String) : Node :=
  let startLine := getLineNumber src m.1
  let endLine := getLineNumber src (m.1 + m.2.1)
  let schemaName := (jsonName m.2.2).getD "schema"
  { id := generateNodeId fp .constant ("schema:" ++ schemaName) startLine,
    kind := .constant, name := schemaName,
    qualifiedName := fp ++ "::" ++ "schema:" ++ schemaName,
    filePath := fp, language := .liquid,
    startLine := startLine, endLine := endLine,
    startColumn := m.1 - getLineStart src startLine, endColumn := 0,
    docstring := some (String.mk ((jsTrim m.2.2).data.take 200)),
    updatedAt := now }

/-- One assign variable node (tree-sitter.ts:2508-2542). -/
def liquidAssignNode (fp src : String) (now : Nat) (m : Nat × Nat × String) : Node :=
  let line := getLineNumber src m.1
  let col := m.1 - getLineStart src line
  { id := generateNodeId fp .variable_ m.2.2 line,
    kind := .variable_, name := m.2.2,
    qualifiedName := fp ++ "::" ++ m.2.2,
    filePath := fp, language := .liquid,
    startLine := line, endLine := line,
    startColumn := col, endColumn := col + m.2.1,
    updatedAt := now }

def liquidRenderMatches (src : String) : List (Nat × Nat × (String × String)) :=
  scanAll renderMatchAt (src.data.length + 1) 0 src.data

def liquidSectionMatches (src : String) : List (Nat × Nat × String) :=
  scanAll sectionMatchAt (src.data.length + 1) 0 src.data

def liquidSchemaMatches (src : String) : List (Nat × Nat × String) :=
  scanAll schemaMatchAt (src.data.length + 1) 0 src.data

def liquidAssignMatches (src : String) : List (Nat × Nat × String) :=
  scanAll assignMatchAt (src.data.length + 1) 0 src.data

/-- `LiquidExtractor.extract` (tree-sitter.ts:2295): the file node, then the
snippet, section, schema and assign extractions in method order, each node with
a containment edge from the file node. -/
def liquidExtract (fp src : String) (jsonName : String → Option String)
    (now dur : Nat) : ExtractionResult :=
  let fileNode := liquidFileNode fp src now
  let snipNodes := (liquidRenderMatches src).map (liquidSnippetNode fp src now)
  let sectNodes := (liquidSectionMatches src).map (liquidSectionNode fp src now)
  let schemaNodes := (liquidSchemaMatches src).map (liquidSchemaNode fp src jsonName now)
  let assignNodes := (liquidAssignMatches src).map (liquidAssignNode fp src now)
  { nodes := fileNode :: (snipNodes ++ sectNodes ++ schemaNodes ++ assignNodes),
    edges := (snipNodes ++ sectNodes ++ schemaNodes ++ assignNodes).map
      (fun n => ⟨fileNode.id, n.id, EdgeKind.contains⟩),
    unresolvedReferences :=
      ((liquidRenderMatches src).map (fun m =>
        let line := getLineNumber src m.1
        ⟨fileNode.id, "snippets/" ++ m.2.2.2 ++ ".liquid", RefKind.references,
          line, m.1 - getLineStart src line⟩)) ++
      ((liquidSectionMatches src).map (fun m =>
        let line := getLineNumber src m.1
        ⟨fileNode.id, "sections/" ++ m.2.2 ++ ".liquid", RefKind.references,
          line, m.1 - getLineStart src line⟩)),
    errors := [],
    durationMs := dur }

/-- `extractFromSource` (tree-sitter.ts:2569): route Liquid to the pattern
extractor, everything else to the tree-sitter walker. -/
def extractFromSource (filePath source : String) (language : Option Language)
    (parseResult : Except String SyntaxNode) (jsonName : String → Option String)
    (now dur : Nat) : ExtractionResult :=
  let detected := language.getD (detectLanguage filePath)
  if detected = .liquid then liquidExtract filePath source jsonName now dur
  else treeSitterExtract filePath source detected parseResult now dur

/-! ## Derived notions used by the verified properties -/

/-- Number of `contains` edges of a result targeting a given id. -/
def containsTargetCount (R : ExtractionResult) (id : String) : Nat :=
  (R.edges.filter (fun e => e.kind = EdgeKind.contains && e.target = id)).length

/-- The `contains`-edge relation of a result, on node ids. -/
def containsRel (R : ExtractionResult) (a b : String) : Prop :=
  (⟨a, b, EdgeKind.contains⟩ : Edge) ∈ R.edges

/-- The containment-forest property: no non-file node is the target of two
`contains` edges, and the `contains` relation has no cycle. -/
def containsForest (R : ExtractionResult) : Prop :=
  (∀ n ∈ R.nodes, n.kind ≠ NodeKind.file → containsTargetCount R n.id ≤ 1) ∧
  (∀ v, ¬ Relation.TransGen (containsRel R) v v)

/-- Zero out a node's wall-clock field. -/
def eraseTimeNode (n : Node) : Node := { n with updatedAt := 0 }

/-- A result modulo `durationMs` and each node's `updatedAt`. -/
def eraseResult (R : ExtractionResult) : ExtractionResult :=
  { R with nodes := R.nodes.map eraseTimeNode, durationMs := 0 }

/-- Occurrences of an id among emitted nodes. -/
def countId (nodes : List Node) (id : String) : Nat :=
  (nodes.filter (·.id = id)).length

/-- Occurrences of an id as a `contains`-edge target. -/
def countTarget (edges : List Edge) (id : String) : Nat :=
  (edges.filter (fun e => e.kind = EdgeKind.contains && e.target = id)).length

/-- Every node the walker emits carries the file path and the hash-derived id
over its own `(filePath, kind, name, startLine)`; `function` nodes are never
anonymous. -/
def NodeOk (fp : String) (n : Node) : Prop :=
  n.filePath = fp ∧
  n.id = generateNodeId fp n.kind n.name n.startLine ∧
  (n.kind = NodeKind.function → n.name ≠ "<anonymous>")

/-- Every walker edge is a containment edge whose source node was emitted
strictly before its target node. -/
def EdgeOk (nodes : List Node) (e : Edge) : Prop :=
  e.kind = EdgeKind.contains ∧
  ∃ i j : Nat, i < j ∧
    (∃ a, nodes.get? i = some a ∧ a.id = e.source) ∧
    (∃ b, nodes.get? j = some b ∧ b.id = e.target)

/-- The walker-state invariant. -/
def Good (fp : String) (s : WalkState) : Prop :=
  (∀ n ∈ s.nodes, NodeOk fp n) ∧
  (∀ id ∈ s.nodeStack, ∃ n ∈ s.nodes, n.id = id) ∧
  (∀ e ∈ s.edges, EdgeOk s.nodes e) ∧
  (∀ id, countTarget s.edges id ≤ countId s.nodes id)

/-- Two walker states that agree except for node timestamps. -/
def SameMod (s s' : WalkState) : Prop :=
  s.nodes.map eraseTimeNode = s'.nodes.map eraseTimeNode ∧
  s.edges = s'.edges ∧
  s.unresolvedReferences = s'.unresolvedReferences ∧
  s.nodeStack = s'.nodeStack

/-- States that agree except that unresolved references were appended. -/
def RefsOnly (s s' : WalkState) : Prop :=
  s'.nodes = s.nodes ∧ s'.edges = s.edges ∧ s'.nodeStack = s.nodeStack ∧
  ∃ d, s'.unresolvedReferences = s.unresolvedReferences ++ d

/-- States growing by appending only (nodes, edges and references are never
removed or reordered by the walker). -/
def Evolves (s s' : WalkState) : Prop :=
  (∃ d, s'.nodes = s.nodes ++ d) ∧ (∃ d, s'.edges = s.edges ++ d) ∧
  (∃ d, s'.unresolvedReferences = s.unresolvedReferences ++ d)

/-- `this.extractor.getVisibility?.(node)` as a standalone application. -/
def visibilityOf (ext : LanguageExtractor) (n : SyntaxNode) (ctx : Ctx)
    (source : String) : Option Visibility :=
  ext.getVisibility.bind (fun g => g n ctx source)

/-- The id format asserted by the specification for every emitted node: the
kind, a colon, and the first 32 hex characters of the SHA-256 of
`filePath:kind:name:startLine` over the node's own attributes. -/
def specIdFormula (n : Node) : String :=
  kindName n.kind ++ ":" ++
    String.mk ((sha256Hex (n.filePath ++ ":" ++ kindName n.kind ++ ":" ++ n.name ++ ":" ++
      toString n.startLine)).data.take 32)

/-- The flattened `user_type` grandchildren under `inheritance_specifier`
entries of a child list, in order. -/
def swiftSpecUserTypesL (l : List SyntaxNode) : List SyntaxNode :=
  (l.filter (·.type = "inheritance_specifier")).flatMap
    (fun c => c.namedChildren.filter (·.type = "user_type"))

/-- The flattened `user_type` children of `inheritance_specifier` children, in
order — exactly the types `extractSwiftInheritance` walks. -/
def swiftSpecUserTypes (n : SyntaxNode) : List SyntaxNode :=
  swiftSpecUserTypesL n.namedChildren

/-- The reference list `extractSwiftInheritance` appends: the first found
`user_type` as `extends`, the rest as `implements`. -/
def swiftInheritanceRefs (cfg : Cfg) (n : SyntaxNode) (classId : String) :
    List UnresolvedReference :=
  match swiftSpecUserTypes n with
  | [] => []
  | u :: rest =>
    ⟨classId, getNodeText u cfg.source, .extends_, u.info.startRow + 1, u.info.startCol⟩ ::
      rest.map (fun v =>
        ⟨classId, getNodeText v cfg.source, .implements, v.info.startRow + 1, v.info.startCol⟩)

/-- No Rust/PHP `visibility_modifier` child. -/
def noVisibilityModifierChild (n : SyntaxNode) : Prop :=
  ∀ c ∈ n.children, c.type ≠ "visibility_modifier"

/-- No Kotlin `modifiers` child mentioning a visibility keyword. -/
def kotlinNoVisibility (n : SyntaxNode) (src : String) : Prop :=
  ∀ c ∈ n.children, c.type = "modifiers" →
    jsIncludes (getNodeText c src) "public" = false ∧
    jsIncludes (getNodeText c src) "private" = false ∧
    jsIncludes (getNodeText c src) "protected" = false ∧
    jsIncludes (getNodeText c src) "internal" = false

/-- No C# `modifier` child that is a visibility keyword. -/
def csharpNoVisibility (n : SyntaxNode) (src : String) : Prop :=
  ∀ c ∈ n.children, c.type = "modifier" →
    getNodeText c src ≠ "public" ∧ getNodeText c src ≠ "private" ∧
    getNodeText c src ≠ "protected" ∧ getNodeText c src ≠ "internal"

/-- No Swift `modifiers` child mentioning a visibility keyword. -/
def swiftNoVisibility (n : SyntaxNode) (src : String) : Prop :=
  ∀ c ∈ n.children, c.type = "modifiers" →
    jsIncludes (getNodeText c src) "public" = false ∧
    jsIncludes (getNodeText c src) "private" = false ∧
    jsIncludes (getNodeText c src) "internal" = false ∧
    jsIncludes (getNodeText c src) "fileprivate" = false

/-! ## Concrete inputs for the witnesses and counterexamples -/

/-- A declaration node with no children at all (hence no modifiers). -/
def bareDecl (ty : String) : SyntaxNode := .mk { type := ty } []

/-- `export default class {}` in TypeScript: a `class_declaration` with a body
field but no name and no identifier child. -/
def anonClassTree : SyntaxNode :=
  .mk { type := "program", startIndex := 0, endIndex := 24, endCol := 24 }
    [.mk { type := "class_declaration", startIndex := 15, endIndex := 24,
           startCol := 15, endCol := 24, fields := [("body", 0)] }
      [.mk { type := "class_body", startIndex := 22, endIndex := 24, startCol := 22, endCol := 24 } []]]

def anonClassSource : String := "export default class \x7b\x7d"

/-- `() => 1` in TypeScript: a top-level anonymous arrow function. -/
def anonFuncTree : SyntaxNode :=
  .mk { type := "program", startIndex := 0, endIndex := 7, endCol := 7 }
    [.mk { type := "arrow_function", startIndex := 0, endIndex := 7, endCol := 7 } []]

/-- `import x from "m"` in TypeScript, at top level. -/
def topImportTree : SyntaxNode :=
  .mk { type := "program", startIndex := 0, endIndex := 17, endCol := 17 }
    [.mk { type := "import_statement", startIndex := 0, endIndex := 17, endCol := 17,
           fields := [("source", 0)] }
      [.mk { type := "string", startIndex := 14, endIndex := 17, startCol := 14, endCol := 17 } []]]

def topImportSource : String := "import x from \x22m\x22"

/-- The bare `import_statement` node of `topImportTree`. -/
def importNode : SyntaxNode :=
  .mk { type := "import_statement", startIndex := 0, endIndex := 17, endCol := 17,
        fields := [("source", 0)] }
    [.mk { type := "string", startIndex := 14, endIndex := 17, startCol := 14, endCol := 17 } []]

/-- `function f() {}` in TypeScript. -/
def namedFuncTree : SyntaxNode :=
  .mk { type := "program", startIndex := 0, endIndex := 15, endCol := 15 }
    [.mk { type := "function_declaration", startIndex := 0, endIndex := 15, endCol := 15,
           fields := [("name", 0), ("body", 1)] }
      [.mk { type := "identifier", startIndex := 9, endIndex := 10, startCol := 9, endCol := 10 } [],
       .mk { type := "statement_block", startIndex := 13, endIndex := 15, startCol := 13, endCol := 15 } []]]

def namedFuncSource : String := "function f() \x7b\x7d"

/-- The bare `function_declaration` node of `namedFuncTree`. -/
def namedFuncNode : SyntaxNode :=
  .mk { type := "function_declaration", startIndex := 0, endIndex := 15, endCol := 15,
        fields := [("name", 0), ("body", 1)] }
    [.mk { type := "identifier", startIndex := 9, endIndex := 10, startCol := 9, endCol := 10 } [],
     .mk { type := "statement_block", startIndex := 13, endIndex := 15, startCol := 13, endCol := 15 } []]

/-- `def f(): pass` in Python (a `function_definition` node alone). -/
def pyFuncNode : SyntaxNode :=
  .mk { type := "function_definition", startIndex := 0, endIndex := 13, endCol := 13,
        fields := [("name", 0), ("body", 1)] }
    [.mk { type := "identifier", startIndex := 4, endIndex := 5, startCol := 4, endCol := 5 } [],
     .mk { type := "block", startIndex := 9, endIndex := 13, startCol := 9, endCol := 13 } []]

def pyFuncSource : String := "def f(): pass"

/-- `func (r T) m() {}` in Go (a `method_declaration` node alone). -/
def goMethodNode : SyntaxNode :=
  .mk { type := "method_declaration", startIndex := 0, endIndex := 17, endCol := 17,
        fields := [("name", 0)] }
    [.mk { type := "field_identifier", startIndex := 11, endIndex := 12, startCol := 11, endCol := 12 } []]

def goMethodSource : String := "func (r T) m() \x7b\x7d"

/-- `class A { m(){} } class B { m(){} }` on a single TypeScript line: both
methods hash to one id, which two `contains` edges then target. -/
def twoClassesTree : SyntaxNode :=
  .mk { type := "program", startIndex := 0, endIndex := 35, endCol := 35 }
    [.mk { type := "class_declaration", startIndex := 0, endIndex := 17, endCol := 17,
           fields := [("name", 0), ("body", 1)] }
      [.mk { type := "type_identifier", startIndex := 6, endIndex := 7, startCol := 6, endCol := 7 } [],
       .mk { type := "class_body", startIndex := 8, endIndex := 17, startCol := 8, endCol := 17 }
        [.mk { type := "method_definition", startIndex := 10, endIndex := 15, startCol := 10, endCol := 15,
               fields := [("name", 0)] }
          [.mk { type := "property_identifier", startIndex := 10, endIndex := 11, startCol := 10, endCol := 11 } []]]],
     .mk { type := "class_declaration", startIndex := 18, endIndex := 35, startCol := 18, endCol := 35,
           fields := [("name", 0), ("body", 1)] }
      [.mk { type := "type_identifier", startIndex := 24, endIndex := 25, startCol := 24, endCol := 25 } [],
       .mk { type := "class_body", startIndex := 26, endIndex := 35, startCol := 26, endCol := 35 }
        [.mk { type := "method_definition", startIndex := 28, endIndex := 33, startCol := 28, endCol := 33,
               fields := [("name", 0)] }
          [.mk { type := "property_identifier", startIndex := 28, endIndex := 29, startCol := 28, endCol := 29 } []]]]]

def twoClassesSource : String := "class A \x7b m()\x7b\x7d \x7d class B \x7b m()\x7b\x7d \x7d"

/-- `class C { m(){} }` alone (all node ids distinct). -/
def oneClassTree : SyntaxNode :=
  .mk { type := "program", startIndex := 0, endIndex := 17, endCol := 17 }
    [.mk { type := "class_declaration", startIndex := 0, endIndex := 17, endCol := 17,
           fields := [("name", 0), ("body", 1)] }
      [.mk { type := "type_identifier", startIndex := 6, endIndex := 7, startCol := 6, endCol := 7 } [],
       .mk { type := "class_body", startIndex := 8, endIndex := 17, startCol := 8, endCol := 17 }
        [.mk { type := "method_definition", startIndex := 10, endIndex := 15, startCol := 10, endCol := 15,
               fields := [("name", 0)] }
          [.mk { type := "property_identifier", startIndex := 10, endIndex := 11, startCol := 10, endCol := 11 } []]]]]

def oneClassSource : String := "class C \x7b m()\x7b\x7d \x7d"

/-- `struct S: P {}` in Swift: a `class_declaration` with a `struct` token and
one `inheritance_specifier`. -/
def swiftStructTree : SyntaxNode :=
  .mk { type := "program", startIndex := 0, endIndex := 14, endCol := 14 }
    [.mk { type := "class_declaration", startIndex := 0, endIndex := 14, endCol := 14 }
      [.mk { type := "struct", named := false, startIndex := 0, endIndex := 6, endCol := 6 } [],
       .mk { type := "type_identifier", startIndex := 7, endIndex := 8, startCol := 7, endCol := 8 } [],
       .mk { type := "inheritance_specifier", startIndex := 10, endIndex := 11, startCol := 10, endCol := 11 }
        [.mk { type := "user_type", startIndex := 10, endIndex := 11, startCol := 10, endCol := 11 } []],
       .mk { type := "class_body", startIndex := 12, endIndex := 14, startCol := 12, endCol := 14 } []]]

def swiftStructSource : String := "struct S: P \x7b\x7d"

/-- The bare Swift struct `class_declaration` node of `swiftStructTree`. -/
def swiftStructNode : SyntaxNode :=
  .mk { type := "class_declaration", startIndex := 0, endIndex := 14, endCol := 14 }
    [.mk { type := "struct", named := false, startIndex := 0, endIndex := 6, endCol := 6 } [],
     .mk { type := "type_identifier", startIndex := 7, endIndex := 8, startCol := 7, endCol := 8 } [],
     .mk { type := "inheritance_specifier", startIndex := 10, endIndex := 11, startCol := 10, endCol := 11 }
      [.mk { type := "user_type", startIndex := 10, endIndex := 11, startCol := 10, endCol := 11 } []],
     .mk { type := "class_body", startIndex := 12, endIndex := 14, startCol := 12, endCol := 14 } []]

def liquidRenderSource : String := "\x7b% render \x22product-card\x22 %\x7d"

def liquidTwoTagSource : String := "\x7b% render \x22a\x22 %\x7d"

/-- The reference stream of the `isFirst` pair-fold of `extractSwiftInheritance`,
indexed by the incoming flag: the head is `extends` when the flag is still set,
everything after it `implements`. -/
def swiftRefsAux (cfg : Cfg) (classId : String) : Bool → List SyntaxNode → List UnresolvedReference
  | _, [] => []
  | b, u :: rest =>
    ⟨classId, getNodeText u cfg.source, if b then .extends_ else .implements,
      u.info.startRow + 1, u.info.startCol⟩ :: swiftRefsAux cfg classId false rest

/-- A placeholder node for `headD`. -/
def defaultNode : Node :=
  { id := "", kind := .file, name := "", qualifiedName := "", filePath := "",
    language := .unknown, startLine := 0, endLine := 0, startColumn := 0,
    endColumn := 0, updatedAt := 0 }

/-- The single node extracted from `function f() {}` (used as a concrete
instance of the id and naming facts). -/
def c7Node : Node :=
  (treeSitterExtract "a.ts" namedFuncSource .typescript (.ok namedFuncTree) 0 0).nodes.headD
    defaultNode

/-- The same extraction at clock reading 5. -/
def c1Node : Node :=
  (treeSitterExtract "a.ts" namedFuncSource .typescript (.ok namedFuncTree) 5 0).nodes.headD
    defaultNode

/-- The same extraction at clock reading 7. -/
def c1NodeB : Node :=
  (treeSitterExtract "a.ts" namedFuncSource .typescript (.ok namedFuncTree) 7 0).nodes.headD
    defaultNode

/-- The first method node of the two-classes extraction (its id is shared with
the second method and is the target of two contains edges). -/
def c8Node : Node :=
  (treeSitterExtract "a.ts" twoClassesSource .typescript
    (.ok twoClassesTree) 0 0).nodes.getD 1 defaultNode

/-- Overwrite a node's wall-clock reading. -/
def retimeNode (m : Nat) (nd : Node) : Node := { nd with updatedAt := m }

/-- Overwrite every emitted node's wall-clock reading. -/
def retime (m : Nat) (s : WalkState) : WalkState :=
  { s with nodes := s.nodes.map (retimeNode m) }

/-! # Theorems -/

/-- **C3.** For every input whose detected language is `unknown` or otherwise
unsupported, extraction returns empty nodes, edges and unresolved references
and exactly one error record of severity `error`; it does not throw (the
embedding is total). -/
theorem c3_unsupported_language (filePath source : String) (language : Option Language)
    (pr : Except String SyntaxNode) (jn : String → Option String) (now dur : Nat)
    (h : isLanguageSupported (language.getD (detectLanguage filePath)) = false) :
    extractFromSource filePath source language pr jn now dur =
      { nodes := [], edges := [], unresolvedReferences := [],
        errors := [⟨"Unsupported language: " ++
          languageName (language.getD (detectLanguage filePath)), .error⟩],
        durationMs := dur } := by
  have hu : language.getD (detectLanguage filePath) = .unknown := by
    revert h
    cases language.getD (detectLanguage filePath) <;> simp [isLanguageSupported]
  simp [extractFromSource, hu, treeSitterExtract, isLanguageSupported, languageName]

/-- Witness for C3 at the concrete input `styles.css`. -/
theorem c3_unsupported_language_witness :
    isLanguageSupported ((none : Option Language).getD (detectLanguage "styles.css")) = false ∧
    extractFromSource "styles.css" "body" none (.error "no parser") (fun _ => none) 3 9 =
      { nodes := [], edges := [], unresolvedReferences := [],
        errors := [⟨"Unsupported language: unknown", .error⟩], durationMs := 9 } :=
  ⟨by decide, by
    have := c3_unsupported_language "styles.css" "body" none (.error "no parser")
      (fun _ => none) 3 9 (by decide)
    simpa [detectLanguage] using this⟩

/-- **C5 (amended).** With no explicit visibility modifier, the extractors
default to `private` for Rust, `public` for PHP and Kotlin, `internal` for
Swift — and `private` (not `internal`, as the claim said) for C#. -/
theorem c5_visibility_defaults (n1 n2 n3 n4 n5 : SyntaxNode) (ctx : Ctx) (src : String)
    (h1 : noVisibilityModifierChild n1) (h2 : noVisibilityModifierChild n2)
    (h3 : kotlinNoVisibility n3 src) (h4 : csharpNoVisibility n4 src)
    (h5 : swiftNoVisibility n5 src) :
    visibilityOf rustExtractor n1 ctx src = some .private_ ∧
    visibilityOf phpExtractor n2 ctx src = some .public ∧
    visibilityOf kotlinExtractor n3 ctx src = some .public ∧
    visibilityOf csharpExtractor n4 ctx src = some .private_ ∧
    visibilityOf swiftExtractor n5 ctx src = some .internal := by
  refine ⟨?_, ?_, ?_, ?_, ?_⟩
  · have : n1.children.find? (·.type = "visibility_modifier") = none := by
      rw [List.find?_eq_none]
      intro c hc
      simpa using h1 c hc
    simp [visibilityOf, rustExtractor, this]
  · have : (n2.children.findSome? (fun c =>
        if c.type = "visibility_modifier" then
          let text := getNodeText c src
          if text = "public" then some Visibility.public
          else if text = "private" then some Visibility.private_
          else if text = "protected" then some Visibility.protected_
          else none
        else none)) = none := by
      rw [List.findSome?_eq_none_iff]
      intro c hc
      have := h2 c hc
      simp [this]
    simp [visibilityOf, phpExtractor, this]
  · have : (n3.children.findSome? (fun c =>
        if c.type = "modifiers" then
          let text := getNodeText c src
          if jsIncludes text "public" then some Visibility.public
          else if jsIncludes text "private" then some Visibility.private_
          else if jsIncludes text "protected" then some Visibility.protected_
          else if jsIncludes text "internal" then some Visibility.internal
          else none
        else none)) = none := by
      rw [List.findSome?_eq_none_iff]
      intro c hc
      by_cases hm : c.type = "modifiers"
      · obtain ⟨p1, p2, p3, p4⟩ := h3 c hc hm
        simp [hm, p1, p2, p3, p4]
      · simp [hm]
    simp [visibilityOf, kotlinExtractor, this]
  · have : (n4.children.findSome? (fun c =>
        if c.type = "modifier" then
          let text := getNodeText c src
          if text = "public" then some Visibility.public
          else if text = "private" then some Visibility.private_
          else if text = "protected" then some Visibility.protected_
          else if text = "internal" then some Visibility.internal
          else none
        else none)) = none := by
      rw [List.findSome?_eq_none_iff]
      intro c hc
      by_cases hm : c.type = "modifier"
      · obtain ⟨p1, p2, p3, p4⟩ := h4 c hc hm
        simp [hm, p1, p2, p3, p4]
      · simp [hm]
    simp [visibilityOf, csharpExtractor, this]
  · have : (n5.children.findSome? (fun c =>
        if c.type = "modifiers" then
          let text := getNodeText c src
          if jsIncludes text "public" then some Visibility.public
          else if jsIncludes text "private" then some Visibility.private_
          else if jsIncludes text "internal" then some Visibility.internal
          else if jsIncludes text "fileprivate" then some Visibility.private_
          else none
        else none)) = none := by
      rw [List.findSome?_eq_none_iff]
      intro c hc
      by_cases hm : c.type = "modifiers"
      · obtain ⟨p1, p2, p3, p4⟩ := h5 c hc hm
        simp [hm, p1, p2, p3, p4]
      · simp [hm]
    simp [visibilityOf, swiftExtractor, this]

/-- Witness for C5 on modifier-free declaration nodes. -/
theorem c5_visibility_defaults_witness :
    visibilityOf rustExtractor (bareDecl "function_item") {} "" = some .private_ ∧
    visibilityOf phpExtractor (bareDecl "method_declaration") {} "" = some .public ∧
    visibilityOf kotlinExtractor (bareDecl "function_declaration") {} "" = some .public ∧
    visibilityOf csharpExtractor (bareDecl "method_declaration") {} "" = some .private_ ∧
    visibilityOf swiftExtractor (bareDecl "function_declaration") {} "" = some .internal :=
  c5_visibility_defaults (bareDecl "function_item") (bareDecl "method_declaration")
    (bareDecl "function_declaration") (bareDecl "method_declaration")
    (bareDecl "function_declaration") {} ""
    (by intro c hc; simp [bareDecl, SyntaxNode.mk, SyntaxNode.children, SyntaxNodeList.ofList, SyntaxNodeList.toList] at hc)
    (by intro c hc; simp [bareDecl, SyntaxNode.mk, SyntaxNode.children, SyntaxNodeList.ofList, SyntaxNodeList.toList] at hc)
    (by intro c hc; simp [bareDecl, SyntaxNode.mk, SyntaxNode.children, SyntaxNodeList.ofList, SyntaxNodeList.toList] at hc)
    (by intro c hc; simp [bareDecl, SyntaxNode.mk, SyntaxNode.children, SyntaxNodeList.ofList, SyntaxNodeList.toList] at hc)
    (by intro c hc; simp [bareDecl, SyntaxNode.mk, SyntaxNode.children, SyntaxNodeList.ofList, SyntaxNodeList.toList] at hc)

/-- Counterexample to C5 as stated: a C# declaration with no modifier defaults
to `private`, not `internal`. -/
theorem c5_counterexample :
    ¬ (visibilityOf csharpExtractor (bareDecl "method_declaration") {} "" =
        some Visibility.internal) := by
  decide

/-- Helper: the kinds of the non-file Liquid nodes. -/
theorem liquid_tail_kinds (fp src : String) (jn : String → Option String) (now : Nat) :
    ∀ nd ∈ ((liquidRenderMatches src).map (liquidSnippetNode fp src now) ++
        (liquidSectionMatches src).map (liquidSectionNode fp src now) ++
        (liquidSchemaMatches src).map (liquidSchemaNode fp src jn now) ++
        (liquidAssignMatches src).map (liquidAssignNode fp src now)),
      nd.kind ≠ NodeKind.file := by
  intro nd hnd
  rcases List.mem_append.mp hnd with h | h
  · rcases List.mem_append.mp h with h | h
    · rcases List.mem_append.mp h with h | h
      · obtain ⟨m, _, rfl⟩ := List.mem_map.mp h
        simp [liquidSnippetNode]
      · obtain ⟨m, _, rfl⟩ := List.mem_map.mp h
        simp [liquidSectionNode]
    · obtain ⟨m, _, rfl⟩ := List.mem_map.mp h
      simp [liquidSchemaNode]
  · obtain ⟨m, _, rfl⟩ := List.mem_map.mp h
    simp [liquidAssignNode]

/-- **C10.** A Liquid template yields one `file` node; each `render`/`include`
occurrence yields a `component` node named by its capture, a `contains` edge
from the file node to it, and a `references` unresolved reference to
`snippets/X.liquid`; and every non-file node has a containment edge from the
file node. -/
theorem c10_liquid_template (fp src : String) (jn : String → Option String) (now dur : Nat) :
    ((liquidExtract fp src jn now dur).nodes.countP (fun n => n.kind == NodeKind.file)) = 1 ∧
    (∀ m ∈ liquidRenderMatches src,
      ∃ nd ∈ (liquidExtract fp src jn now dur).nodes,
        nd.kind = NodeKind.component ∧ nd.name = m.2.2.2 ∧
        (⟨(liquidFileNode fp src now).id, nd.id, EdgeKind.contains⟩ : Edge) ∈
          (liquidExtract fp src jn now dur).edges ∧
        (⟨(liquidFileNode fp src now).id, "snippets/" ++ m.2.2.2 ++ ".liquid",
            RefKind.references, getLineNumber src m.1,
            m.1 - getLineStart src (getLineNumber src m.1)⟩ : UnresolvedReference) ∈
          (liquidExtract fp src jn now dur).unresolvedReferences) ∧
    (∀ nd ∈ (liquidExtract fp src jn now dur).nodes, nd.kind ≠ NodeKind.file →
      (⟨(liquidFileNode fp src now).id, nd.id, EdgeKind.contains⟩ : Edge) ∈
        (liquidExtract fp src jn now dur).edges) := by
  have hnodes : (liquidExtract fp src jn now dur).nodes =
      liquidFileNode fp src now ::
        ((liquidRenderMatches src).map (liquidSnippetNode fp src now) ++
         (liquidSectionMatches src).map (liquidSectionNode fp src now) ++
         (liquidSchemaMatches src).map (liquidSchemaNode fp src jn now) ++
         (liquidAssignMatches src).map (liquidAssignNode fp src now)) := rfl
  have hedges : (liquidExtract fp src jn now dur).edges =
      ((liquidRenderMatches src).map (liquidSnippetNode fp src now) ++
       (liquidSectionMatches src).map (liquidSectionNode fp src now) ++
       (liquidSchemaMatches src).map (liquidSchemaNode fp src jn now) ++
       (liquidAssignMatches src).map (liquidAssignNode fp src now)).map
        (fun n => (⟨(liquidFileNode fp src now).id, n.id, EdgeKind.contains⟩ : Edge)) := rfl
  have hrefs : (liquidExtract fp src jn now dur).unresolvedReferences =
      ((liquidRenderMatches src).map (fun m =>
        let line := getLineNumber src m.1
        (⟨(liquidFileNode fp src now).id, "snippets/" ++ m.2.2.2 ++ ".liquid",
          RefKind.references, line, m.1 - getLineStart src line⟩ : UnresolvedReference))) ++
      ((liquidSectionMatches src).map (fun m =>
        let line := getLineNumber src m.1
        (⟨(liquidFileNode fp src now).id, "sections/" ++ m.2.2 ++ ".liquid",
          RefKind.references, line, m.1 - getLineStart src line⟩ : UnresolvedReference))) := rfl
  refine ⟨?_, ?_, ?_⟩
  · rw [hnodes, List.countP_cons_of_pos _ _ (by simp [liquidFileNode]), List.countP_eq_zero.mpr]
    intro nd hnd
    have := liquid_tail_kinds fp src jn now nd hnd
    simpa using this
  · intro m hm
    have hmem : liquidSnippetNode fp src now m ∈
        ((liquidRenderMatches src).map (liquidSnippetNode fp src now) ++
         (liquidSectionMatches src).map (liquidSectionNode fp src now) ++
         (liquidSchemaMatches src).map (liquidSchemaNode fp src jn now) ++
         (liquidAssignMatches src).map (liquidAssignNode fp src now)) := by
      refine List.mem_append_left _ ?_
      refine List.mem_append_left _ ?_
      exact List.mem_append_left _ (List.mem_map_of_mem _ hm)
    refine ⟨liquidSnippetNode fp src now m, ?_, by simp [liquidSnippetNode], rfl, ?_, ?_⟩
    · rw [hnodes]; exact List.mem_cons_of_mem _ hmem
    · rw [hedges]; exact List.mem_map_of_mem _ hmem
    · rw [hrefs]
      exact List.mem_append_left _ (List.mem_map_of_mem _ hm)
  · intro nd hnd hkind
    rw [hnodes] at hnd
    rcases List.mem_cons.mp hnd with h | h
    · exact absurd (h ▸ (by simp [liquidFileNode] : (liquidFileNode fp src now).kind = NodeKind.file)) hkind
    · rw [hedges]; exact List.mem_map_of_mem _ h

/-- Witness for C10 on `{% render "product-card" %}` in `index.liquid`. -/
theorem c10_liquid_template_witness :
    (0, 24, ("render", "product-card")) ∈ liquidRenderMatches liquidRenderSource ∧
    ∃ nd ∈ (liquidExtract "index.liquid" liquidRenderSource (fun _ => none) 0 0).nodes,
      nd.kind = NodeKind.component ∧ nd.name = "product-card" ∧
      (⟨(liquidFileNode "index.liquid" liquidRenderSource 0).id, nd.id, EdgeKind.contains⟩ : Edge) ∈
        (liquidExtract "index.liquid" liquidRenderSource (fun _ => none) 0 0).edges ∧
      (⟨(liquidFileNode "index.liquid" liquidRenderSource 0).id,
          "snippets/" ++ "product-card" ++ ".liquid", RefKind.references,
          getLineNumber liquidRenderSource 0,
          0 - getLineStart liquidRenderSource (getLineNumber liquidRenderSource 0)⟩ :
          UnresolvedReference) ∈
        (liquidExtract "index.liquid" liquidRenderSource (fun _ => none) 0 0).unresolvedReferences := by
  have hm : ((0 : Nat), (24 : Nat), ("render", "product-card")) ∈
      liquidRenderMatches liquidRenderSource := by decide
  exact ⟨hm,
    (c10_liquid_template "index.liquid" liquidRenderSource (fun _ => none) 0 0).2.1 _ hm⟩

/-- Counterexample to C4 as stated: a top-level TypeScript import (empty scope
stack, non-empty module name) emits no unresolved reference at all, not one
attributed to the file. -/
theorem c4_counterexample :
    ¬ ∃ r ∈ (treeSitterExtract "a.ts" topImportSource .typescript
        (.ok topImportTree) 0 0).unresolvedReferences,
      r.referenceKind = RefKind.imports := by
  decide

/-- **C4 (amended).** A CST node of an import type reaches `extractImport`,
which emits an `imports` reference from the enclosing scope only when the
scope stack is non-empty and the module name is non-empty; with an empty
stack (top level), no reference is emitted. -/
theorem c4_import_scope (cfg : Cfg) (f : Nat) (n : SyntaxNode) (ctx : Ctx) (s : WalkState)
    (h1 : n.type ∈ cfg.ext.importTypes)
    (h2 : n.type ∉ cfg.ext.functionTypes) (h3 : n.type ∉ cfg.ext.classTypes)
    (h4 : n.type ∉ cfg.ext.methodTypes) (h5 : n.type ∉ cfg.ext.interfaceTypes)
    (h6 : n.type ∉ cfg.ext.structTypes) (h7 : n.type ∉ cfg.ext.enumTypes)
    (h8 : ¬ (cfg.language = Language.kotlin ∧
      (n.type = "companion_object" ∨ n.type = "property_declaration" ∨ n.type = "type_alias")))
    (h9 : ¬ (cfg.language = Language.swift ∧
      (n.type = "property_declaration" ∨ n.type = "protocol_property_declaration" ∨
       n.type = "subscript_declaration" ∨ n.type = "typealias_declaration" ∨
       n.type = "associatedtype_declaration" ∨ n.type = "init_declaration" ∨
       n.type = "deinit_declaration"))) :
    run cfg (f + 1) (.visit n ctx) s =
      runList (fun t s => run cfg f t s) (childVisitTasks n) (extractImport cfg n s) ∧
    (s.nodeStack = [] →
      (extractImport cfg n s).unresolvedReferences = s.unresolvedReferences) ∧
    (∀ top rest, s.nodeStack = top :: rest → moduleNameOf cfg n ≠ "" →
      (extractImport cfg n s).unresolvedReferences = s.unresolvedReferences ++
        [⟨top, moduleNameOf cfg n, .imports, n.info.startRow + 1, n.info.startCol⟩]) := by
  refine ⟨?_, ?_, ?_⟩
  · have a1 : ¬ (cfg.language = Language.kotlin ∧ n.type = "companion_object") :=
      fun ⟨hk, ht⟩ => h8 ⟨hk, Or.inl ht⟩
    have a2 : ¬ (cfg.language = Language.kotlin ∧ n.type = "property_declaration") :=
      fun ⟨hk, ht⟩ => h8 ⟨hk, Or.inr (Or.inl ht)⟩
    have a3 : ¬ (cfg.language = Language.kotlin ∧ n.type = "type_alias") :=
      fun ⟨hk, ht⟩ => h8 ⟨hk, Or.inr (Or.inr ht)⟩
    have b1 : ¬ (cfg.language = Language.swift ∧ n.type = "property_declaration") :=
      fun ⟨hk, ht⟩ => h9 ⟨hk, Or.inl ht⟩
    have b2 : ¬ (cfg.language = Language.swift ∧ n.type = "protocol_property_declaration") :=
      fun ⟨hk, ht⟩ => h9 ⟨hk, Or.inr (Or.inl ht)⟩
    have b3 : ¬ (cfg.language = Language.swift ∧ n.type = "subscript_declaration") :=
      fun ⟨hk, ht⟩ => h9 ⟨hk, Or.inr (Or.inr (Or.inl ht))⟩
    have b4 : ¬ (cfg.language = Language.swift ∧ n.type = "typealias_declaration") :=
      fun ⟨hk, ht⟩ => h9 ⟨hk, Or.inr (Or.inr (Or.inr (Or.inl ht)))⟩
    have b5 : ¬ (cfg.language = Language.swift ∧ n.type = "associatedtype_declaration") :=
      fun ⟨hk, ht⟩ => h9 ⟨hk, Or.inr (Or.inr (Or.inr (Or.inr (Or.inl ht))))⟩
    have b6 : ¬ (cfg.language = Language.swift ∧ n.type = "init_declaration") :=
      fun ⟨hk, ht⟩ => h9 ⟨hk, Or.inr (Or.inr (Or.inr (Or.inr (Or.inr (Or.inl ht)))))⟩
    have b7 : ¬ (cfg.language = Language.swift ∧ n.type = "deinit_declaration") :=
      fun ⟨hk, ht⟩ => h9 ⟨hk, Or.inr (Or.inr (Or.inr (Or.inr (Or.inr (Or.inr ht)))))⟩
    simp only [run]
    rw [if_neg h2, if_neg h3, if_neg a1, if_neg a2, if_neg a3, if_neg b1, if_neg b2,
      if_neg b3, if_neg b4, if_neg b5, if_neg b6, if_neg b7, if_neg h4, if_neg h5,
      if_neg h6, if_neg h7, if_pos h1]
  · intro hstack
    simp [extractImport, hstack]
  · intro top rest hstack hmod
    simp [extractImport, hstack, hmod, addRef]

/-- Witness for C4: the same import inside a scope `P` emits the reference
from `P`; the dispatch equation holds as well. -/
theorem c4_import_scope_witness :
    (run ⟨"a.ts", .typescript, topImportSource, typescriptExtractor, 0⟩ 1
        (.visit importNode {}) ⟨[], [], [], ["P"]⟩ =
      runList (fun t s => run ⟨"a.ts", .typescript, topImportSource, typescriptExtractor, 0⟩ 0 t s)
        (childVisitTasks importNode)
        (extractImport ⟨"a.ts", .typescript, topImportSource, typescriptExtractor, 0⟩ importNode
          ⟨[], [], [], ["P"]⟩)) ∧
    (extractImport ⟨"a.ts", .typescript, topImportSource, typescriptExtractor, 0⟩ importNode
        ⟨[], [], [], ["P"]⟩).unresolvedReferences =
      [⟨"P", "m", .imports, 1, 0⟩] := by
  have h := c4_import_scope ⟨"a.ts", .typescript, topImportSource, typescriptExtractor, 0⟩ 0
    importNode {} ⟨[], [], [], ["P"]⟩
    (by decide) (by decide) (by decide) (by decide) (by decide) (by decide) (by decide)
    (by decide) (by decide)
  refine ⟨h.1, ?_⟩
  have h2 := h.2.2 "P" [] rfl (by decide)
  simpa using h2

/-! ## Walker infrastructure lemmas -/

theorem refsOnly_refl (s : WalkState) : RefsOnly s s :=
  ⟨rfl, rfl, rfl, [], (List.append_nil _).symm⟩

theorem refsOnly_trans {s t u : WalkState} (h1 : RefsOnly s t) (h2 : RefsOnly t u) :
    RefsOnly s u := by
  obtain ⟨d1, hd1⟩ := h1.2.2.2
  obtain ⟨d2, hd2⟩ := h2.2.2.2
  exact ⟨h2.1.trans h1.1, h2.2.1.trans h1.2.1, h2.2.2.1.trans h1.2.2.1,
    d1 ++ d2, by rw [hd2, hd1, List.append_assoc]⟩

theorem refsOnly_addRef (s : WalkState) (r : UnresolvedReference) : RefsOnly s (addRef s r) :=
  ⟨rfl, rfl, rfl, [r], rfl⟩

theorem refsOnly_ite_addRef (s : WalkState) (c : Prop) [Decidable c] (r : UnresolvedReference) :
    RefsOnly s (if c then addRef s r else s) := by
  split
  · exact refsOnly_addRef s r
  · exact refsOnly_refl s

theorem refsOnly_extractCall (cfg : Cfg) (n : SyntaxNode) (s : WalkState) :
    RefsOnly s (extractCall cfg n s) := by
  unfold extractCall
  split
  · exact refsOnly_refl s
  · exact refsOnly_ite_addRef s _ _

theorem refsOnly_foldl {α : Type} (g : WalkState → α → WalkState) :
    ∀ (l : List α), (∀ a ∈ l, ∀ s, RefsOnly s (g s a)) →
      ∀ s, RefsOnly s (l.foldl g s)
  | [], _, s => refsOnly_refl s
  | a :: l, h, s =>
    refsOnly_trans (h a (List.mem_cons_self a l) s)
      (refsOnly_foldl g l (fun b hb s' => h b (List.mem_cons_of_mem a hb) s') (g s a))

theorem refsOnly_runList (g : Task → WalkState → WalkState) (ts : List Task)
    (h : ∀ t ∈ ts, ∀ s, RefsOnly s (g t s)) (s : WalkState) :
    RefsOnly s (runList g ts s) :=
  refsOnly_foldl (fun s t => g t s) ts h s

/-- `visitFunctionBody` only records call references: it never adds nodes,
edges, or stack entries. -/
theorem refsOnly_visitForCalls (cfg : Cfg) :
    ∀ (f : Nat) (n : SyntaxNode) (s : WalkState),
      RefsOnly s (run cfg f (.visitForCallsT n) s) := by
  intro f
  induction f with
  | zero => intro n s; exact refsOnly_refl s
  | succ f ih =>
    intro n s
    simp only [run]
    refine refsOnly_trans (s := s)
      (t := if n.type ∈ cfg.ext.callTypes then extractCall cfg n s else s) ?_ ?_
    · split
      · exact refsOnly_extractCall cfg n s
      · exact refsOnly_refl s
    · apply refsOnly_runList
      intro t ht s'
      obtain ⟨c, _, rfl⟩ := List.mem_map.mp ht
      exact ih c s'

theorem visitForCalls_nodes (cfg : Cfg) (f : Nat) (n : SyntaxNode) (s : WalkState) :
    (run cfg f (.visitForCallsT n) s).nodes = s.nodes :=
  (refsOnly_visitForCalls cfg f n s).1

theorem visitForCalls_edges (cfg : Cfg) (f : Nat) (n : SyntaxNode) (s : WalkState) :
    (run cfg f (.visitForCallsT n) s).edges = s.edges :=
  (refsOnly_visitForCalls cfg f n s).2.1

theorem visitForCalls_stack (cfg : Cfg) (f : Nat) (n : SyntaxNode) (s : WalkState) :
    (run cfg f (.visitForCallsT n) s).nodeStack = s.nodeStack :=
  (refsOnly_visitForCalls cfg f n s).2.2.1

theorem createNode_fst_kind (cfg : Cfg) (k : NodeKind) (nm : String) (n : SyntaxNode)
    (e : Extra) (s : WalkState) : (createNode cfg k nm n e s).1.kind = k := rfl

theorem createNode_fst_name (cfg : Cfg) (k : NodeKind) (nm : String) (n : SyntaxNode)
    (e : Extra) (s : WalkState) : (createNode cfg k nm n e s).1.name = nm := rfl

theorem createNode_snd_nodes (cfg : Cfg) (k : NodeKind) (nm : String) (n : SyntaxNode)
    (e : Extra) (s : WalkState) :
    (createNode cfg k nm n e s).2.nodes = s.nodes ++ [(createNode cfg k nm n e s).1] := by
  unfold createNode
  cases s.nodeStack <;> rfl

theorem createNode_snd_stack (cfg : Cfg) (k : NodeKind) (nm : String) (n : SyntaxNode)
    (e : Extra) (s : WalkState) :
    (createNode cfg k nm n e s).2.nodeStack = s.nodeStack := by
  unfold createNode
  cases s.nodeStack <;> rfl

theorem createNode_snd_refs (cfg : Cfg) (k : NodeKind) (nm : String) (n : SyntaxNode)
    (e : Extra) (s : WalkState) :
    (createNode cfg k nm n e s).2.unresolvedReferences = s.unresolvedReferences := by
  unfold createNode
  cases s.nodeStack <;> rfl

/-- Counterexample to C6 as stated: a top-level anonymous arrow function is a
function-type node with an empty scope stack, but nothing is emitted for it —
it is not "emitted as a function node". -/
theorem c6_counterexample :
    ¬ ∃ nd ∈ (treeSitterExtract "a.ts" "() => 1" .typescript
        (.ok anonFuncTree) 0 0).nodes, nd.kind = NodeKind.function := by
  decide

/-- **C6 (amended).** A function-type node with a non-empty scope stack whose
type is also a method type is emitted as exactly one `method` node; otherwise
it is emitted as one `function` node when a name is resolvable, and as nothing
when the name extraction is anonymous.  For Go, a method-type node is emitted
as a `method` node regardless of the scope stack. -/
theorem c6_function_method_dispatch (cfg : Cfg) (f : Nat) (n : SyntaxNode) (ctx : Ctx)
    (s : WalkState) :
    (n.type ∈ cfg.ext.functionTypes →
      (s.nodeStack ≠ [] ∧ n.type ∈ cfg.ext.methodTypes →
        ∃ m, (run cfg (f + 2) (.visit n ctx) s).nodes = s.nodes ++ [m] ∧
          m.kind = NodeKind.method) ∧
      (¬ (s.nodeStack ≠ [] ∧ n.type ∈ cfg.ext.methodTypes) →
        (extractName n cfg.source cfg.ext ≠ "<anonymous>" →
          ∃ m, (run cfg (f + 2) (.visit n ctx) s).nodes = s.nodes ++ [m] ∧
            m.kind = NodeKind.function) ∧
        (extractName n cfg.source cfg.ext = "<anonymous>" →
          (run cfg (f + 2) (.visit n ctx) s).nodes = s.nodes))) ∧
    (cfg.language = Language.go → cfg.ext = goExtractor →
      n.type ∈ goExtractor.methodTypes →
      ∃ m, (run cfg (f + 2) (.visit n ctx) s).nodes = s.nodes ++ [m] ∧
        m.kind = NodeKind.method) := by
  constructor
  · intro hfn
    constructor
    · intro hc
      have hguard : ¬ (s.nodeStack = [] ∧ cfg.language ≠ Language.go) := fun h => hc.1 h.1
      simp only [run]
      rw [if_pos hfn, if_pos hc, if_neg hguard]
      cases hbody : getChildByField n cfg.ext.bodyField with
      | some body =>
        simp only [hbody, visitForCalls_nodes, createNode_snd_nodes]
        exact ⟨_, rfl, rfl⟩
      | none =>
        simp only [hbody, createNode_snd_nodes]
        exact ⟨_, rfl, rfl⟩
    · intro hc
      simp only [run]
      rw [if_pos hfn, if_neg hc]
      constructor
      · intro hname
        rw [if_neg hname]
        cases hbody : getChildByField n cfg.ext.bodyField with
        | some body =>
          simp only [hbody, visitForCalls_nodes, createNode_snd_nodes]
          exact ⟨_, rfl, rfl⟩
        | none =>
          simp only [hbody, createNode_snd_nodes]
          exact ⟨_, rfl, rfl⟩
      · intro hname
        rw [if_pos hname]
  · intro hgo hext hmt
    have hty : n.type = "method_declaration" := by
      simpa [goExtractor] using hmt
    have hfn : n.type ∉ cfg.ext.functionTypes := by
      rw [hext, hty]; decide
    have hcl : n.type ∉ cfg.ext.classTypes := by
      rw [hext, hty]; decide
    have hk : cfg.language ≠ Language.kotlin := by rw [hgo]; decide
    have hsw : cfg.language ≠ Language.swift := by rw [hgo]; decide
    have hmt2 : n.type ∈ cfg.ext.methodTypes := by rw [hext]; exact hmt
    have hguard : ¬ (s.nodeStack = [] ∧ cfg.language ≠ Language.go) := fun h => h.2 hgo
    simp only [run]
    rw [if_neg hfn, if_neg hcl,
      if_neg (fun h : cfg.language = Language.kotlin ∧ _ => hk h.1),
      if_neg (fun h : cfg.language = Language.kotlin ∧ _ => hk h.1),
      if_neg (fun h : cfg.language = Language.kotlin ∧ _ => hk h.1),
      if_neg (fun h : cfg.language = Language.swift ∧ _ => hsw h.1),
      if_neg (fun h : cfg.language = Language.swift ∧ _ => hsw h.1),
      if_neg (fun h : cfg.language = Language.swift ∧ _ => hsw h.1),
      if_neg (fun h : cfg.language = Language.swift ∧ _ => hsw h.1),
      if_neg (fun h : cfg.language = Language.swift ∧ _ => hsw h.1),
      if_neg (fun h : cfg.language = Language.swift ∧ _ => hsw h.1),
      if_neg (fun h : cfg.language = Language.swift ∧ _ => hsw h.1),
      if_pos hmt2, if_neg hguard]
    cases hbody : getChildByField n cfg.ext.bodyField with
    | some body =>
      simp only [hbody, visitForCalls_nodes, createNode_snd_nodes]
      exact ⟨_, rfl, rfl⟩
    | none =>
      simp only [hbody, createNode_snd_nodes]
      exact ⟨_, rfl, rfl⟩


/-- Witness for C6: a Python `function_definition` inside a class scope becomes
a method; a named top-level TypeScript function becomes a function; a Go
`method_declaration` with an empty stack still becomes a method. -/
theorem c6_function_method_dispatch_witness :
    (∃ m, (run ⟨"a.py", .python, pyFuncSource, pythonExtractor, 0⟩ 2
        (.visit pyFuncNode {}) ⟨[], [], [], ["C"]⟩).nodes = [] ++ [m] ∧
      m.kind = NodeKind.method) ∧
    (∃ m, (run ⟨"a.ts", .typescript, namedFuncSource, typescriptExtractor, 0⟩ 2
        (.visit namedFuncNode {}) ⟨[], [], [], []⟩).nodes = [] ++ [m] ∧
      m.kind = NodeKind.function) ∧
    (∃ m, (run ⟨"a.go", .go, goMethodSource, goExtractor, 0⟩ 2
        (.visit goMethodNode {}) ⟨[], [], [], []⟩).nodes = [] ++ [m] ∧
      m.kind = NodeKind.method) := by
  refine ⟨?_, ?_, ?_⟩
  · exact ((c6_function_method_dispatch ⟨"a.py", .python, pyFuncSource, pythonExtractor, 0⟩ 0
      pyFuncNode {} ⟨[], [], [], ["C"]⟩).1 (by decide)).1 (by constructor <;> decide)
  · exact (((c6_function_method_dispatch ⟨"a.ts", .typescript, namedFuncSource,
      typescriptExtractor, 0⟩ 0 _ {} ⟨[], [], [], []⟩).1 (by decide)).2
        (by intro h; exact h.1 rfl)).1 (by decide)
  · exact (c6_function_method_dispatch ⟨"a.go", .go, goMethodSource, goExtractor, 0⟩ 0
      goMethodNode {} ⟨[], [], [], []⟩).2 rfl rfl (by decide)

/-! ## Append-only evolution of the walker state -/

theorem refsOnly_foldl_pair {α : Type} (g : WalkState × Bool → α → WalkState × Bool) :
    ∀ (l : List α), (∀ p a, a ∈ l → RefsOnly p.1 ((g p a).1)) →
      ∀ p, RefsOnly p.1 ((l.foldl g p).1)
  | [], _, p => refsOnly_refl p.1
  | a :: l, h, p =>
    refsOnly_trans (h p a (List.mem_cons_self a l))
      (refsOnly_foldl_pair g l (fun q b hb => h q b (List.mem_cons_of_mem a hb)) (g p a))

theorem refsOnly_extractKotlinInheritance (cfg : Cfg) (n : SyntaxNode) (classId : String)
    (s : WalkState) : RefsOnly s (extractKotlinInheritance cfg n classId s) := by
  unfold extractKotlinInheritance
  apply refsOnly_foldl_pair
  intro p child _
  split
  · apply refsOnly_foldl_pair
    intro q spec _
    split
    · split
      · exact refsOnly_addRef q.1 _
      · exact refsOnly_refl q.1
    · split
      · exact refsOnly_addRef q.1 _
      · exact refsOnly_refl q.1
  · exact refsOnly_refl p.1

theorem refsOnly_extractSwiftInheritance (cfg : Cfg) (n : SyntaxNode) (classId : String)
    (s : WalkState) : RefsOnly s (extractSwiftInheritance cfg n classId s) := by
  unfold extractSwiftInheritance
  apply refsOnly_foldl_pair
  intro p child _
  split
  · apply refsOnly_foldl_pair
    intro q spec _
    split
    · exact refsOnly_addRef q.1 _
    · exact refsOnly_refl q.1
  · exact refsOnly_refl p.1

theorem refsOnly_extractInheritance (cfg : Cfg) (n : SyntaxNode) (classId : String)
    (s : WalkState) : RefsOnly s (extractInheritance cfg n classId s) := by
  unfold extractInheritance
  apply refsOnly_foldl
  intro child _ s0
  refine refsOnly_trans
    (t := if child.type = "extends_clause" ∨ child.type = "class_heritage" ∨
        child.type = "superclass" then
      match child.namedChild 0 with
      | some superclass =>
        addRef s0 ⟨classId, getNodeText superclass cfg.source, .extends_,
          child.info.startRow + 1, child.info.startCol⟩
      | none => s0
    else s0) ?_ ?_
  · split
    · split
      · exact refsOnly_addRef s0 _
      · exact refsOnly_refl s0
    · exact refsOnly_refl s0
  · dsimp only
    by_cases h : child.type = "implements_clause" ∨ child.type = "class_interface_clause"
    · rw [if_pos h]
      exact refsOnly_foldl _ _ (fun iface _ s1 => refsOnly_addRef s1 _) _
    · rw [if_neg h]
      exact refsOnly_refl _

theorem refsOnly_extractImport (cfg : Cfg) (n : SyntaxNode) (s : WalkState) :
    RefsOnly s (extractImport cfg n s) := by
  unfold extractImport
  split
  · exact refsOnly_ite_addRef s _ _
  · exact refsOnly_refl s

theorem evolves_refl (s : WalkState) : Evolves s s :=
  ⟨⟨[], by simp⟩, ⟨[], by simp⟩, ⟨[], by simp⟩⟩

theorem evolves_trans {s t u : WalkState} (h1 : Evolves s t) (h2 : Evolves t u) :
    Evolves s u := by
  obtain ⟨⟨n1, hn1⟩, ⟨e1, he1⟩, ⟨r1, hr1⟩⟩ := h1
  obtain ⟨⟨n2, hn2⟩, ⟨e2, he2⟩, ⟨r2, hr2⟩⟩ := h2
  exact ⟨⟨n1 ++ n2, by rw [hn2, hn1, List.append_assoc]⟩,
    ⟨e1 ++ e2, by rw [he2, he1, List.append_assoc]⟩,
    ⟨r1 ++ r2, by rw [hr2, hr1, List.append_assoc]⟩⟩

theorem evolves_of_refsOnly {s s' : WalkState} (h : RefsOnly s s') : Evolves s s' := by
  obtain ⟨d, hd⟩ := h.2.2.2
  exact ⟨⟨[], by simp [h.1]⟩, ⟨[], by simp [h.2.1]⟩, ⟨d, hd⟩⟩

theorem evolves_createNode (cfg : Cfg) (k : NodeKind) (nm : String) (n : SyntaxNode)
    (e : Extra) (s : WalkState) : Evolves s (createNode cfg k nm n e s).2 := by
  unfold createNode
  cases hs : s.nodeStack with
  | nil => exact ⟨⟨_, rfl⟩, ⟨[], by simp⟩, ⟨[], by simp⟩⟩
  | cons p rest => exact ⟨⟨_, rfl⟩, ⟨_, rfl⟩, ⟨[], by simp⟩⟩

theorem evolves_setStack (s : WalkState) (st : List String) :
    Evolves s { s with nodeStack := st } :=
  ⟨⟨[], by simp⟩, ⟨[], by simp⟩, ⟨[], by simp⟩⟩

theorem evolves_foldl {α : Type} (g : WalkState → α → WalkState) :
    ∀ (l : List α), (∀ s a, a ∈ l → Evolves s (g s a)) →
      ∀ s, Evolves s (l.foldl g s)
  | [], _, s => evolves_refl s
  | a :: l, h, s =>
    evolves_trans (h s a (List.mem_cons_self a l))
      (evolves_foldl g l (fun s' b hb => h s' b (List.mem_cons_of_mem a hb)) (g s a))

theorem evolves_runList (g : Task → WalkState → WalkState) (ts : List Task)
    (h : ∀ t ∈ ts, ∀ s, Evolves s (g t s)) (s : WalkState) :
    Evolves s (runList g ts s) :=
  evolves_foldl (fun s t => g t s) ts (fun s t ht => h t ht s) s

theorem evolves_extractInterface (cfg : Cfg) (n : SyntaxNode) (ctx : Ctx) (s : WalkState) :
    Evolves s (extractInterface cfg n ctx s) := by
  unfold extractInterface; exact evolves_createNode _ _ _ _ _ _

theorem evolves_extractEnum (cfg : Cfg) (n : SyntaxNode) (ctx : Ctx) (s : WalkState) :
    Evolves s (extractEnum cfg n ctx s) := by
  unfold extractEnum; exact evolves_createNode _ _ _ _ _ _

theorem evolves_extractKotlinProperty (cfg : Cfg) (n : SyntaxNode) (ctx : Ctx) (s : WalkState) :
    Evolves s (extractKotlinProperty cfg n ctx s) := by
  unfold extractKotlinProperty; exact evolves_createNode _ _ _ _ _ _

theorem evolves_extractKotlinTypeAlias (cfg : Cfg) (n : SyntaxNode) (ctx : Ctx) (s : WalkState) :
    Evolves s (extractKotlinTypeAlias cfg n ctx s) := by
  unfold extractKotlinTypeAlias; exact evolves_createNode _ _ _ _ _ _

theorem evolves_extractKotlinEnumEntry (cfg : Cfg) (n : SyntaxNode) (s : WalkState) :
    Evolves s (extractKotlinEnumEntry cfg n s) := by
  unfold extractKotlinEnumEntry; exact evolves_createNode _ _ _ _ _ _

theorem evolves_extractSwiftProperty (cfg : Cfg) (n : SyntaxNode) (ctx : Ctx) (s : WalkState) :
    Evolves s (extractSwiftProperty cfg n ctx s) := by
  unfold extractSwiftProperty; exact evolves_createNode _ _ _ _ _ _

theorem evolves_extractSwiftSubscript (cfg : Cfg) (n : SyntaxNode) (ctx : Ctx) (s : WalkState) :
    Evolves s (extractSwiftSubscript cfg n ctx s) := by
  unfold extractSwiftSubscript; exact evolves_createNode _ _ _ _ _ _

theorem evolves_extractSwiftTypealias (cfg : Cfg) (n : SyntaxNode) (ctx : Ctx) (s : WalkState) :
    Evolves s (extractSwiftTypealias cfg n ctx s) := by
  unfold extractSwiftTypealias; exact evolves_createNode _ _ _ _ _ _

theorem evolves_extractSwiftAssociatedType (cfg : Cfg) (n : SyntaxNode) (ctx : Ctx) (s : WalkState) :
    Evolves s (extractSwiftAssociatedType cfg n ctx s) := by
  unfold extractSwiftAssociatedType; exact evolves_createNode _ _ _ _ _ _

theorem evolves_extractSwiftEnumCase (cfg : Cfg) (n : SyntaxNode) (s : WalkState) :
    Evolves s (extractSwiftEnumCase cfg n s) := by
  unfold extractSwiftEnumCase; exact evolves_createNode _ _ _ _ _ _

theorem evolves_extractSwiftProtocolProperty (cfg : Cfg) (n : SyntaxNode) (ctx : Ctx) (s : WalkState) :
    Evolves s (extractSwiftProtocolProperty cfg n ctx s) := by
  unfold extractSwiftProtocolProperty; exact evolves_createNode _ _ _ _ _ _

theorem evolves_extractSwiftProtocolFunction (cfg : Cfg) (n : SyntaxNode) (ctx : Ctx) (s : WalkState) :
    Evolves s (extractSwiftProtocolFunction cfg n ctx s) := by
  unfold extractSwiftProtocolFunction; exact evolves_createNode _ _ _ _ _ _

/-- The walker only appends: nodes, edges and unresolved references of the
incoming state are a prefix of the outgoing state's, for every task. -/
theorem evolves_ite (s : WalkState) (c : Prop) [Decidable c] {a b : WalkState}
    (ha : Evolves s a) (hb : Evolves s b) : Evolves s (if c then a else b) := by
  by_cases h : c
  · rwa [if_pos h]
  · rwa [if_neg h]

theorem evolves_run (cfg : Cfg) : ∀ (f : Nat) (t : Task) (s : WalkState),
    Evolves s (run cfg f t s) := by
  intro f
  induction f with
  | zero => intro t s; exact evolves_refl s
  | succ f ih =>
    have hlist : ∀ ts s, Evolves s (runList (fun t s => run cfg f t s) ts s) :=
      fun ts s => evolves_runList _ ts (fun t _ s' => ih t s') s
    have hbodyfold : ∀ (l : List SyntaxNode) (mk : SyntaxNode → List Task) (s : WalkState)
        (p : SyntaxNode → Prop) [DecidablePred p],
        Evolves s (l.foldl (fun s c =>
          if p c then runList (fun t s => run cfg f t s) (mk c) s else s) s) := by
      intro l mk s p hp
      apply evolves_foldl
      intro s' c _
      split
      · exact hlist _ s'
      · exact evolves_refl s'
    have hcreate : ∀ (k : NodeKind) (nm : String) (n : SyntaxNode) (e : Extra) (s : WalkState)
        (ob : Option SyntaxNode),
        Evolves s (match ob with
          | some body => run cfg f (.visitForCallsT body)
              { (createNode cfg k nm n e s).2 with
                nodeStack := (createNode cfg k nm n e s).1.id ::
                  (createNode cfg k nm n e s).2.nodeStack }
          | none => { (createNode cfg k nm n e s).2 with
                nodeStack := (createNode cfg k nm n e s).1.id ::
                  (createNode cfg k nm n e s).2.nodeStack }) := by
      intro k nm n e s ob
      have h1 : Evolves s { (createNode cfg k nm n e s).2 with
          nodeStack := (createNode cfg k nm n e s).1.id ::
            (createNode cfg k nm n e s).2.nodeStack } :=
        evolves_trans (evolves_createNode cfg k nm n e s) (evolves_setStack _ _)
      cases ob with
      | some body => exact evolves_trans h1 (evolves_of_refsOnly (refsOnly_visitForCalls cfg f body _))
      | none => exact h1
    intro t s
    cases t with
    | visit n ctx =>
      simp only [run]
      apply evolves_ite
      · apply evolves_ite
        · exact ih _ _
        · exact ih _ _
      · apply evolves_ite
        · apply evolves_ite
          · split <;> exact ih _ _
          · apply evolves_ite
            · apply evolves_ite
              · exact evolves_extractInterface cfg n ctx s
              · apply evolves_ite
                · exact ih _ _
                · exact ih _ _
            · apply evolves_ite
              · exact ih _ _
              · exact ih _ _
        · apply evolves_ite
          · exact ih _ _
          · apply evolves_ite
            · exact evolves_trans (evolves_extractKotlinProperty cfg n ctx s) (hlist _ _)
            · apply evolves_ite
              · exact evolves_trans (evolves_extractKotlinTypeAlias cfg n ctx s) (hlist _ _)
              · apply evolves_ite
                · exact evolves_trans (evolves_extractSwiftProperty cfg n ctx s) (hlist _ _)
                · apply evolves_ite
                  · exact evolves_trans (evolves_extractSwiftProperty cfg n ctx s) (hlist _ _)
                  · apply evolves_ite
                    · exact evolves_extractSwiftSubscript cfg n ctx s
                    · apply evolves_ite
                      · exact evolves_trans (evolves_extractSwiftTypealias cfg n ctx s) (hlist _ _)
                      · apply evolves_ite
                        · exact evolves_trans (evolves_extractSwiftAssociatedType cfg n ctx s)
                            (hlist _ _)
                        · apply evolves_ite
                          · exact ih _ _
                          · apply evolves_ite
                            · exact ih _ _
                            · apply evolves_ite
                              · exact ih _ _
                              · apply evolves_ite
                                · apply evolves_ite
                                  · exact ih _ _
                                  · exact evolves_extractInterface cfg n ctx s
                                · apply evolves_ite
                                  · exact ih _ _
                                  · apply evolves_ite
                                    · exact evolves_extractEnum cfg n ctx s
                                    · apply evolves_ite
                                      · exact evolves_trans
                                          (evolves_of_refsOnly (refsOnly_extractImport cfg n s))
                                          (hlist _ _)
                                      · apply evolves_ite
                                        · exact evolves_trans
                                            (evolves_of_refsOnly (refsOnly_extractCall cfg n s))
                                            (hlist _ _)
                                        · exact hlist _ _
    | extractFunctionT n ctx =>
      simp only [run]
      split
      · exact evolves_refl s
      · exact evolves_trans (hcreate _ _ _ _ _ _) (evolves_setStack _ _)
    | extractMethodT n ctx =>
      simp only [run]
      split
      · exact ih _ _
      · exact evolves_trans (hcreate _ _ _ _ _ _) (evolves_setStack _ _)
    | extractClassT n ctx =>
      simp only [run]
      apply evolves_trans
        (t := (createNode cfg .class_ (extractName n cfg.source cfg.ext) n
          { docstring := getPrecedingDocstring ctx cfg.source,
            visibility := applyGetVisibility cfg n ctx,
            isExported := applyIsExported cfg n ctx } s).2)
      · exact evolves_createNode _ _ _ _ _ _
      · apply evolves_trans
          (t := extractInheritance cfg n (createNode cfg .class_ (extractName n cfg.source cfg.ext) n
          { docstring := getPrecedingDocstring ctx cfg.source,
            visibility := applyGetVisibility cfg n ctx,
            isExported := applyIsExported cfg n ctx } s).1.id
            (createNode cfg .class_ (extractName n cfg.source cfg.ext) n
          { docstring := getPrecedingDocstring ctx cfg.source,
            visibility := applyGetVisibility cfg n ctx,
            isExported := applyIsExported cfg n ctx } s).2)
        · exact evolves_of_refsOnly (refsOnly_extractInheritance _ _ _ _)
        · apply evolves_trans
            (t := { extractInheritance cfg n (createNode cfg .class_ (extractName n cfg.source cfg.ext) n
          { docstring := getPrecedingDocstring ctx cfg.source,
            visibility := applyGetVisibility cfg n ctx,
            isExported := applyIsExported cfg n ctx } s).1.id
                (createNode cfg .class_ (extractName n cfg.source cfg.ext) n
          { docstring := getPrecedingDocstring ctx cfg.source,
            visibility := applyGetVisibility cfg n ctx,
            isExported := applyIsExported cfg n ctx } s).2 with
              nodeStack := (createNode cfg .class_ (extractName n cfg.source cfg.ext) n
          { docstring := getPrecedingDocstring ctx cfg.source,
            visibility := applyGetVisibility cfg n ctx,
            isExported := applyIsExported cfg n ctx } s).1.id ::
                (extractInheritance cfg n (createNode cfg .class_ (extractName n cfg.source cfg.ext) n
          { docstring := getPrecedingDocstring ctx cfg.source,
            visibility := applyGetVisibility cfg n ctx,
            isExported := applyIsExported cfg n ctx } s).1.id
                  (createNode cfg .class_ (extractName n cfg.source cfg.ext) n
          { docstring := getPrecedingDocstring ctx cfg.source,
            visibility := applyGetVisibility cfg n ctx,
            isExported := applyIsExported cfg n ctx } s).2).nodeStack })
          · exact evolves_setStack _ _
          · exact evolves_trans (hlist _ _) (evolves_setStack _ _)
    | extractStructT n ctx =>
      simp only [run]
      exact evolves_trans (evolves_createNode _ _ _ _ _ _)
        (evolves_trans (evolves_setStack _ _)
          (evolves_trans (hlist _ _) (evolves_setStack _ _)))
    | visitForCallsT n =>
      exact evolves_of_refsOnly (refsOnly_visitForCalls cfg (f + 1) n s)
    | kotlinClassT n ctx =>
      simp only [run]
      exact evolves_trans (evolves_createNode _ _ _ _ _ _)
        (evolves_trans (evolves_of_refsOnly (refsOnly_extractKotlinInheritance _ _ _ _))
          (evolves_trans (evolves_setStack _ _)
            (evolves_trans (hbodyfold _ _ _ _) (evolves_setStack _ _))))
    | kotlinEnumT n ctx =>
      simp only [run]
      exact evolves_trans (evolves_createNode _ _ _ _ _ _)
        (evolves_trans (evolves_of_refsOnly (refsOnly_extractKotlinInheritance _ _ _ _))
          (evolves_trans (evolves_setStack _ _)
            (evolves_trans (hbodyfold _ _ _ _) (evolves_setStack _ _))))
    | kotlinObjectT n ctx =>
      simp only [run]
      exact evolves_trans (evolves_createNode _ _ _ _ _ _)
        (evolves_trans (evolves_of_refsOnly (refsOnly_extractKotlinInheritance _ _ _ _))
          (evolves_trans (evolves_setStack _ _)
            (evolves_trans (hbodyfold _ _ _ _) (evolves_setStack _ _))))
    | kotlinCompanionT n ctx =>
      simp only [run]
      exact evolves_trans (evolves_createNode _ _ _ _ _ _)
        (evolves_trans (evolves_setStack _ _)
          (evolves_trans (hbodyfold _ _ _ _) (evolves_setStack _ _)))
    | swiftClassT n ctx =>
      simp only [run]
      exact evolves_trans (evolves_createNode _ _ _ _ _ _)
        (evolves_trans (evolves_of_refsOnly (refsOnly_extractSwiftInheritance _ _ _ _))
          (evolves_trans (evolves_setStack _ _)
            (evolves_trans (ih _ _) (evolves_setStack _ _))))
    | swiftStructT n ctx =>
      simp only [run]
      exact evolves_trans (evolves_createNode _ _ _ _ _ _)
        (evolves_trans (evolves_of_refsOnly (refsOnly_extractSwiftInheritance _ _ _ _))
          (evolves_trans (evolves_setStack _ _)
            (evolves_trans (ih _ _) (evolves_setStack _ _))))
    | swiftActorT n ctx =>
      simp only [run]
      exact evolves_trans (evolves_createNode _ _ _ _ _ _)
        (evolves_trans (evolves_of_refsOnly (refsOnly_extractSwiftInheritance _ _ _ _))
          (evolves_trans (evolves_setStack _ _)
            (evolves_trans (ih _ _) (evolves_setStack _ _))))
    | swiftExtensionT n ctx =>
      simp only [run]
      exact evolves_trans (evolves_createNode _ _ _ _ _ _)
        (evolves_trans (evolves_of_refsOnly (refsOnly_extractSwiftInheritance _ _ _ _))
          (evolves_trans (evolves_setStack _ _)
            (evolves_trans (ih _ _) (evolves_setStack _ _))))
    | swiftEnumT n ctx =>
      simp only [run]
      exact evolves_trans (evolves_createNode _ _ _ _ _ _)
        (evolves_trans (evolves_of_refsOnly (refsOnly_extractSwiftInheritance _ _ _ _))
          (evolves_trans (evolves_setStack _ _)
            (evolves_trans (hbodyfold _ _ _ _) (evolves_setStack _ _))))
    | swiftProtocolT n ctx =>
      simp only [run]
      exact evolves_trans (evolves_createNode _ _ _ _ _ _)
        (evolves_trans (evolves_of_refsOnly (refsOnly_extractSwiftInheritance _ _ _ _))
          (evolves_trans (evolves_setStack _ _)
            (evolves_trans (hbodyfold _ _ _ _) (evolves_setStack _ _))))
    | swiftInitT n ctx =>
      simp only [run]
      exact evolves_trans (evolves_createNode _ _ _ _ _ _)
        (evolves_trans (evolves_setStack _ _)
          (evolves_trans (ih _ _) (evolves_setStack _ _)))
    | swiftDeinitT n ctx =>
      simp only [run]
      exact evolves_trans (evolves_createNode _ _ _ _ _ _)
        (evolves_trans (evolves_setStack _ _)
          (evolves_trans (ih _ _) (evolves_setStack _ _)))
    | swiftClassBodyT n =>
      simp only [run]
      exact hbodyfold _ _ _ _
    | swiftFunctionBodyT n =>
      simp only [run]
      exact hbodyfold _ _ _ _
    | swiftPropertyT n ctx =>
      simp only [run]
      exact evolves_extractSwiftProperty cfg n ctx s
    | swiftSubscriptT n ctx =>
      simp only [run]
      exact evolves_extractSwiftSubscript cfg n ctx s
    | swiftTypealiasT n ctx =>
      simp only [run]
      exact evolves_extractSwiftTypealias cfg n ctx s
    | swiftAssociatedTypeT n ctx =>
      simp only [run]
      exact evolves_extractSwiftAssociatedType cfg n ctx s
    | swiftProtocolPropertyT n ctx =>
      simp only [run]
      exact evolves_extractSwiftProtocolProperty cfg n ctx s
    | swiftProtocolFunctionT n ctx =>
      simp only [run]
      exact evolves_extractSwiftProtocolFunction cfg n ctx s
    | kotlinEnumEntryT n =>
      simp only [run]
      exact evolves_extractKotlinEnumEntry cfg n s
    | swiftEnumCaseT n =>
      simp only [run]
      exact evolves_extractSwiftEnumCase cfg n s

/-! ## C9: Swift inheritance references -/

theorem isEmpty_append_eq {α : Type} (l m : List α) :
    (l ++ m).isEmpty = (l.isEmpty && m.isEmpty) := by
  cases l <;> simp

theorem swiftRefsAux_false (cfg : Cfg) (classId : String) :
    ∀ us, swiftRefsAux cfg classId false us =
      us.map (fun v => ⟨classId, getNodeText v cfg.source, .implements,
        v.info.startRow + 1, v.info.startCol⟩) := by
  intro us
  induction us with
  | nil => rfl
  | cons u rest ih => simp [swiftRefsAux, ih]

theorem swiftRefsAux_append (cfg : Cfg) (classId : String) :
    ∀ (us vs : List SyntaxNode) (b : Bool),
      swiftRefsAux cfg classId b (us ++ vs) =
        swiftRefsAux cfg classId b us ++ swiftRefsAux cfg classId (b && us.isEmpty) vs := by
  intro us
  induction us with
  | nil => intro vs b; simp [swiftRefsAux]
  | cons u rest ih =>
    intro vs b
    simp [swiftRefsAux, ih]

theorem swiftInner_fold (cfg : Cfg) (classId : String) :
    ∀ (l : List SyntaxNode) (s : WalkState) (b : Bool),
    l.foldl (fun (acc2 : WalkState × Bool) specChild =>
      if specChild.type = "user_type" then
        (addRef acc2.1 ⟨classId, getNodeText specChild cfg.source,
          (if acc2.2 then .extends_ else .implements),
          specChild.info.startRow + 1, specChild.info.startCol⟩, false)
      else acc2) (s, b) =
    ({ s with unresolvedReferences := s.unresolvedReferences ++
        swiftRefsAux cfg classId b (l.filter (·.type = "user_type")) },
      b && (l.filter (·.type = "user_type")).isEmpty) := by
  intro l
  induction l with
  | nil => intro s b; simp [swiftRefsAux]
  | cons c rest ih =>
    intro s b
    by_cases h : c.type = "user_type"
    · simp only [List.foldl_cons, h]
      rw [ih]
      simp [swiftRefsAux, addRef, List.filter_cons, h, List.append_assoc]
    · simp only [List.foldl_cons, h]
      simpa [List.filter_cons, h] using ih s b

theorem swiftOuter_fold (cfg : Cfg) (classId : String) :
    ∀ (l : List SyntaxNode) (s : WalkState) (b : Bool),
    l.foldl (fun (acc : WalkState × Bool) child =>
      if child.type = "inheritance_specifier" then
        child.namedChildren.foldl (fun (acc2 : WalkState × Bool) specChild =>
          if specChild.type = "user_type" then
            (addRef acc2.1 ⟨classId, getNodeText specChild cfg.source,
              (if acc2.2 then .extends_ else .implements),
              specChild.info.startRow + 1, specChild.info.startCol⟩, false)
          else acc2) acc
      else acc) (s, b) =
    ({ s with unresolvedReferences := s.unresolvedReferences ++
        swiftRefsAux cfg classId b (swiftSpecUserTypesL l) },
      b && (swiftSpecUserTypesL l).isEmpty) := by
  intro l
  induction l with
  | nil => intro s b; simp [swiftRefsAux, swiftSpecUserTypesL]
  | cons c rest ih =>
    intro s b
    by_cases h : c.type = "inheritance_specifier"
    · simp only [List.foldl_cons, h]
      rw [swiftInner_fold, ih]
      simp [swiftSpecUserTypesL, List.filter_cons, h, List.flatMap_cons,
        swiftRefsAux_append, List.append_assoc, Bool.and_assoc, isEmpty_append_eq]
    · simp only [List.foldl_cons, h]
      simpa [swiftSpecUserTypesL, List.filter_cons, h] using ih s b

theorem extractSwiftInheritance_eq (cfg : Cfg) (n : SyntaxNode) (classId : String)
    (s : WalkState) :
    extractSwiftInheritance cfg n classId s =
    { s with unresolvedReferences := s.unresolvedReferences ++
        swiftRefsAux cfg classId true (swiftSpecUserTypes n) } := by
  unfold extractSwiftInheritance swiftSpecUserTypes swiftSpecUserTypesL
  rw [swiftOuter_fold]
  simp [swiftSpecUserTypesL]

/-- **C9 (amended).** For every node, `extractSwiftInheritance` appends exactly
one unresolved reference per `user_type` found under an `inheritance_specifier`
child, in order, naming the `user_type` text; the first such reference has kind
`extends` regardless of which kind of declaration (class, struct, enum,
protocol, extension or actor) the node is, and every later one has kind
`implements`.  The claim says a non-class declaration's first specifier yields
`implements`; the code keys the kind on position only. -/
theorem c9_swift_inheritance (cfg : Cfg) (n : SyntaxNode) (classId : String)
    (s : WalkState) :
    extractSwiftInheritance cfg n classId s =
    { s with unresolvedReferences := s.unresolvedReferences ++
        swiftInheritanceRefs cfg n classId } := by
  rw [extractSwiftInheritance_eq]
  unfold swiftInheritanceRefs
  cases hu : swiftSpecUserTypes n with
  | nil => rfl
  | cons u rest => simp [swiftRefsAux, swiftRefsAux_false]

/-- **C9** counterexample: `struct S: P {}` in Swift is a non-class declaration,
yet its first (only) inheritance specifier is extracted as an `extends`
reference, not the `implements` the claim requires. -/
theorem c9_counterexample :
    ((treeSitterExtract "s.swift" swiftStructSource .swift
        (.ok swiftStructTree) 0 0).unresolvedReferences.map
      (fun r => (r.referenceName, r.referenceKind))) = [("P", RefKind.extends_)] := by
  decide

/-! ## The walker invariant: ids, edge shape, containment counts -/

theorem countId_append (a b : List Node) (id : String) :
    countId (a ++ b) id = countId a id + countId b id := by
  simp [countId, List.filter_append]

theorem countTarget_append (a b : List Edge) (id : String) :
    countTarget (a ++ b) id = countTarget a id + countTarget b id := by
  simp [countTarget, List.filter_append]

theorem edgeOk_mono {nodes : List Node} (d : List Node) {e : Edge} (h : EdgeOk nodes e) :
    EdgeOk (nodes ++ d) e := by
  obtain ⟨hk, i, j, hij, ⟨a, ha, hae⟩, ⟨b, hb, hbe⟩⟩ := h
  have hj : j < nodes.length := by
    by_contra hge
    rw [List.get?_eq_none.mpr (Nat.le_of_not_lt hge)] at hb
    exact absurd hb (by simp)
  have hi : i < nodes.length := Nat.lt_trans hij hj
  exact ⟨hk, i, j, hij, ⟨a, by rw [List.get?_append hi]; exact ha, hae⟩,
    ⟨b, by rw [List.get?_append hj]; exact hb, hbe⟩⟩

theorem createNode_fst_id (cfg : Cfg) (k : NodeKind) (nm : String) (n : SyntaxNode)
    (e : Extra) (s : WalkState) :
    (createNode cfg k nm n e s).1.id =
      generateNodeId cfg.filePath k nm (n.info.startRow + 1) := rfl

theorem createNode_snd_edges (cfg : Cfg) (k : NodeKind) (nm : String) (n : SyntaxNode)
    (e : Extra) (s : WalkState) :
    (createNode cfg k nm n e s).2.edges = s.edges ++
      (match s.nodeStack with
       | parentId :: _ => [⟨parentId, (createNode cfg k nm n e s).1.id, EdgeKind.contains⟩]
       | [] => []) := by
  unfold createNode
  cases s.nodeStack <;> simp

theorem good_init (fp : String) : Good fp ⟨[], [], [], []⟩ := by
  refine ⟨?_, ?_, ?_, ?_⟩ <;> simp [countTarget, countId]

theorem good_createNode (cfg : Cfg) (k : NodeKind) (nm : String) (n : SyntaxNode)
    (e : Extra) (s : WalkState) (hk : k = NodeKind.function → nm ≠ "<anonymous>")
    (h : Good cfg.filePath s) : Good cfg.filePath (createNode cfg k nm n e s).2 := by
  obtain ⟨g1, g2, g3, g4⟩ := h
  refine ⟨?_, ?_, ?_, ?_⟩
  · rw [createNode_snd_nodes]
    intro x hx
    rcases List.mem_append.mp hx with hx | hx
    · exact g1 x hx
    · rw [List.mem_singleton.mp hx]
      exact ⟨rfl, rfl, hk⟩
  · rw [createNode_snd_stack, createNode_snd_nodes]
    intro id hid
    obtain ⟨a, ha, hai⟩ := g2 id hid
    exact ⟨a, List.mem_append_left _ ha, hai⟩
  · rw [createNode_snd_edges, createNode_snd_nodes]
    intro ed hed
    rcases List.mem_append.mp hed with hed | hed
    · exact edgeOk_mono _ (g3 ed hed)
    · cases hsk : s.nodeStack with
      | nil => rw [hsk] at hed; simp at hed
      | cons p rest =>
        rw [hsk] at hed
        simp only [List.mem_singleton] at hed
        rw [hed]
        refine ⟨rfl, ?_⟩
        obtain ⟨a, ha, hai⟩ := g2 p (by rw [hsk]; exact List.mem_cons_self p rest)
        obtain ⟨i, hi⟩ := List.get?_of_mem ha
        have hilt : i < s.nodes.length := by
          by_contra hge
          rw [List.get?_eq_none.mpr (Nat.le_of_not_lt hge)] at hi
          exact absurd hi (by simp)
        refine ⟨i, s.nodes.length, hilt, ⟨a, ?_, hai⟩,
          ⟨(createNode cfg k nm n e s).1, ?_, rfl⟩⟩
        · rw [List.get?_append hilt]; exact hi
        · exact List.get?_concat_length _ _
  · rw [createNode_snd_edges, createNode_snd_nodes]
    intro id
    rw [countTarget_append, countId_append]
    have h4 := g4 id
    cases hsk : s.nodeStack with
    | nil =>
      simp only [countTarget]
      simp [countTarget] at h4 ⊢
      omega
    | cons p rest =>
      by_cases hid : (createNode cfg k nm n e s).1.id = id <;>
        simp [countTarget, countId, hid] at h4 ⊢ <;> omega

theorem good_of_refsOnly {s t : WalkState} (h : RefsOnly s t) (fp : String)
    (hg : Good fp s) : Good fp t := by
  obtain ⟨hn, he, hst, _⟩ := h
  obtain ⟨g1, g2, g3, g4⟩ := hg
  exact ⟨by rw [hn]; exact g1, by rw [hst, hn]; exact g2,
    by rw [he, hn]; exact g3, by rw [he, hn]; exact g4⟩

theorem good_push (fp : String) (s : WalkState) (id : String)
    (hmem : ∃ a ∈ s.nodes, a.id = id) (h : Good fp s) :
    Good fp { s with nodeStack := id :: s.nodeStack } := by
  obtain ⟨g1, g2, g3, g4⟩ := h
  refine ⟨g1, ?_, g3, g4⟩
  intro x hx
  rcases List.mem_cons.mp hx with hx | hx
  · rw [hx]; exact hmem
  · exact g2 x hx

theorem good_tail (fp : String) (s : WalkState) (h : Good fp s) :
    Good fp { s with nodeStack := s.nodeStack.tail } := by
  obtain ⟨g1, g2, g3, g4⟩ := h
  exact ⟨g1, fun id hid => g2 id (List.mem_of_mem_tail hid), g3, g4⟩

theorem good_foldl {α : Type} (fp : String) (g : WalkState → α → WalkState) (l : List α)
    (hg : ∀ s a, Good fp s → Good fp (g s a)) :
    ∀ s, Good fp s → Good fp (l.foldl g s) := by
  induction l with
  | nil => intro s h; exact h
  | cons c rest ih => intro s h; exact ih _ (hg s c h)

theorem good_runList (fp : String) (g : Task → WalkState → WalkState) (ts : List Task)
    (hg : ∀ t s, Good fp s → Good fp (g t s)) :
    ∀ s, Good fp s → Good fp (runList g ts s) :=
  good_foldl fp _ ts (fun s t h => hg t s h)

theorem good_ite (fp : String) (c : Prop) [Decidable c] {a b : WalkState}
    (ha : Good fp a) (hb : Good fp b) : Good fp (if c then a else b) := by
  by_cases h : c
  · rwa [if_pos h]
  · rwa [if_neg h]

theorem good_extractInterface (cfg : Cfg) (n : SyntaxNode) (ctx : Ctx) (s : WalkState)
    (h : Good cfg.filePath s) : Good cfg.filePath (extractInterface cfg n ctx s) := by
  unfold extractInterface
  exact good_createNode _ _ _ _ _ _ (by split <;> exact fun hkf => nomatch hkf) h

theorem good_extractEnum (cfg : Cfg) (n : SyntaxNode) (ctx : Ctx) (s : WalkState)
    (h : Good cfg.filePath s) : Good cfg.filePath (extractEnum cfg n ctx s) := by
  unfold extractEnum
  exact good_createNode _ _ _ _ _ _ (fun hkf => nomatch hkf) h

theorem good_extractKotlinEnumEntry (cfg : Cfg) (n : SyntaxNode) (s : WalkState)
    (h : Good cfg.filePath s) : Good cfg.filePath (extractKotlinEnumEntry cfg n s) := by
  unfold extractKotlinEnumEntry
  exact good_createNode _ _ _ _ _ _ (fun hkf => nomatch hkf) h

theorem good_extractKotlinProperty (cfg : Cfg) (n : SyntaxNode) (ctx : Ctx) (s : WalkState)
    (h : Good cfg.filePath s) : Good cfg.filePath (extractKotlinProperty cfg n ctx s) := by
  unfold extractKotlinProperty
  exact good_createNode _ _ _ _ _ _ (by split <;> exact fun hkf => nomatch hkf) h

theorem good_extractKotlinTypeAlias (cfg : Cfg) (n : SyntaxNode) (ctx : Ctx) (s : WalkState)
    (h : Good cfg.filePath s) : Good cfg.filePath (extractKotlinTypeAlias cfg n ctx s) := by
  unfold extractKotlinTypeAlias
  exact good_createNode _ _ _ _ _ _ (fun hkf => nomatch hkf) h

theorem good_extractSwiftEnumCase (cfg : Cfg) (n : SyntaxNode) (s : WalkState)
    (h : Good cfg.filePath s) : Good cfg.filePath (extractSwiftEnumCase cfg n s) := by
  unfold extractSwiftEnumCase
  exact good_createNode _ _ _ _ _ _ (fun hkf => nomatch hkf) h

theorem good_extractSwiftProperty (cfg : Cfg) (n : SyntaxNode) (ctx : Ctx) (s : WalkState)
    (h : Good cfg.filePath s) : Good cfg.filePath (extractSwiftProperty cfg n ctx s) := by
  unfold extractSwiftProperty
  exact good_createNode _ _ _ _ _ _ (by split <;> exact fun hkf => nomatch hkf) h

theorem good_extractSwiftSubscript (cfg : Cfg) (n : SyntaxNode) (ctx : Ctx) (s : WalkState)
    (h : Good cfg.filePath s) : Good cfg.filePath (extractSwiftSubscript cfg n ctx s) := by
  unfold extractSwiftSubscript
  exact good_createNode _ _ _ _ _ _ (fun hkf => nomatch hkf) h

theorem good_extractSwiftTypealias (cfg : Cfg) (n : SyntaxNode) (ctx : Ctx) (s : WalkState)
    (h : Good cfg.filePath s) : Good cfg.filePath (extractSwiftTypealias cfg n ctx s) := by
  unfold extractSwiftTypealias
  exact good_createNode _ _ _ _ _ _ (fun hkf => nomatch hkf) h

theorem good_extractSwiftAssociatedType (cfg : Cfg) (n : SyntaxNode) (ctx : Ctx)
    (s : WalkState) (h : Good cfg.filePath s) :
    Good cfg.filePath (extractSwiftAssociatedType cfg n ctx s) := by
  unfold extractSwiftAssociatedType
  exact good_createNode _ _ _ _ _ _ (fun hkf => nomatch hkf) h

theorem good_extractSwiftProtocolProperty (cfg : Cfg) (n : SyntaxNode) (ctx : Ctx)
    (s : WalkState) (h : Good cfg.filePath s) :
    Good cfg.filePath (extractSwiftProtocolProperty cfg n ctx s) := by
  unfold extractSwiftProtocolProperty
  exact good_createNode _ _ _ _ _ _ (fun hkf => nomatch hkf) h

theorem good_extractSwiftProtocolFunction (cfg : Cfg) (n : SyntaxNode) (ctx : Ctx)
    (s : WalkState) (h : Good cfg.filePath s) :
    Good cfg.filePath (extractSwiftProtocolFunction cfg n ctx s) := by
  unfold extractSwiftProtocolFunction
  exact good_createNode _ _ _ _ _ _ (fun hkf => nomatch hkf) h

/-- Create a node, let `mid` append references, push the new id: the invariant
is preserved. -/
theorem good_class_shape (cfg : Cfg) (k : NodeKind) (nm : String) (n : SyntaxNode)
    (e : Extra) (s s2 : WalkState)
    (hmid : RefsOnly (createNode cfg k nm n e s).2 s2)
    (hk : k = NodeKind.function → nm ≠ "<anonymous>") (h : Good cfg.filePath s) :
    Good cfg.filePath { s2 with
      nodeStack := (createNode cfg k nm n e s).1.id :: s2.nodeStack } := by
  apply good_push
  · exact ⟨(createNode cfg k nm n e s).1,
      by rw [hmid.1, createNode_snd_nodes];
         exact List.mem_append_right _ (List.mem_singleton_self _), rfl⟩
  · exact good_of_refsOnly hmid _ (good_createNode cfg k nm n e s hk h)

theorem good_run (cfg : Cfg) : ∀ (f : Nat) (t : Task) (s : WalkState),
    Good cfg.filePath s → Good cfg.filePath (run cfg f t s) := by
  intro f
  induction f with
  | zero => intro t s h; exact h
  | succ f ih =>
    have hlist : ∀ ts s, Good cfg.filePath s →
        Good cfg.filePath (runList (fun t s => run cfg f t s) ts s) :=
      fun ts s h => good_runList _ _ ts (fun t s' h' => ih t s' h') s h
    have hbody : ∀ (l : List SyntaxNode) (mk : SyntaxNode → List Task)
        (p : SyntaxNode → Prop) [DecidablePred p] (s : WalkState), Good cfg.filePath s →
        Good cfg.filePath (l.foldl (fun s c =>
          if p c then runList (fun t s => run cfg f t s) (mk c) s else s) s) := by
      intro l mk p hp s h
      refine good_foldl _ _ _ ?_ s h
      intro s' c h'
      split
      · exact hlist _ _ h'
      · exact h'
    have hgcreate : ∀ (k : NodeKind) (nm : String) (n : SyntaxNode) (e : Extra)
        (s : WalkState) (ob : Option SyntaxNode),
        (k = NodeKind.function → nm ≠ "<anonymous>") → Good cfg.filePath s →
        Good cfg.filePath (match ob with
          | some body => run cfg f (.visitForCallsT body)
              { (createNode cfg k nm n e s).2 with
                nodeStack := (createNode cfg k nm n e s).1.id ::
                  (createNode cfg k nm n e s).2.nodeStack }
          | none => { (createNode cfg k nm n e s).2 with
                nodeStack := (createNode cfg k nm n e s).1.id ::
                  (createNode cfg k nm n e s).2.nodeStack }) := by
      intro k nm n e s ob hk h
      have h1 : Good cfg.filePath { (createNode cfg k nm n e s).2 with
          nodeStack := (createNode cfg k nm n e s).1.id ::
            (createNode cfg k nm n e s).2.nodeStack } :=
        good_class_shape cfg k nm n e s _ (refsOnly_refl _) hk h
      cases ob with
      | some body =>
        exact good_of_refsOnly (refsOnly_visitForCalls cfg f body _) _ h1
      | none => exact h1
    intro t s h
    cases t with
    | visit n ctx =>
      simp only [run]
      apply good_ite
      · apply good_ite
        · exact ih _ _ h
        · exact ih _ _ h
      · apply good_ite
        · apply good_ite
          · split <;> exact ih _ _ h
          · apply good_ite
            · apply good_ite
              · exact good_extractInterface cfg n ctx s h
              · apply good_ite
                · exact ih _ _ h
                · exact ih _ _ h
            · apply good_ite
              · exact ih _ _ h
              · exact ih _ _ h
        · apply good_ite
          · exact ih _ _ h
          · apply good_ite
            · exact hlist _ _ (good_extractKotlinProperty cfg n ctx s h)
            · apply good_ite
              · exact hlist _ _ (good_extractKotlinTypeAlias cfg n ctx s h)
              · apply good_ite
                · exact hlist _ _ (good_extractSwiftProperty cfg n ctx s h)
                · apply good_ite
                  · exact hlist _ _ (good_extractSwiftProperty cfg n ctx s h)
                  · apply good_ite
                    · exact good_extractSwiftSubscript cfg n ctx s h
                    · apply good_ite
                      · exact hlist _ _ (good_extractSwiftTypealias cfg n ctx s h)
                      · apply good_ite
                        · exact hlist _ _ (good_extractSwiftAssociatedType cfg n ctx s h)
                        · apply good_ite
                          · exact ih _ _ h
                          · apply good_ite
                            · exact ih _ _ h
                            · apply good_ite
                              · exact ih _ _ h
                              · apply good_ite
                                · apply good_ite
                                  · exact ih _ _ h
                                  · exact good_extractInterface cfg n ctx s h
                                · apply good_ite
                                  · exact ih _ _ h
                                  · apply good_ite
                                    · exact good_extractEnum cfg n ctx s h
                                    · apply good_ite
                                      · exact hlist _ _
                                          (good_of_refsOnly (refsOnly_extractImport cfg n s) _ h)
                                      · apply good_ite
                                        · exact hlist _ _
                                            (good_of_refsOnly (refsOnly_extractCall cfg n s) _ h)
                                        · exact hlist _ _ h
    | extractFunctionT n ctx =>
      simp only [run]
      split
      · exact h
      · next hanon =>
        apply good_tail
        exact hgcreate _ _ _ _ _ _ (fun _ => hanon) h
    | extractMethodT n ctx =>
      simp only [run]
      split
      · exact ih _ _ h
      · apply good_tail
        exact hgcreate _ _ _ _ _ _ (fun hkf => nomatch hkf) h
    | extractClassT n ctx =>
      simp only [run]
      apply good_tail
      apply good_runList _ _ _ (fun t s' h' => ih t s' h')
      exact good_class_shape _ _ _ _ _ _ _ (refsOnly_extractInheritance cfg n _ _)
        (fun hkf => nomatch hkf) h
    | extractStructT n ctx =>
      simp only [run]
      apply good_tail
      apply good_runList _ _ _ (fun t s' h' => ih t s' h')
      exact good_class_shape _ _ _ _ _ _ _ (refsOnly_refl _) (fun hkf => nomatch hkf) h
    | visitForCallsT n =>
      exact good_of_refsOnly (refsOnly_visitForCalls cfg (f + 1) n s) _ h
    | kotlinClassT n ctx =>
      simp only [run]
      apply good_tail
      apply hbody
      exact good_class_shape _ _ _ _ _ _ _ (refsOnly_extractKotlinInheritance cfg n _ _)
        (fun hkf => nomatch hkf) h
    | kotlinEnumT n ctx =>
      simp only [run]
      apply good_tail
      apply hbody
      exact good_class_shape _ _ _ _ _ _ _ (refsOnly_extractKotlinInheritance cfg n _ _)
        (fun hkf => nomatch hkf) h
    | kotlinObjectT n ctx =>
      simp only [run]
      apply good_tail
      apply hbody
      exact good_class_shape _ _ _ _ _ _ _ (refsOnly_extractKotlinInheritance cfg n _ _)
        (fun hkf => nomatch hkf) h
    | kotlinCompanionT n ctx =>
      simp only [run]
      apply good_tail
      apply hbody
      exact good_class_shape _ _ _ _ _ _ _ (refsOnly_refl _) (fun hkf => nomatch hkf) h
    | swiftClassT n ctx =>
      simp only [run]
      apply good_tail
      exact ih _ _ (good_class_shape _ _ _ _ _ _ _
        (refsOnly_extractSwiftInheritance cfg n _ _) (fun hkf => nomatch hkf) h)
    | swiftStructT n ctx =>
      simp only [run]
      apply good_tail
      exact ih _ _ (good_class_shape _ _ _ _ _ _ _
        (refsOnly_extractSwiftInheritance cfg n _ _) (fun hkf => nomatch hkf) h)
    | swiftActorT n ctx =>
      simp only [run]
      apply good_tail
      exact ih _ _ (good_class_shape _ _ _ _ _ _ _
        (refsOnly_extractSwiftInheritance cfg n _ _) (fun hkf => nomatch hkf) h)
    | swiftExtensionT n ctx =>
      simp only [run]
      apply good_tail
      exact ih _ _ (good_class_shape _ _ _ _ _ _ _
        (refsOnly_extractSwiftInheritance cfg n _ _) (fun hkf => nomatch hkf) h)
    | swiftEnumT n ctx =>
      simp only [run]
      apply good_tail
      apply hbody
      exact good_class_shape _ _ _ _ _ _ _ (refsOnly_extractSwiftInheritance cfg n _ _)
        (fun hkf => nomatch hkf) h
    | swiftProtocolT n ctx =>
      simp only [run]
      apply good_tail
      apply hbody
      exact good_class_shape _ _ _ _ _ _ _ (refsOnly_extractSwiftInheritance cfg n _ _)
        (fun hkf => nomatch hkf) h
    | swiftInitT n ctx =>
      simp only [run]
      apply good_tail
      exact ih _ _ (good_class_shape _ _ _ _ _ _ _ (refsOnly_refl _)
        (fun hkf => nomatch hkf) h)
    | swiftDeinitT n ctx =>
      simp only [run]
      apply good_tail
      exact ih _ _ (good_class_shape _ _ _ _ _ _ _ (refsOnly_refl _)
        (fun hkf => nomatch hkf) h)
    | swiftClassBodyT n =>
      simp only [run]
      exact hbody _ _ _ _ h
    | swiftFunctionBodyT n =>
      simp only [run]
      exact hbody _ _ _ _ h
    | swiftPropertyT n ctx =>
      simp only [run]
      exact good_extractSwiftProperty cfg n ctx s h
    | swiftSubscriptT n ctx =>
      simp only [run]
      exact good_extractSwiftSubscript cfg n ctx s h
    | swiftTypealiasT n ctx =>
      simp only [run]
      exact good_extractSwiftTypealias cfg n ctx s h
    | swiftAssociatedTypeT n ctx =>
      simp only [run]
      exact good_extractSwiftAssociatedType cfg n ctx s h
    | swiftProtocolPropertyT n ctx =>
      simp only [run]
      exact good_extractSwiftProtocolProperty cfg n ctx s h
    | swiftProtocolFunctionT n ctx =>
      simp only [run]
      exact good_extractSwiftProtocolFunction cfg n ctx s h
    | kotlinEnumEntryT n =>
      simp only [run]
      exact good_extractKotlinEnumEntry cfg n s h
    | swiftEnumCaseT n =>
      simp only [run]
      exact good_extractSwiftEnumCase cfg n s h

/-! ## C1 and C7: node ids and anonymous names -/

theorem treeSitterExtract_nodeOk (fp src : String) (lang : Language)
    (pr : Except String SyntaxNode) (now dur : Nat) :
    ∀ nd ∈ (treeSitterExtract fp src lang pr now dur).nodes, NodeOk fp nd := by
  intro nd hnd
  unfold treeSitterExtract at hnd
  split at hnd
  · simp at hnd
  · split at hnd
    · simp at hnd
    · split at hnd
      · simp at hnd
      · split at hnd
        · simp at hnd
        · exact (good_run _ _ _ _ (good_init _)).1 nd hnd

theorem nodeOk_specId {fp : String} {nd : Node} (h : NodeOk fp nd) :
    nd.id = specIdFormula nd := by
  obtain ⟨hfp, hid, _⟩ := h
  rw [hid]
  unfold generateNodeId specIdFormula
  rw [hfp]

/-- **C7 (amended).** Every `function`-kind node the tree-sitter walker emits
has a resolvable name: it is never `<anonymous>` (anonymous functions are
skipped).  Nodes of other kinds can carry the name `<anonymous>`. -/
theorem c7_no_anonymous_function (fp src : String) (lang : Language)
    (pr : Except String SyntaxNode) (now dur : Nat) :
    ∀ nd ∈ (treeSitterExtract fp src lang pr now dur).nodes,
      nd.kind = NodeKind.function → nd.name ≠ "<anonymous>" :=
  fun nd hnd hf => (treeSitterExtract_nodeOk fp src lang pr now dur nd hnd).2.2 hf

theorem c7_witness :
    c7Node ∈ (treeSitterExtract "a.ts" namedFuncSource .typescript
      (.ok namedFuncTree) 0 0).nodes ∧
    c7Node.kind = NodeKind.function ∧ c7Node.name ≠ "<anonymous>" :=
  ⟨by decide, by decide,
   c7_no_anonymous_function "a.ts" namedFuncSource .typescript (.ok namedFuncTree) 0 0
     c7Node (by decide) (by decide)⟩

/-- Counterexample to C7 as stated: `export default class {}` emits a `class`
node literally named `<anonymous>`, so some emitted node does carry that
name. -/
theorem c7_counterexample :
    ∃ nd ∈ (treeSitterExtract "a.ts" anonClassSource .typescript
      (.ok anonClassTree) 0 0).nodes, nd.name = "<anonymous>" := by
  decide

/-- **C1 (amended).** Every node emitted by the tree-sitter walker carries the
input file path and the id `kind:` followed by the first 32 hex characters of
SHA-256 of `filePath:kind:name:startLine`; consequently two tree-sitter
extractions agree on the id of any node that keeps its file path, kind, name
and start line.  The pattern-based Liquid extractor does not satisfy this
formula (its component ids hash a `tag:name` string that differs from the
node's name). -/
theorem c1_node_id (fp1 src1 : String) (lang1 : Language)
    (pr1 : Except String SyntaxNode) (now1 dur1 : Nat) (fp2 src2 : String)
    (lang2 : Language) (pr2 : Except String SyntaxNode) (now2 dur2 : Nat) :
    (∀ nd ∈ (treeSitterExtract fp1 src1 lang1 pr1 now1 dur1).nodes,
      nd.filePath = fp1 ∧ nd.id = specIdFormula nd) ∧
    (∀ nd ∈ (treeSitterExtract fp1 src1 lang1 pr1 now1 dur1).nodes,
      ∀ md ∈ (treeSitterExtract fp2 src2 lang2 pr2 now2 dur2).nodes,
        nd.filePath = md.filePath → nd.kind = md.kind → nd.name = md.name →
        nd.startLine = md.startLine → nd.id = md.id) := by
  refine ⟨?_, ?_⟩
  · intro nd hnd
    have h := treeSitterExtract_nodeOk fp1 src1 lang1 pr1 now1 dur1 nd hnd
    exact ⟨h.1, nodeOk_specId h⟩
  · intro nd hnd md hmd hfp hk hn hl
    rw [nodeOk_specId (treeSitterExtract_nodeOk fp1 src1 lang1 pr1 now1 dur1 nd hnd),
      nodeOk_specId (treeSitterExtract_nodeOk fp2 src2 lang2 pr2 now2 dur2 md hmd)]
    unfold specIdFormula
    rw [hfp, hk, hn, hl]

theorem c1_node_id_witness :
    (c1Node ∈ (treeSitterExtract "a.ts" namedFuncSource .typescript
        (.ok namedFuncTree) 5 0).nodes) ∧
    c1Node.id = specIdFormula c1Node ∧ c1Node.id = c1NodeB.id :=
  ⟨by decide,
   ((c1_node_id "a.ts" namedFuncSource .typescript (.ok namedFuncTree) 5 0 "a.ts"
       namedFuncSource .typescript (.ok namedFuncTree) 7 0).1 c1Node (by decide)).2,
   (c1_node_id "a.ts" namedFuncSource .typescript (.ok namedFuncTree) 5 0 "a.ts"
       namedFuncSource .typescript (.ok namedFuncTree) 7 0).2 c1Node (by decide) c1NodeB
     (by decide) (by decide) (by decide) (by decide) (by decide)⟩

/-- Counterexample to C1 as stated: a Liquid file's nodes do not follow the
claimed id formula — already the file node hashes the full path where the
formula says its (basename) name. -/
theorem c1_counterexample :
    ∃ nd ∈ (extractFromSource "snippets/x.liquid" liquidRenderSource (some .liquid)
        (.error "") (fun _ => none) 0 0).nodes, nd.id ≠ specIdFormula nd := by
  decide

/-! ## C8: the contains subgraph -/

theorem get?_some_lt {α : Type} {l : List α} {i : Nat} {a : α}
    (h : l.get? i = some a) : i < l.length := by
  by_contra hge
  rw [List.get?_eq_none.mpr (Nat.le_of_not_lt hge)] at h
  exact absurd h (by simp)

theorem transGen_empty {α : Type} {r : α → α → Prop} (hr : ∀ a b, ¬ r a b) {v w : α}
    (h : Relation.TransGen r v w) : False := by
  induction h with
  | single hab => exact hr _ _ hab
  | tail _ hbc _ => exact hr _ _ hbc

theorem pairwise_index_unique {nodes : List Node}
    (hdis : nodes.Pairwise (fun a b => a.id ≠ b.id)) {i j : Nat} {x y : Node}
    (hx : nodes.get? i = some x) (hy : nodes.get? j = some y) (hxy : x.id = y.id) :
    i = j := by
  have hi := get?_some_lt hx
  have hj := get?_some_lt hy
  have hpg := List.pairwise_iff_get.mp hdis
  rcases Nat.lt_trichotomy i j with h | h | h
  · exfalso
    have hne := hpg ⟨i, hi⟩ ⟨j, hj⟩ h
    rw [(Option.some_inj.mp ((List.get?_eq_get hi).symm.trans hx)),
      (Option.some_inj.mp ((List.get?_eq_get hj).symm.trans hy))] at hne
    exact hne hxy
  · exact h
  · exfalso
    have hne := hpg ⟨j, hj⟩ ⟨i, hi⟩ h
    rw [(Option.some_inj.mp ((List.get?_eq_get hi).symm.trans hx)),
      (Option.some_inj.mp ((List.get?_eq_get hj).symm.trans hy))] at hne
    exact hne hxy.symm

theorem countId_le_one {nodes : List Node}
    (hdis : nodes.Pairwise (fun a b => a.id ≠ b.id)) (id : String) :
    countId nodes id ≤ 1 := by
  induction nodes with
  | nil => simp [countId]
  | cons a l ih =>
    obtain ⟨hda, hdl⟩ := List.pairwise_cons.mp hdis
    by_cases h : a.id = id
    · have hzero : countId l id = 0 := by
        simp only [countId, List.length_eq_zero, List.filter_eq_nil_iff]
        intro b hb
        simp only [decide_eq_true_eq]
        intro hbid
        exact hda b hb (h.trans hbid.symm)
      have hstep : countId (a :: l) id = countId l id + 1 := by
        simp [countId, List.filter_cons, h]
      omega
    · have hstep : countId (a :: l) id = countId l id := by
        simp [countId, List.filter_cons, h]
      have := ih hdl
      omega

theorem forest_empty (R : ExtractionResult) (he : R.edges = []) : containsForest R := by
  constructor
  · intro n _ _
    simp [containsTargetCount, he]
  · intro v htg
    exact transGen_empty (fun a b hab => by simp [containsRel, he] at hab) htg

theorem forest_of_good (fp : String) (s : WalkState) (hg : Good fp s)
    (R : ExtractionResult) (hn : R.nodes = s.nodes) (he : R.edges = s.edges)
    (hdis : R.nodes.Pairwise (fun a b => a.id ≠ b.id)) : containsForest R := by
  rw [hn] at hdis
  constructor
  · intro n hmem _
    have hct : containsTargetCount R n.id = countTarget s.edges n.id := by
      rw [containsTargetCount, he]; rfl
    rw [hct]
    exact Nat.le_trans (hg.2.2.2 n.id) (countId_le_one hdis n.id)
  · intro v htg
    have hstep : ∀ a b, containsRel R a b → ∃ i j, i < j ∧
        (∃ x, s.nodes.get? i = some x ∧ x.id = a) ∧
        (∃ y, s.nodes.get? j = some y ∧ y.id = b) := by
      intro a b hab
      rw [containsRel, he] at hab
      obtain ⟨_, i, j, hij, hx, hy⟩ := hg.2.2.1 _ hab
      exact ⟨i, j, hij, hx, hy⟩
    have hchain : ∀ a b, Relation.TransGen (containsRel R) a b → ∃ i j, i < j ∧
        (∃ x, s.nodes.get? i = some x ∧ x.id = a) ∧
        (∃ y, s.nodes.get? j = some y ∧ y.id = b) := by
      intro a b h
      induction h with
      | single hab => exact hstep _ _ hab
      | tail _ hbc ih =>
        obtain ⟨i, j, hij, hxa, ⟨y, hy, hyid⟩⟩ := ih
        obtain ⟨i2, j2, hij2, ⟨y2, hy2, hy2id⟩, hzc⟩ := hstep _ _ hbc
        have hji : j = i2 :=
          pairwise_index_unique hdis hy hy2 (hyid.trans hy2id.symm)
        exact ⟨i, j2, by omega, hxa, hzc⟩
    obtain ⟨i, j, hij, ⟨x, hx, hxid⟩, ⟨y, hy, hyid⟩⟩ := hchain v v htg
    have : i = j := pairwise_index_unique hdis hx hy (hxid.trans hyid.symm)
    omega

/-- **C8 (amended).** When the emitted nodes of one extraction have pairwise
distinct ids, the `contains` subgraph is a forest: every node is the target of
at most one `contains` edge and the relation is acyclic.  Without the
distinctness hypothesis the property fails: duplicated declarations can hash to
one id that two `contains` edges target. -/
theorem c8_contains_forest (fp src : String) (lang : Language)
    (pr : Except String SyntaxNode) (now dur : Nat)
    (hdis : (treeSitterExtract fp src lang pr now dur).nodes.Pairwise
      (fun a b => a.id ≠ b.id)) :
    containsForest (treeSitterExtract fp src lang pr now dur) := by
  revert hdis
  unfold treeSitterExtract
  split
  · intro _; exact forest_empty _ rfl
  · split
    · intro _; exact forest_empty _ rfl
    · split
      · intro _; exact forest_empty _ rfl
      · split
        · intro _; exact forest_empty _ rfl
        · intro hdis
          exact forest_of_good _ _ (good_run _ _ _ _ (good_init _)) _ rfl rfl hdis

theorem c8_witness :
    (treeSitterExtract "a.ts" oneClassSource .typescript
      (.ok oneClassTree) 0 0).nodes.Pairwise (fun a b => a.id ≠ b.id) ∧
    containsForest (treeSitterExtract "a.ts" oneClassSource .typescript
      (.ok oneClassTree) 0 0) :=
  ⟨by decide, c8_contains_forest "a.ts" oneClassSource .typescript
    (.ok oneClassTree) 0 0 (by decide)⟩

/-- Counterexample to C8 as stated: `class A { m(){} } class B { m(){} }` on one
line gives both methods the id hash of `(a.ts, method, m, 1)`, and each class
emits a `contains` edge onto that one id — a non-file node targeted twice. -/
theorem c8_counterexample :
    ¬ containsForest (treeSitterExtract "a.ts" twoClassesSource .typescript
      (.ok twoClassesTree) 0 0) := by
  intro hcf
  have h2 := hcf.1 c8Node (by decide) (by decide)
  exact absurd h2 (by decide)

/-! ## C2: the clock reading only enters `updatedAt` -/

theorem retime_stack (m : Nat) (s : WalkState) : (retime m s).nodeStack = s.nodeStack := rfl

theorem retime_push (m : Nat) (s : WalkState) (x : String) :
    { retime m s with nodeStack := x :: (retime m s).nodeStack } =
      retime m { s with nodeStack := x :: s.nodeStack } := rfl

theorem retime_tail (m : Nat) (s : WalkState) :
    { retime m s with nodeStack := (retime m s).nodeStack.tail } =
      retime m { s with nodeStack := s.nodeStack.tail } := rfl

theorem retime_addRef (m : Nat) (s : WalkState) (r : UnresolvedReference) :
    addRef (retime m s) r = retime m (addRef s r) := rfl

theorem buildQualifiedName_retime (fp : String) (l : Language) (src : String)
    (e : LanguageExtractor) (n1 n2 : Nat) (s : WalkState) (nm : String) :
    buildQualifiedName ⟨fp, l, src, e, n2⟩ (retime n2 s) nm =
      buildQualifiedName ⟨fp, l, src, e, n1⟩ s nm := by
  unfold buildQualifiedName
  have hone : ∀ nodeId : String,
      (((retime n2 s).nodes.find? (·.id = nodeId)).map (·.name)) =
        ((s.nodes.find? (·.id = nodeId)).map (·.name)) := by
    intro nodeId
    show ((s.nodes.map (retimeNode n2)).find? (fun nd => nd.id = nodeId)).map (·.name) = _
    rw [List.find?_map, Option.map_map]
    rfl
  have hfm : (retime n2 s).nodeStack.reverse.filterMap (fun nodeId =>
        ((retime n2 s).nodes.find? (·.id = nodeId)).map (·.name)) =
      s.nodeStack.reverse.filterMap (fun nodeId =>
        ((s.nodes.find? (·.id = nodeId)).map (·.name))) := by
    rw [retime_stack]
    exact List.filterMap_congr (fun a _ => hone a)
  rw [hfm]

theorem retime_createNode (fp : String) (l : Language) (src : String)
    (e : LanguageExtractor) (n1 n2 : Nat) (k : NodeKind) (nm : String) (n : SyntaxNode)
    (ex : Extra) (s : WalkState) :
    createNode ⟨fp, l, src, e, n2⟩ k nm n ex (retime n2 s) =
      (retimeNode n2 (createNode ⟨fp, l, src, e, n1⟩ k nm n ex s).1,
       retime n2 (createNode ⟨fp, l, src, e, n1⟩ k nm n ex s).2) := by
  have hbq := buildQualifiedName_retime fp l src e n1 n2 s nm
  unfold createNode
  rw [retime_stack]
  cases hsk : s.nodeStack with
  | nil =>
    rw [Prod.mk.injEq]
    constructor
    · simp [retimeNode, hbq]
    · simp [retime, retimeNode, List.map_append]
      exact hbq
  | cons p rest =>
    rw [Prod.mk.injEq]
    constructor
    · simp [retimeNode, hbq]
    · simp [retime, retimeNode, List.map_append]
      exact hbq


/-! ### Commutation of the extractors with `retime` -/

theorem retime_foldl {α : Type} (m : Nat) (g gp : WalkState → α → WalkState)
    (hg : ∀ s a, gp (retime m s) a = retime m (g s a)) :
    ∀ (l : List α) (s : WalkState), l.foldl gp (retime m s) = retime m (l.foldl g s) := by
  intro l
  induction l with
  | nil => intro s; rfl
  | cons c rest ih =>
    intro s
    simp only [List.foldl_cons]
    rw [hg, ih]

theorem retime_foldl_pair {α : Type} (m : Nat)
    (g gp : WalkState × Bool → α → WalkState × Bool)
    (hg : ∀ s b a, gp (retime m s, b) a = (retime m (g (s, b) a).1, (g (s, b) a).2)) :
    ∀ (l : List α) (s : WalkState) (b : Bool),
      l.foldl gp (retime m s, b) = (retime m (l.foldl g (s, b)).1, (l.foldl g (s, b)).2) := by
  intro l
  induction l with
  | nil => intro s b; rfl
  | cons c rest ih =>
    intro s b
    simp only [List.foldl_cons]
    rw [hg, ih]

theorem retime_runList (m : Nat) (g gp : Task → WalkState → WalkState)
    (hg : ∀ t s, gp t (retime m s) = retime m (g t s)) :
    ∀ (ts : List Task) (s : WalkState),
      runList gp ts (retime m s) = retime m (runList g ts s) := by
  intro ts s
  exact retime_foldl m _ _ (fun s t => hg t s) ts s

theorem retime_extractInterface (fp : String) (l : Language) (src : String) (e : LanguageExtractor) (n1 n2 : Nat)
    (n : SyntaxNode) (ctx : Ctx) (s : WalkState) :
    extractInterface ⟨fp, l, src, e, n2⟩ n ctx (retime n2 s) =
      retime n2 (extractInterface ⟨fp, l, src, e, n1⟩ n ctx s) := by
  unfold extractInterface
  dsimp only
  rw [retime_createNode fp l src e n1 n2]
  rfl

theorem retime_extractEnum (fp : String) (l : Language) (src : String) (e : LanguageExtractor) (n1 n2 : Nat)
    (n : SyntaxNode) (ctx : Ctx) (s : WalkState) :
    extractEnum ⟨fp, l, src, e, n2⟩ n ctx (retime n2 s) =
      retime n2 (extractEnum ⟨fp, l, src, e, n1⟩ n ctx s) := by
  unfold extractEnum
  dsimp only
  rw [retime_createNode fp l src e n1 n2]
  rfl

theorem retime_extractKotlinEnumEntry (fp : String) (l : Language) (src : String) (e : LanguageExtractor) (n1 n2 : Nat)
    (n : SyntaxNode) (s : WalkState) :
    extractKotlinEnumEntry ⟨fp, l, src, e, n2⟩ n (retime n2 s) =
      retime n2 (extractKotlinEnumEntry ⟨fp, l, src, e, n1⟩ n s) := by
  unfold extractKotlinEnumEntry
  dsimp only
  rw [retime_createNode fp l src e n1 n2]

theorem retime_extractKotlinProperty (fp : String) (l : Language) (src : String) (e : LanguageExtractor) (n1 n2 : Nat)
    (n : SyntaxNode) (ctx : Ctx) (s : WalkState) :
    extractKotlinProperty ⟨fp, l, src, e, n2⟩ n ctx (retime n2 s) =
      retime n2 (extractKotlinProperty ⟨fp, l, src, e, n1⟩ n ctx s) := by
  unfold extractKotlinProperty
  dsimp only
  rw [retime_createNode fp l src e n1 n2]
  rfl

theorem retime_extractKotlinTypeAlias (fp : String) (l : Language) (src : String) (e : LanguageExtractor) (n1 n2 : Nat)
    (n : SyntaxNode) (ctx : Ctx) (s : WalkState) :
    extractKotlinTypeAlias ⟨fp, l, src, e, n2⟩ n ctx (retime n2 s) =
      retime n2 (extractKotlinTypeAlias ⟨fp, l, src, e, n1⟩ n ctx s) := by
  unfold extractKotlinTypeAlias
  dsimp only
  rw [retime_createNode fp l src e n1 n2]
  rfl

theorem retime_extractSwiftEnumCase (fp : String) (l : Language) (src : String) (e : LanguageExtractor) (n1 n2 : Nat)
    (n : SyntaxNode) (s : WalkState) :
    extractSwiftEnumCase ⟨fp, l, src, e, n2⟩ n (retime n2 s) =
      retime n2 (extractSwiftEnumCase ⟨fp, l, src, e, n1⟩ n s) := by
  unfold extractSwiftEnumCase
  dsimp only
  rw [retime_createNode fp l src e n1 n2]

theorem retime_extractSwiftProperty (fp : String) (l : Language) (src : String) (e : LanguageExtractor) (n1 n2 : Nat)
    (n : SyntaxNode) (ctx : Ctx) (s : WalkState) :
    extractSwiftProperty ⟨fp, l, src, e, n2⟩ n ctx (retime n2 s) =
      retime n2 (extractSwiftProperty ⟨fp, l, src, e, n1⟩ n ctx s) := by
  unfold extractSwiftProperty
  dsimp only
  rw [retime_createNode fp l src e n1 n2]
  rfl

theorem retime_extractSwiftSubscript (fp : String) (l : Language) (src : String) (e : LanguageExtractor) (n1 n2 : Nat)
    (n : SyntaxNode) (ctx : Ctx) (s : WalkState) :
    extractSwiftSubscript ⟨fp, l, src, e, n2⟩ n ctx (retime n2 s) =
      retime n2 (extractSwiftSubscript ⟨fp, l, src, e, n1⟩ n ctx s) := by
  unfold extractSwiftSubscript
  dsimp only
  rw [retime_createNode fp l src e n1 n2]
  rfl

theorem retime_extractSwiftTypealias (fp : String) (l : Language) (src : String) (e : LanguageExtractor) (n1 n2 : Nat)
    (n : SyntaxNode) (ctx : Ctx) (s : WalkState) :
    extractSwiftTypealias ⟨fp, l, src, e, n2⟩ n ctx (retime n2 s) =
      retime n2 (extractSwiftTypealias ⟨fp, l, src, e, n1⟩ n ctx s) := by
  unfold extractSwiftTypealias
  dsimp only
  rw [retime_createNode fp l src e n1 n2]
  rfl

theorem retime_extractSwiftAssociatedType (fp : String) (l : Language) (src : String) (e : LanguageExtractor) (n1 n2 : Nat)
    (n : SyntaxNode) (ctx : Ctx) (s : WalkState) :
    extractSwiftAssociatedType ⟨fp, l, src, e, n2⟩ n ctx (retime n2 s) =
      retime n2 (extractSwiftAssociatedType ⟨fp, l, src, e, n1⟩ n ctx s) := by
  unfold extractSwiftAssociatedType
  dsimp only
  rw [retime_createNode fp l src e n1 n2]

theorem retime_extractSwiftProtocolProperty (fp : String) (l : Language) (src : String) (e : LanguageExtractor) (n1 n2 : Nat)
    (n : SyntaxNode) (ctx : Ctx) (s : WalkState) :
    extractSwiftProtocolProperty ⟨fp, l, src, e, n2⟩ n ctx (retime n2 s) =
      retime n2 (extractSwiftProtocolProperty ⟨fp, l, src, e, n1⟩ n ctx s) := by
  unfold extractSwiftProtocolProperty
  dsimp only
  rw [retime_createNode fp l src e n1 n2]

theorem retime_extractSwiftProtocolFunction (fp : String) (l : Language) (src : String) (e : LanguageExtractor) (n1 n2 : Nat)
    (n : SyntaxNode) (ctx : Ctx) (s : WalkState) :
    extractSwiftProtocolFunction ⟨fp, l, src, e, n2⟩ n ctx (retime n2 s) =
      retime n2 (extractSwiftProtocolFunction ⟨fp, l, src, e, n1⟩ n ctx s) := by
  unfold extractSwiftProtocolFunction
  dsimp only
  rw [retime_createNode fp l src e n1 n2]

theorem retime_extractImport (fp : String) (l : Language) (src : String)
    (e : LanguageExtractor) (n1 n2 : Nat) (n : SyntaxNode) (s : WalkState) :
    extractImport ⟨fp, l, src, e, n2⟩ n (retime n2 s) =
      retime n2 (extractImport ⟨fp, l, src, e, n1⟩ n s) := by
  unfold extractImport
  dsimp only
  have hmn : moduleNameOf ⟨fp, l, src, e, n2⟩ n = moduleNameOf ⟨fp, l, src, e, n1⟩ n := rfl
  rw [retime_stack, hmn]
  split
  · split
    · rw [retime_addRef]
    · rfl
  · rfl

theorem retime_extractCall (fp : String) (l : Language) (src : String)
    (e : LanguageExtractor) (n1 n2 : Nat) (n : SyntaxNode) (s : WalkState) :
    extractCall ⟨fp, l, src, e, n2⟩ n (retime n2 s) =
      retime n2 (extractCall ⟨fp, l, src, e, n1⟩ n s) := by
  unfold extractCall
  dsimp only
  rw [retime_stack]
  split
  · rfl
  · split
    · rw [retime_addRef]
    · rfl

theorem retime_extractInheritance (fp : String) (l : Language) (src : String)
    (e : LanguageExtractor) (n1 n2 : Nat) (n : SyntaxNode) (cid : String) (s : WalkState) :
    extractInheritance ⟨fp, l, src, e, n2⟩ n cid (retime n2 s) =
      retime n2 (extractInheritance ⟨fp, l, src, e, n1⟩ n cid s) := by
  unfold extractInheritance
  dsimp only
  refine retime_foldl n2 _ _ ?_ n.namedChildren s
  intro s0 child
  have h1 : (if child.type = "extends_clause" ∨ child.type = "class_heritage" ∨
        child.type = "superclass" then
      match child.namedChild 0 with
      | some superclass =>
        addRef (retime n2 s0) ⟨cid, getNodeText superclass src, .extends_,
          child.info.startRow + 1, child.info.startCol⟩
      | none => retime n2 s0
    else retime n2 s0) =
      retime n2 (if child.type = "extends_clause" ∨ child.type = "class_heritage" ∨
          child.type = "superclass" then
        match child.namedChild 0 with
        | some superclass =>
          addRef s0 ⟨cid, getNodeText superclass src, .extends_,
            child.info.startRow + 1, child.info.startCol⟩
        | none => s0
      else s0) := by
    split
    · split
      · rw [retime_addRef]
      · rfl
    · rfl
  rw [h1]
  split
  · exact retime_foldl n2 _ _ (fun s1 iface => retime_addRef n2 s1
      ⟨cid, getNodeText iface src, .implements, iface.info.startRow + 1,
        iface.info.startCol⟩) child.namedChildren _
  · rfl

theorem retime_extractKotlinInheritance (fp : String) (l : Language) (src : String)
    (e : LanguageExtractor) (n1 n2 : Nat) (n : SyntaxNode) (cid : String) (s : WalkState) :
    extractKotlinInheritance ⟨fp, l, src, e, n2⟩ n cid (retime n2 s) =
      retime n2 (extractKotlinInheritance ⟨fp, l, src, e, n1⟩ n cid s) := by
  unfold extractKotlinInheritance
  dsimp only
  refine congrArg Prod.fst (retime_foldl_pair n2 _ _ ?_ n.namedChildren s true)
  intro s0 b child
  dsimp only
  split
  · refine retime_foldl_pair n2 _ _ ?_ child.namedChildren s0 b
    intro s1 b1 specChild
    dsimp only
    split
    · split
      · rw [retime_addRef]
      · rfl
    · split
      · rw [retime_addRef]
      · rfl
  · rfl

theorem retime_extractSwiftInheritance (fp : String) (l : Language) (src : String)
    (e : LanguageExtractor) (n1 n2 : Nat) (n : SyntaxNode) (cid : String) (s : WalkState) :
    extractSwiftInheritance ⟨fp, l, src, e, n2⟩ n cid (retime n2 s) =
      retime n2 (extractSwiftInheritance ⟨fp, l, src, e, n1⟩ n cid s) := by
  unfold extractSwiftInheritance
  dsimp only
  refine congrArg Prod.fst (retime_foldl_pair n2 _ _ ?_ n.namedChildren s true)
  intro s0 b child
  dsimp only
  split
  · refine retime_foldl_pair n2 _ _ ?_ child.namedChildren s0 b
    intro s1 b1 specChild
    dsimp only
    split
    · rw [retime_addRef]
    · rfl
  · rfl

theorem retimeNode_id (m : Nat) (nd : Node) : (retimeNode m nd).id = nd.id := rfl

theorem ite_retime (m : Nat) (c : Prop) [Decidable c] {a b x y : WalkState}
    (ha : a = retime m x) (hb : b = retime m y) :
    (if c then a else b) = retime m (if c then x else y) := by
  by_cases h : c
  · rw [if_pos h, if_pos h, ha]
  · rw [if_neg h, if_neg h, hb]

theorem run_retime (fp : String) (l : Language) (src : String) (e : LanguageExtractor)
    (n1 n2 : Nat) : ∀ (f : Nat) (t : Task) (s : WalkState),
    run ⟨fp, l, src, e, n2⟩ f t (retime n2 s) = retime n2 (run ⟨fp, l, src, e, n1⟩ f t s) := by
  intro f
  induction f with
  | zero => intro t s; rfl
  | succ f ih =>
    have hlist : ∀ (ts : List Task) (s : WalkState),
        runList (fun t s => run ⟨fp, l, src, e, n2⟩ f t s) ts (retime n2 s) =
          retime n2 (runList (fun t s => run ⟨fp, l, src, e, n1⟩ f t s) ts s) :=
      retime_runList n2 _ _ (fun t s => ih t s)
    have hbody : ∀ (lst : List SyntaxNode) (mk : SyntaxNode → List Task)
        (p : SyntaxNode → Prop) [DecidablePred p] (s : WalkState),
        lst.foldl (fun s c =>
            if p c then runList (fun t s => run ⟨fp, l, src, e, n2⟩ f t s) (mk c) s else s)
          (retime n2 s) =
        retime n2 (lst.foldl (fun s c =>
            if p c then runList (fun t s => run ⟨fp, l, src, e, n1⟩ f t s) (mk c) s else s)
          s) := by
      intro lst mk p hp s
      refine retime_foldl n2 _ _ ?_ lst s
      intro s0 c
      split
      · exact hlist _ _
      · rfl
    intro t s
    cases t with
    | visit n ctx =>
      simp only [run]
      dsimp only
      rw [retime_stack]
      apply ite_retime
      · apply ite_retime
        · exact ih _ _
        · exact ih _ _
      · apply ite_retime
        · apply ite_retime
          · split <;> exact ih _ _
          · apply ite_retime
            · apply ite_retime
              · exact retime_extractInterface fp l src e n1 n2 n ctx s
              · apply ite_retime
                · exact ih _ _
                · exact ih _ _
            · apply ite_retime
              · exact ih _ _
              · exact ih _ _
        · apply ite_retime
          · exact ih _ _
          · apply ite_retime
            · rw [retime_extractKotlinProperty fp l src e n1 n2]
              exact hlist _ _
            · apply ite_retime
              · rw [retime_extractKotlinTypeAlias fp l src e n1 n2]
                exact hlist _ _
              · apply ite_retime
                · rw [retime_extractSwiftProperty fp l src e n1 n2]
                  exact hlist _ _
                · apply ite_retime
                  · rw [retime_extractSwiftProperty fp l src e n1 n2]
                    exact hlist _ _
                  · apply ite_retime
                    · exact retime_extractSwiftSubscript fp l src e n1 n2 n ctx s
                    · apply ite_retime
                      · rw [retime_extractSwiftTypealias fp l src e n1 n2]
                        exact hlist _ _
                      · apply ite_retime
                        · rw [retime_extractSwiftAssociatedType fp l src e n1 n2]
                          exact hlist _ _
                        · apply ite_retime
                          · exact ih _ _
                          · apply ite_retime
                            · exact ih _ _
                            · apply ite_retime
                              · exact ih _ _
                              · apply ite_retime
                                · apply ite_retime
                                  · exact ih _ _
                                  · exact retime_extractInterface fp l src e n1 n2 n ctx s
                                · apply ite_retime
                                  · exact ih _ _
                                  · apply ite_retime
                                    · exact retime_extractEnum fp l src e n1 n2 n ctx s
                                    · apply ite_retime
                                      · rw [retime_extractImport fp l src e n1 n2]
                                        exact hlist _ _
                                      · apply ite_retime
                                        · rw [retime_extractCall fp l src e n1 n2]
                                          exact hlist _ _
                                        · exact hlist _ _
    | extractFunctionT n ctx =>
      simp only [run]
      apply ite_retime
      · rfl
      · rw [retime_createNode fp l src e n1 n2]
        simp only [retimeNode_id]
        rw [retime_push]
        split
        · rw [ih, retime_tail]
          rfl
        · rw [retime_tail]
          rfl
    | extractMethodT n ctx =>
      simp only [run]
      rw [retime_stack]
      apply ite_retime
      · exact ih _ _
      · rw [retime_createNode fp l src e n1 n2]
        simp only [retimeNode_id]
        rw [retime_push]
        split
        · rw [ih, retime_tail]
          rfl
        · rw [retime_tail]
          rfl
    | extractClassT n ctx =>
      simp only [run]
      rw [retime_createNode fp l src e n1 n2]
      simp only [retimeNode_id]
      rw [retime_extractInheritance fp l src e n1 n2, retime_push, hlist, retime_tail]
      rfl
    | extractStructT n ctx =>
      simp only [run]
      rw [retime_createNode fp l src e n1 n2]
      simp only [retimeNode_id]
      rw [retime_push, hlist, retime_tail]
      rfl
    | visitForCallsT n =>
      simp only [run]
      split
      · rw [retime_extractCall fp l src e n1 n2, hlist]
      · exact hlist _ _
    | kotlinClassT n ctx =>
      simp only [run]
      rw [retime_createNode fp l src e n1 n2]
      simp only [retimeNode_id]
      rw [retime_extractKotlinInheritance fp l src e n1 n2, retime_push, hbody, retime_tail]
      rfl
    | kotlinEnumT n ctx =>
      simp only [run]
      rw [retime_createNode fp l src e n1 n2]
      simp only [retimeNode_id]
      rw [retime_extractKotlinInheritance fp l src e n1 n2, retime_push, hbody, retime_tail]
      rfl
    | kotlinObjectT n ctx =>
      simp only [run]
      rw [retime_createNode fp l src e n1 n2]
      simp only [retimeNode_id]
      rw [retime_extractKotlinInheritance fp l src e n1 n2, retime_push, hbody, retime_tail]
      rfl
    | kotlinCompanionT n ctx =>
      simp only [run]
      rw [retime_createNode fp l src e n1 n2]
      simp only [retimeNode_id]
      rw [retime_push, hbody, retime_tail]
      rfl
    | swiftClassT n ctx =>
      simp only [run]
      rw [retime_createNode fp l src e n1 n2]
      simp only [retimeNode_id]
      rw [retime_extractSwiftInheritance fp l src e n1 n2, retime_push, ih, retime_tail]
      rfl
    | swiftStructT n ctx =>
      simp only [run]
      rw [retime_createNode fp l src e n1 n2]
      simp only [retimeNode_id]
      rw [retime_extractSwiftInheritance fp l src e n1 n2, retime_push, ih, retime_tail]
      rfl
    | swiftActorT n ctx =>
      simp only [run]
      rw [retime_createNode fp l src e n1 n2]
      simp only [retimeNode_id]
      rw [retime_extractSwiftInheritance fp l src e n1 n2, retime_push, ih, retime_tail]
      rfl
    | swiftExtensionT n ctx =>
      simp only [run]
      rw [retime_createNode fp l src e n1 n2]
      simp only [retimeNode_id]
      rw [retime_extractSwiftInheritance fp l src e n1 n2, retime_push, ih, retime_tail]
      rfl
    | swiftEnumT n ctx =>
      simp only [run]
      rw [retime_createNode fp l src e n1 n2]
      simp only [retimeNode_id]
      rw [retime_extractSwiftInheritance fp l src e n1 n2, retime_push, hbody, retime_tail]
      rfl
    | swiftProtocolT n ctx =>
      simp only [run]
      rw [retime_createNode fp l src e n1 n2]
      simp only [retimeNode_id]
      rw [retime_extractSwiftInheritance fp l src e n1 n2, retime_push, hbody, retime_tail]
      rfl
    | swiftInitT n ctx =>
      simp only [run]
      rw [retime_createNode fp l src e n1 n2]
      simp only [retimeNode_id]
      rw [retime_push, ih, retime_tail]
      rfl
    | swiftDeinitT n ctx =>
      simp only [run]
      rw [retime_createNode fp l src e n1 n2]
      simp only [retimeNode_id]
      rw [retime_push, ih, retime_tail]
    | swiftClassBodyT n =>
      simp only [run]
      exact hbody _ _ _ _
    | swiftFunctionBodyT n =>
      simp only [run]
      exact hbody _ _ _ _
    | swiftPropertyT n ctx =>
      simp only [run]
      exact retime_extractSwiftProperty fp l src e n1 n2 n ctx s
    | swiftSubscriptT n ctx =>
      simp only [run]
      exact retime_extractSwiftSubscript fp l src e n1 n2 n ctx s
    | swiftTypealiasT n ctx =>
      simp only [run]
      exact retime_extractSwiftTypealias fp l src e n1 n2 n ctx s
    | swiftAssociatedTypeT n ctx =>
      simp only [run]
      exact retime_extractSwiftAssociatedType fp l src e n1 n2 n ctx s
    | swiftProtocolPropertyT n ctx =>
      simp only [run]
      exact retime_extractSwiftProtocolProperty fp l src e n1 n2 n ctx s
    | swiftProtocolFunctionT n ctx =>
      simp only [run]
      exact retime_extractSwiftProtocolFunction fp l src e n1 n2 n ctx s
    | kotlinEnumEntryT n =>
      simp only [run]
      exact retime_extractKotlinEnumEntry fp l src e n1 n2 n s
    | swiftEnumCaseT n =>
      simp only [run]
      exact retime_extractSwiftEnumCase fp l src e n1 n2 n s

theorem eraseResult_liquid (fp src : String) (jn : String → Option String)
    (now1 dur1 now2 dur2 : Nat) :
    eraseResult (liquidExtract fp src jn now1 dur1) =
      eraseResult (liquidExtract fp src jn now2 dur2) := by
  unfold eraseResult liquidExtract
  dsimp only
  simp only [List.map_cons, List.map_append, List.map_map]
  have hfile : eraseTimeNode (liquidFileNode fp src now1) =
      eraseTimeNode (liquidFileNode fp src now2) := rfl
  have hsnip : (eraseTimeNode ∘ liquidSnippetNode fp src now1) =
      (eraseTimeNode ∘ liquidSnippetNode fp src now2) := funext fun m => rfl
  have hsect : (eraseTimeNode ∘ liquidSectionNode fp src now1) =
      (eraseTimeNode ∘ liquidSectionNode fp src now2) := funext fun m => rfl
  have hschema : (eraseTimeNode ∘ liquidSchemaNode fp src jn now1) =
      (eraseTimeNode ∘ liquidSchemaNode fp src jn now2) := funext fun m => rfl
  have hassign : (eraseTimeNode ∘ liquidAssignNode fp src now1) =
      (eraseTimeNode ∘ liquidAssignNode fp src now2) := funext fun m => rfl
  have hesnip : ((fun n => (⟨(liquidFileNode fp src now1).id, n.id, EdgeKind.contains⟩ : Edge)) ∘
        liquidSnippetNode fp src now1) =
      ((fun n => (⟨(liquidFileNode fp src now2).id, n.id, EdgeKind.contains⟩ : Edge)) ∘
        liquidSnippetNode fp src now2) := funext fun m => rfl
  have hesect : ((fun n => (⟨(liquidFileNode fp src now1).id, n.id, EdgeKind.contains⟩ : Edge)) ∘
        liquidSectionNode fp src now1) =
      ((fun n => (⟨(liquidFileNode fp src now2).id, n.id, EdgeKind.contains⟩ : Edge)) ∘
        liquidSectionNode fp src now2) := funext fun m => rfl
  have heschema : ((fun n => (⟨(liquidFileNode fp src now1).id, n.id, EdgeKind.contains⟩ : Edge)) ∘
        liquidSchemaNode fp src jn now1) =
      ((fun n => (⟨(liquidFileNode fp src now2).id, n.id, EdgeKind.contains⟩ : Edge)) ∘
        liquidSchemaNode fp src jn now2) := funext fun m => rfl
  have heassign : ((fun n => (⟨(liquidFileNode fp src now1).id, n.id, EdgeKind.contains⟩ : Edge)) ∘
        liquidAssignNode fp src now1) =
      ((fun n => (⟨(liquidFileNode fp src now2).id, n.id, EdgeKind.contains⟩ : Edge)) ∘
        liquidAssignNode fp src now2) := funext fun m => rfl
  have hrsnip : (fun (m : Nat × Nat × (String × String)) =>
        (⟨(liquidFileNode fp src now1).id, "snippets/" ++ m.2.2.2 ++ ".liquid",
          RefKind.references, getLineNumber src m.1,
          m.1 - getLineStart src (getLineNumber src m.1)⟩ : UnresolvedReference)) =
      (fun (m : Nat × Nat × (String × String)) =>
        (⟨(liquidFileNode fp src now2).id, "snippets/" ++ m.2.2.2 ++ ".liquid",
          RefKind.references, getLineNumber src m.1,
          m.1 - getLineStart src (getLineNumber src m.1)⟩ : UnresolvedReference)) :=
    funext fun m => rfl
  have hrsect : (fun (m : Nat × Nat × String) =>
        (⟨(liquidFileNode fp src now1).id, "sections/" ++ m.2.2 ++ ".liquid",
          RefKind.references, getLineNumber src m.1,
          m.1 - getLineStart src (getLineNumber src m.1)⟩ : UnresolvedReference)) =
      (fun (m : Nat × Nat × String) =>
        (⟨(liquidFileNode fp src now2).id, "sections/" ++ m.2.2 ++ ".liquid",
          RefKind.references, getLineNumber src m.1,
          m.1 - getLineStart src (getLineNumber src m.1)⟩ : UnresolvedReference)) :=
    funext fun m => rfl
  rw [hfile, hsnip, hsect, hschema, hassign, hesnip, hesect, heschema, heassign,
    hrsnip, hrsect]

/-- **C2.** Two extractions of the same input (same file path, source, language
routing, parse outcome and schema-JSON oracle) differing only in the wall-clock
readings produce identical nodes, edges and unresolved references in the same
order, once `durationMs` and each node's `updatedAt` are ignored. -/
theorem c2_deterministic (filePath source : String) (language : Option Language)
    (pr : Except String SyntaxNode) (jn : String → Option String)
    (now1 dur1 now2 dur2 : Nat) :
    eraseResult (extractFromSource filePath source language pr jn now1 dur1) =
      eraseResult (extractFromSource filePath source language pr jn now2 dur2) := by
  unfold extractFromSource
  dsimp only
  split
  · exact eraseResult_liquid filePath source jn now1 dur1 now2 dur2
  · unfold treeSitterExtract
    split
    · rfl
    · split
      · rfl
      · split
        · rfl
        · next root =>
          split
          · rfl
          · next ext heq =>
            have hrt : run ⟨filePath, language.getD (detectLanguage filePath), source,
                  ext, now2⟩ (4 * treeFuel root + 4) (.visit root {}) ⟨[], [], [], []⟩ =
                retime now2 (run ⟨filePath, language.getD (detectLanguage filePath), source,
                  ext, now1⟩ (4 * treeFuel root + 4) (.visit root {}) ⟨[], [], [], []⟩) :=
              run_retime filePath (language.getD (detectLanguage filePath)) source ext
                now1 now2 (4 * treeFuel root + 4) (.visit root {}) ⟨[], [], [], []⟩
            rw [hrt]
            unfold eraseResult
            dsimp only [retime]
            simp only [List.map_map]
            have hmm : (eraseTimeNode ∘ retimeNode now2) = eraseTimeNode :=
              funext fun nd => rfl
            rw [hmm]

end CodeGraph
